import Mathlib

/-! AirPlay receiver: session server, pairing verifier and base64 codec.

A shallow embedding of `src/crypto_utils.c` and `src/airplay_server.c`.

Conventions of the embedding:
* bytes and `char`s are natural numbers (their codes); a C string is the list
  of its characters before the terminating NUL;
* `size_t` is 64 bits wide and `uint32_t` 32 bits wide; arithmetic that can wrap
  carries an explicit modulus;
* pointers that the source checks against NULL are `Option`s where a claim
  depends on the check, and plain values otherwise (the function is then the
  code's behaviour on non-null arguments);
* system calls (`select`, `accept`, `recv`) are inputs of the step they occur
  in, and `close` / `send` are recorded in an effect trace.
-/

namespace AirPlay

/-! ## Machine integers and strings -/

/-- Modulus of `size_t` arithmetic. -/
def SIZE_MOD : Nat := 2 ^ 64

/-- Modulus of `uint32_t` arithmetic. -/
def UINT32_MOD : Nat := 2 ^ 32

/-- Character codes of a string literal of the source. -/
def str (s : String) : List Nat := s.toList.map Char.toNat

/-- The C library's `strncmp(s1, s2, n)` on strings given by their characters
before the NUL: compares at most `n` characters and stops at the first
difference or at a NUL. -/
def strncmp : List Nat → List Nat → Nat → Int
  | _, _, 0 => 0
  | s1, s2, n + 1 =>
    let c1 := s1.headD 0
    let c2 := s2.headD 0
    if c1 ≠ c2 then (c1 : Int) - (c2 : Int)
    else if c1 = 0 then 0
    else strncmp s1.tail s2.tail n

/-! ## crypto_utils.c: base64 -/

/-- The table `base64_chars`: the 64 characters
`A`-`Z`, `a`-`z`, `0`-`9`, `+`, `/` and the terminating NUL of the literal. -/
def base64_chars : List Nat :=
  [65, 66, 67, 68, 69, 70, 71, 72, 73, 74, 75, 76, 77, 78, 79, 80, 81, 82, 83, 84, 85, 86, 87, 88,
   89, 90,
   97, 98, 99, 100, 101, 102, 103, 104, 105, 106, 107, 108, 109, 110, 111, 112, 113, 114, 115,
   116, 117, 118, 119, 120, 121, 122,
   48, 49, 50, 51, 52, 53, 54, 55, 56, 57,
   43, 47,
   0]

/-- The padding character `'='`. -/
def PAD : Nat := 61

/-- One pass of the body of the encoding loop: reads up to three bytes from
index `i` (zero beyond `length`), returns the new `i` and the four characters
stored at `encoded[j .. j+3]`. Bytes are below 256, so `triple` is below
`2 ^ 24` and the `uint32_t` sum does not wrap. -/
def encode_body (data : List Nat) (i : Nat) : Nat × List Nat :=
  let length := data.length
  let a := if i < length then data.getD i 0 else 0
  let i := if i < length then i + 1 else i
  let b := if i < length then data.getD i 0 else 0
  let i := if i < length then i + 1 else i
  let c := if i < length then data.getD i 0 else 0
  let i := if i < length then i + 1 else i
  let triple := (a <<< 16) + (b <<< 8) + c
  (i, [base64_chars.getD ((triple >>> 18) &&& 0x3F) 0,
       base64_chars.getD ((triple >>> 12) &&& 0x3F) 0,
       base64_chars.getD ((triple >>> 6) &&& 0x3F) 0,
       base64_chars.getD (triple &&& 0x3F) 0])

/-- The encoding loop `for (i = 0, j = 0; i < length;)`; `encoded` holds the
characters written so far, so `j` is its length. Every pass advances `i`,
hence `length` passes of fuel always suffice. -/
def encode_loop (data : List Nat) : Nat → Nat → List Nat → List Nat
  | 0, _, encoded => encoded
  | fuel + 1, i, encoded =>
    if i < data.length then
      let r := encode_body data i
      encode_loop data fuel r.1 (encoded ++ r.2)
    else encoded

/-- The padding loop `for (i = 0; i < (3 - length % 3) % 3; i++)
encoded[encoded_length - 1 - i] = '='`. -/
def encode_pad (encoded_length count : Nat) (encoded : List Nat) : List Nat :=
  (List.range count).foldl (fun e i => e.set (encoded_length - 1 - i) PAD) encoded

/-- The function `base64_encode(data, length, encoded)` on non-null arguments
(it then always returns 0): the string left in `encoded`. -/
def base64_encode (data : List Nat) : List Nat :=
  let length := data.length
  let encoded_length := ((length + 2) / 3) * 4
  let encoded := encode_loop data length 0 []
  encode_pad encoded_length ((3 - length % 3) % 3) encoded

/-- A string as `base64_decode` reads it through the pointer `encoded`: the
characters before the NUL, and the two bytes stored just before the pointer
(for instance the tail of a `key=` prefix when the value is decoded in place),
which the source reads when the string is empty. -/
structure CString where
  /-- The byte at `encoded[-2]`. -/
  prev2 : Nat
  /-- The byte at `encoded[-1]`. -/
  prev1 : Nat
  /-- The characters `encoded[0 .. strlen(encoded) - 1]`. -/
  chars : List Nat

/-- Reads `encoded[idx]` for a `size_t` index: the terminator (0) at and past
the end, and the bytes before the pointer at the two wrapped indices. -/
def CString.charAt (s : CString) (idx : Nat) : Nat :=
  if idx = SIZE_MOD - 1 then s.prev1
  else if idx = SIZE_MOD - 2 then s.prev2
  else s.chars.getD idx 0

/-- The value of `strchr(base64_chars, ch) - base64_chars` as a `uint32_t`:
the index of the first occurrence of `ch` in the table (the terminator
included), and `nullDiff`, the value the target gives `NULL - base64_chars`,
when `strchr` finds nothing. The source has no check for that case. -/
def strchr_offset (nullDiff : Nat) (ch : Nat) : Nat :=
  if ch ∈ base64_chars then base64_chars.indexOf ch else nullDiff % UINT32_MOD

/-- One operand of the decoding loop:
`encoded[i] == '=' ? 0 & i++ : strchr(base64_chars, encoded[i++]) - base64_chars`. -/
def decode_operand (nullDiff : Nat) (ch : Nat) : Nat :=
  if ch = PAD then 0 else strchr_offset nullDiff ch

/-- The guarded store `if (j < decoded_length) data[j++] = v`. -/
def store_if (decoded_length : Nat) (jd : Nat × List Nat) (v : Nat) : Nat × List Nat :=
  if jd.1 < decoded_length then (jd.1 + 1, jd.2.set jd.1 v) else jd

/-- The decoding loop `for (size_t i = 0, j = 0; i < encoded_length;)`. Every
pass advances `i` by four, so `encoded_length` passes of fuel always suffice. -/
def decode_loop (nullDiff : Nat) (encoded : CString) (encoded_length decoded_length : Nat) :
    Nat → Nat → Nat × List Nat → List Nat
  | 0, _, jd => jd.2
  | fuel + 1, i, jd =>
    if i < encoded_length then
      let a := decode_operand nullDiff (encoded.charAt i)
      let b := decode_operand nullDiff (encoded.charAt (i + 1))
      let c := decode_operand nullDiff (encoded.charAt (i + 2))
      let d := decode_operand nullDiff (encoded.charAt (i + 3))
      let triple := ((a <<< 18) + (b <<< 12) + (c <<< 6) + d) % UINT32_MOD
      let jd := store_if decoded_length jd ((triple >>> 16) &&& 0xFF)
      let jd := store_if decoded_length jd ((triple >>> 8) &&& 0xFF)
      let jd := store_if decoded_length jd (triple &&& 0xFF)
      decode_loop nullDiff encoded encoded_length decoded_length fuel (i + 4) jd
    else jd.2

/-- What a call of `base64_decode` leaves behind: its return value, the output
buffer `data` and the value of `*length`. -/
structure DecodeResult where
  /-- The return value. -/
  ret : Int
  /-- The output buffer after the call. -/
  data : List Nat
  /-- The value of `*length` after the call. -/
  length : Nat
deriving DecidableEq, Repr

/-- The function `base64_decode(encoded, data, length)` on non-null arguments:
`data` is the output buffer and `length` the value of `*length` before the
call. -/
def base64_decode (nullDiff : Nat) (encoded : CString) (data : List Nat) (length : Nat) :
    DecodeResult :=
  let encoded_length := encoded.chars.length
  if encoded_length % 4 ≠ 0 then ⟨-1, data, length⟩
  else
    let decoded_length := (encoded_length * 3) % SIZE_MOD / 4
    let decoded_length :=
      if encoded.charAt ((encoded_length + SIZE_MOD - 1) % SIZE_MOD) = PAD
      then (decoded_length + SIZE_MOD - 1) % SIZE_MOD else decoded_length
    let decoded_length :=
      if encoded.charAt ((encoded_length + SIZE_MOD - 2) % SIZE_MOD) = PAD
      then (decoded_length + SIZE_MOD - 1) % SIZE_MOD else decoded_length
    if length < decoded_length then ⟨-1, data, length⟩
    else
      ⟨0, decode_loop nullDiff encoded encoded_length decoded_length encoded_length 0 (0, data),
        decoded_length⟩

/-! ## crypto_utils.c: pairing -/

/-- The constant `SHA_DIGEST_LENGTH` of OpenSSL. -/
def SHA_DIGEST_LENGTH : Nat := 20

/-- The function `sha1_hmac(key, key_length, data, data_length, hmac)`: fails
on a null argument, otherwise stores the digest computed by OpenSSL's `HMAC`,
which is the parameter `HMAC`. -/
def sha1_hmac (HMAC : List Nat → List Nat → List Nat) (key data : Option (List Nat)) :
    Int × List Nat :=
  match key, data with
  | some k, some d => (0, HMAC k d)
  | _, _ => (-1, [])

/-- The C library's `memcmp(a, b, n) == 0`: the first `n` bytes agree. -/
def memcmp_eq (a b : List Nat) (n : Nat) : Bool := a.take n == b.take n

/-- The function `airplay_verify_pairing`; a buffer and its length argument are
one list (`response_length` is the length of `response`), a null pointer is
`none`. It reads and writes no state outside its arguments. -/
def airplay_verify_pairing (HMAC : List Nat → List Nat → List Nat)
    (challenge response key : Option (List Nat)) : Int :=
  match challenge, response, key with
  | some ch, some resp, some k =>
    let r := sha1_hmac HMAC (some k) (some ch)
    if r.1 ≠ 0 then -1
    else if resp.length ≠ SHA_DIGEST_LENGTH then -1
    else if memcmp_eq r.2 resp SHA_DIGEST_LENGTH then 0 else -1
  | _, _, _ => -1

/-! ## airplay_server.c: data model -/

/-- The constant `MAX_CLIENTS`. -/
def MAX_CLIENTS : Nat := 4

/-- The constant `BUFFER_SIZE`. -/
def BUFFER_SIZE : Nat := 4096

/-- A `struct sockaddr_in`. -/
structure sockaddr_in where
  /-- The field `sin_family`. -/
  sin_family : Nat
  /-- The field `sin_port`. -/
  sin_port : Nat
  /-- The field `sin_addr.s_addr`. -/
  sin_addr : Nat
deriving DecidableEq, Repr

/-- The type `airplay_config_t`; the character arrays are lists of bytes. -/
structure airplay_config_t where
  /-- The array `char device_name[64]`. -/
  device_name : List Nat
  /-- The array `char model_name[32]`. -/
  model_name : List Nat
  /-- The array `char device_id[64]`. -/
  device_id : List Nat
  /-- The field `uint16_t port`. -/
  port : Nat
  /-- The field `bool enable_multiroom`. -/
  enable_multiroom : Bool
  /-- The array `char multiroom_group[32]`. -/
  multiroom_group : List Nat
deriving DecidableEq, Repr

/-- One element of `airplay_server.clients`. -/
structure Client where
  /-- The field `int fd`. -/
  fd : Int
  /-- The field `struct sockaddr_in addr`. -/
  addr : sockaddr_in
  /-- The field `bool connected`. -/
  connected : Bool
  /-- The array `char session_id[64]`. -/
  session_id : List Nat
deriving DecidableEq, Repr

/-- A slot as `calloc` leaves it. -/
def Client.zero : Client := ⟨0, ⟨0, 0, 0⟩, false, List.replicate 64 0⟩

/-- The type `struct airplay_server`. A function pointer or Avahi object
pointer is its address, `none` when null. -/
structure airplay_server where
  /-- The field `int socket_fd`. -/
  socket_fd : Int
  /-- The field `struct sockaddr_in server_addr`. -/
  server_addr : sockaddr_in
  /-- The field `airplay_config_t config`. -/
  config : airplay_config_t
  /-- The field `audio_callback`. -/
  audio_callback : Option Nat
  /-- The field `volume_callback`. -/
  volume_callback : Option Nat
  /-- The field `play_callback`. -/
  play_callback : Option Nat
  /-- The field `pause_callback`. -/
  pause_callback : Option Nat
  /-- The field `stop_callback`. -/
  stop_callback : Option Nat
  /-- The field `next_callback`. -/
  next_callback : Option Nat
  /-- The field `previous_callback`. -/
  previous_callback : Option Nat
  /-- The array `clients[MAX_CLIENTS]`. -/
  clients : List Client
  /-- The field `AvahiClient *avahi_client`. -/
  avahi_client : Option Nat
  /-- The field `AvahiEntryGroup *entry_group`. -/
  entry_group : Option Nat
  /-- The field `bool running`. -/
  running : Bool
deriving DecidableEq, Repr

/-- The slot `server->clients[i]`. -/
def airplay_server.slot (server : airplay_server) (i : Nat) : Client :=
  server.clients.getD i Client.zero

/-- Calls that act on the world outside the server structure, in the order
they are made. -/
inductive Effect where
  /-- A call `close(fd)`. -/
  | close (fd : Int)
  /-- A call `send(fd, bytes, strlen(bytes), 0)`. -/
  | send (fd : Int) (bytes : List Nat)
  /-- A call `avahi_entry_group_free(g)`. -/
  | entry_group_free (g : Nat)
  /-- A call `avahi_client_free(c)`. -/
  | client_free (c : Nat)
deriving DecidableEq, Repr

/-- What a call that takes the server pointer leaves behind: its return
value, the server structure and the calls it made. -/
structure CallResult where
  /-- The return value. -/
  ret : Int
  /-- The server structure after the call. -/
  server : airplay_server
  /-- The calls made, oldest first. -/
  effects : List Effect
deriving DecidableEq, Repr

/-! ## airplay_server.c: request handlers -/

/-- The response literal of `handle_http_request`. -/
def http_response : List Nat :=
  str "HTTP/1.1 200 OK\r\nContent-Type: text/x-apple-plist+xml\r\nContent-Length: 0\r\n\r\n"

/-- The function `handle_http_request`. -/
def handle_http_request (server : airplay_server) (client_fd : Int) (_request : List Nat) :
    CallResult :=
  ⟨0, server, [Effect.send client_fd http_response]⟩

/-- The buffer `response` of `handle_rtsp_request` after its `snprintf`; the
formats hold no conversion and are shorter than the 1024 bytes of the
buffer, so each is copied as it stands. -/
def rtsp_response (request : List Nat) : List Nat :=
  if strncmp request (str "ANNOUNCE") 8 = 0 then
    str "RTSP/1.0 200 OK\r\nCSeq: 1\r\nServer: AirPlay/220.68\r\n\r\n"
  else if strncmp request (str "SETUP") 5 = 0 then
    str ("RTSP/1.0 200 OK\r\nCSeq: 2\r\nServer: AirPlay/220.68\r\n" ++
      "Transport: RTP/AVP/UDP;unicast;interleaved=0-1\r\n\r\n")
  else if strncmp request (str "RECORD") 6 = 0 then
    str "RTSP/1.0 200 OK\r\nCSeq: 3\r\nServer: AirPlay/220.68\r\n\r\n"
  else
    str "RTSP/1.0 200 OK\r\nCSeq: 1\r\nServer: AirPlay/220.68\r\n\r\n"

/-- The function `handle_rtsp_request`. -/
def handle_rtsp_request (server : airplay_server) (client_fd : Int) (request : List Nat) :
    CallResult :=
  ⟨0, server, [Effect.send client_fd (rtsp_response request)]⟩

/-- The function `handle_client_request`. The argument `rx` is the outcome of
its `recv(client_fd, buffer, sizeof(buffer) - 1, MSG_DONTWAIT)`: `none` for
an error (-1), otherwise the bytes read, so `bytes_read` is their number. The
buffer is then NUL-terminated and read as a C string. -/
def handle_client_request (server : airplay_server) (client_fd : Int) (rx : Option (List Nat)) :
    CallResult :=
  let bytes_read : Int := match rx with
    | none => -1
    | some bytes => bytes.length
  if bytes_read ≤ 0 then ⟨-1, server, []⟩
  else
    let buffer := rx.getD []
    if strncmp buffer (str "OPTIONS") 7 = 0 ∨ strncmp buffer (str "POST") 4 = 0 ∨
        strncmp buffer (str "GET") 3 = 0 then
      handle_http_request server client_fd buffer
    else if strncmp buffer (str "ANNOUNCE") 8 = 0 ∨ strncmp buffer (str "SETUP") 5 = 0 ∨
        strncmp buffer (str "RECORD") 6 = 0 ∨ strncmp buffer (str "PAUSE") 5 = 0 ∨
        strncmp buffer (str "FLUSH") 5 = 0 ∨ strncmp buffer (str "TEARDOWN") 8 = 0 then
      handle_rtsp_request server client_fd buffer
    else ⟨0, server, []⟩

/-! ## airplay_server.c: the readiness loop -/

/-- Outcome of the `select` call of `airplay_server_process`. -/
inductive SelectOutcome where
  /-- The result is negative; `eintr` tells whether `errno == EINTR`. -/
  | failed (eintr : Bool)
  /-- The result is zero. -/
  | timeout
  /-- The result is positive; `isset fd` is `FD_ISSET(fd, &read_fds)` afterwards. -/
  | ready (isset : Int → Bool)

/-- What the operating system answers during one call of
`airplay_server_process`. -/
structure ProcessInput where
  /-- Outcome of `select`. -/
  select : SelectOutcome
  /-- Return value of `accept`, negative on failure. -/
  accept_fd : Int
  /-- The peer address `accept` stores in `client_addr`. -/
  accept_addr : sockaddr_in
  /-- Outcome of the `recv` made for slot `i`. -/
  recv : Nat → Option (List Nat)

/-- The loop "find free client slot": the first slot that is not connected
receives the connection, then the loop breaks. -/
def accept_fill (client_fd : Int) (client_addr : sockaddr_in) : List Client → List Client
  | [] => []
  | c :: cs =>
    if !c.connected then
      { fd := client_fd, addr := client_addr, connected := true,
        session_id := List.replicate 64 0 } :: cs
    else c :: accept_fill client_fd client_addr cs

/-- The block "check for new connections": `listening_ready` is
`FD_ISSET(server->socket_fd, &read_fds)` and `client_fd` what `accept` returns
when it is called. Gives the slots afterwards and the calls made. -/
def accept_step (listening_ready : Bool) (clients : List Client) (client_fd : Int)
    (client_addr : sockaddr_in) : List Client × List Effect :=
  if listening_ready then
    if client_fd ≥ 0 then
      let clients := accept_fill client_fd client_addr clients
      let found_slot := clients.any (fun c => c.fd == client_fd)
      (clients, if !found_slot then [Effect.close client_fd] else [])
    else (clients, [])
  else (clients, [])

/-- One pass of the loop "handle client requests" for slot `i`. -/
def client_step (isset : Int → Bool) (recv : Nat → Option (List Nat))
    (st : airplay_server × List Effect) (i : Nat) : airplay_server × List Effect :=
  if (st.1.slot i).connected && isset (st.1.slot i).fd then
    let r := handle_client_request st.1 (st.1.slot i).fd (recv i)
    if r.ret < 0 then
      ({ r.server with
          clients := r.server.clients.set i { r.server.slot i with connected := false } },
        st.2 ++ r.effects ++ [Effect.close (r.server.slot i).fd])
    else (r.server, st.2 ++ r.effects)
  else st

/-- The function `airplay_server_process` on a non-null server. -/
def airplay_server_process (server : airplay_server) (os : ProcessInput) : CallResult :=
  if !server.running then ⟨-1, server, []⟩
  else
    match os.select with
    | SelectOutcome.failed eintr => ⟨if eintr then 0 else -1, server, []⟩
    | SelectOutcome.timeout => ⟨0, server, []⟩
    | SelectOutcome.ready isset =>
      let acc := accept_step (isset server.socket_fd) server.clients os.accept_fd os.accept_addr
      let st := (List.range MAX_CLIENTS).foldl (client_step isset os.recv)
        ({ server with clients := acc.1 }, acc.2)
      ⟨0, st.1, st.2⟩

/-! ## Reading a response -/

/-- The lines of a message, split at every CR LF. -/
def message_lines : List Nat → List (List Nat)
  | [] => [[]]
  | c :: rest =>
    match message_lines rest with
    | [] => [[c]]
    | l :: ls => if c = 13 ∧ l.head? = some 10 then [] :: l.tail :: ls else (c :: l) :: ls

/-- The status code of a response: the second blank-separated word of its
first line. -/
def status_code (message : List Nat) : List Nat :=
  ((((message_lines message).headD []).dropWhile (fun c => c != 32)).drop 1).takeWhile
    (fun c => c != 32)

/-- The value of the first header `name` of a message, if it has one. -/
def header_value (name : String) (message : List Nat) : Option (List Nat) :=
  ((message_lines message).tail.find? (fun l => (str name ++ str ": ").isPrefixOf l)).map
    (fun l => l.drop ((str name).length + 2))

/-! ## Concrete states and inputs used in examples -/

/-- The function `airplay_server_create` when `calloc` succeeds: zeroed
memory with the default configuration copied in. -/
def airplay_server_create : airplay_server :=
  { socket_fd := 0
    server_addr := ⟨0, 0, 0⟩
    config :=
      { device_name := (str "OpenWRT AirPlay" ++ List.replicate 64 0).take 64
        model_name := (str "OpenWRT" ++ List.replicate 32 0).take 32
        device_id := (str "OpenWRT-AirPlay-001" ++ List.replicate 64 0).take 64
        port := 7000
        enable_multiroom := false
        multiroom_group := List.replicate 32 0 }
    audio_callback := none
    volume_callback := none
    play_callback := none
    pause_callback := none
    stop_callback := none
    next_callback := none
    previous_callback := none
    clients := List.replicate MAX_CLIENTS Client.zero
    avahi_client := none
    entry_group := none
    running := false }

/-- A started server: listening on descriptor 3, Avahi client at address 1. -/
def example_started : airplay_server :=
  { airplay_server_create with socket_fd := 3, avahi_client := some 1, running := true }

/-- A started server whose slot 0 holds a session on descriptor 5 on which
nothing has been received yet. -/
def example_one_session : airplay_server :=
  { example_started with
    clients := ⟨5, ⟨2, 50000, 167772161⟩, true, List.replicate 64 0⟩ ::
      List.replicate 3 Client.zero }

/-- A started server whose four slots hold sessions on descriptors 5 to 8. -/
def example_full : airplay_server :=
  { example_started with
    clients := [⟨5, ⟨2, 50000, 167772161⟩, true, List.replicate 64 0⟩,
                ⟨6, ⟨2, 50001, 167772162⟩, true, List.replicate 64 0⟩,
                ⟨7, ⟨2, 50002, 167772163⟩, true, List.replicate 64 0⟩,
                ⟨8, ⟨2, 50003, 167772164⟩, true, List.replicate 64 0⟩] }

/-- The operating system's answers when only descriptor 5 is readable and
slot 0 receives `bytes`. -/
def example_read (bytes : List Nat) : ProcessInput :=
  { select := SelectOutcome.ready (fun fd => fd == 5)
    accept_fd := -1
    accept_addr := ⟨0, 0, 0⟩
    recv := fun i => if i = 0 then some bytes else none }

/-- The operating system's answers when only the listening descriptor 3 is
readable and `accept` returns descriptor 9. -/
def example_accept : ProcessInput :=
  { select := SelectOutcome.ready (fun fd => fd == 3)
    accept_fd := 9
    accept_addr := ⟨2, 50009, 167772169⟩
    recv := fun _ => none }

/-- A stand-in for HMAC-SHA1 with 20-byte output, for concrete instances of
statements that hold for every such function. -/
def example_hmac (key data : List Nat) : List Nat :=
  (List.range 20).map (fun i => (key.sum + 31 * data.sum + i) % 256)

/-- Return values of successive calls of `airplay_verify_pairing`, each given
as (challenge, response, key). The function has no static or global state,
so a call sees nothing of the calls before it. -/
def verify_calls (HMAC : List Nat → List Nat → List Nat)
    (calls : List (List Nat × List Nat × List Nat)) : List Int :=
  calls.map (fun c => airplay_verify_pairing HMAC (some c.1) (some c.2.1) (some c.2.2))

/-! ## Base64 by groups

The two loops of the codec restated by groups of three bytes and four
characters; the lemmas below prove them equal to the index loops above. -/

/-- The four characters the encoder stores for a 24-bit group. -/
def encode_quad (triple : Nat) : List Nat :=
  [base64_chars.getD ((triple >>> 18) &&& 0x3F) 0,
   base64_chars.getD ((triple >>> 12) &&& 0x3F) 0,
   base64_chars.getD ((triple >>> 6) &&& 0x3F) 0,
   base64_chars.getD (triple &&& 0x3F) 0]

/-- The encoder's output before padding, by groups of three bytes. -/
def encode_groups : List Nat → List Nat
  | [] => []
  | [a] => encode_quad ((a <<< 16) + (0 <<< 8) + 0)
  | [a, b] => encode_quad ((a <<< 16) + (b <<< 8) + 0)
  | a :: b :: c :: rest => encode_quad ((a <<< 16) + (b <<< 8) + c) ++ encode_groups rest

/-- The encoder's output, by groups of three bytes, padding included. -/
def encode_padded : List Nat → List Nat
  | [] => []
  | [a] => (encode_quad ((a <<< 16) + (0 <<< 8) + 0)).take 2 ++ [PAD, PAD]
  | [a, b] => (encode_quad ((a <<< 16) + (b <<< 8) + 0)).take 3 ++ [PAD]
  | a :: b :: c :: rest => encode_quad ((a <<< 16) + (b <<< 8) + c) ++ encode_padded rest

/-- The three guarded stores of one pass of the decoding loop, for the four
characters read in that pass. -/
def decode_quad (nullDiff decoded_length : Nat) (c0 c1 c2 c3 : Nat) (jd : Nat × List Nat) :
    Nat × List Nat :=
  let triple := ((decode_operand nullDiff c0 <<< 18) + (decode_operand nullDiff c1 <<< 12) +
    (decode_operand nullDiff c2 <<< 6) + decode_operand nullDiff c3) % UINT32_MOD
  store_if decoded_length
    (store_if decoded_length (store_if decoded_length jd ((triple >>> 16) &&& 0xFF))
      ((triple >>> 8) &&& 0xFF))
    (triple &&& 0xFF)

/-- The decoding loop by groups of four characters. -/
def decode_groups (nullDiff decoded_length : Nat) : List Nat → Nat × List Nat → List Nat
  | c0 :: c1 :: c2 :: c3 :: rest, jd =>
    decode_groups nullDiff decoded_length rest (decode_quad nullDiff decoded_length c0 c1 c2 c3 jd)
  | [], jd => jd.2
  | [_], jd => jd.2
  | [_, _], jd => jd.2
  | [_, _, _], jd => jd.2

/-! ## crypto_utils.c: random bytes and pairing key -/

/-- Outcome of OpenSSL's `RAND_bytes(buf, num)`: its return value (1 on
success) and the bytes it has stored from the start of `buf`. -/
structure RandOutcome where
  /-- The return value. -/
  ret : Int
  /-- The bytes stored from `buf[0]` on. -/
  bytes : List Nat
deriving DecidableEq, Repr

/-- A buffer after `bytes` have been stored from its start. -/
def write_bytes (buffer bytes : List Nat) : List Nat := bytes ++ buffer.drop bytes.length

/-- The conversion of a `size_t` argument to the parameter `int num` of
`RAND_bytes(unsigned char *buf, int num)`: the value modulo 2^32, read as a
two's complement number. -/
def int_of_size_t (n : Nat) : Int :=
  if n % UINT32_MOD < 2 ^ 31 then ((n % UINT32_MOD : Nat) : Int)
  else ((n % UINT32_MOD : Nat) : Int) - (UINT32_MOD : Int)

/-- The function `generate_random_bytes(buffer, length)`: the return value and
the buffer afterwards (`none` for a null pointer). The parameter `RAND_bytes`
gives the outcome of the library call for the `int` count it receives, which
is `length` converted from `size_t`. -/
def generate_random_bytes (RAND_bytes : Int → RandOutcome) (buffer : Option (List Nat))
    (length : Nat) : Int × Option (List Nat) :=
  match buffer with
  | none => (-1, none)
  | some b =>
    if length = 0 then (-1, some b)
    else if (RAND_bytes (int_of_size_t length)).ret ≠ 1 then
      (-1, some (write_bytes b (RAND_bytes (int_of_size_t length)).bytes))
    else (0, some (write_bytes b (RAND_bytes (int_of_size_t length)).bytes))

/-- The function `airplay_generate_pairing_key(key, key_size)`: the return
value and the key buffer afterwards. -/
def airplay_generate_pairing_key (RAND_bytes : Int → RandOutcome) (key : Option (List Nat))
    (key_size : Nat) : Int × Option (List Nat) :=
  match key with
  | none => (-1, none)
  | some k =>
    if key_size < 16 then (-1, some k)
    else generate_random_bytes RAND_bytes (some k) key_size

/-- A working entropy source for the examples: for a count `num` of at least 0
it returns 1 and stores the `num` bytes 1, 2, ..., taken modulo 256; for a
negative count it returns 0 and stores nothing, as OpenSSL 3 does. -/
def example_rand (num : Int) : RandOutcome :=
  if num < 0 then ⟨0, []⟩ else ⟨1, (List.range num.toNat).map (fun i => (i + 1) % 256)⟩

/-! ## airplay_server.c: stop, status and configuration -/

/-- The loop "close client connections" of `airplay_server_stop` over the
slots of the array: the slots afterwards and the `close` calls made. -/
def stop_clients : List Client → List Client × List Effect
  | [] => ([], [])
  | c :: cs =>
    if c.connected then
      ({ c with connected := false } :: (stop_clients cs).1,
        Effect.close c.fd :: (stop_clients cs).2)
    else (c :: (stop_clients cs).1, (stop_clients cs).2)

/-- The function `airplay_server_stop` on a non-null server. -/
def airplay_server_stop (server : airplay_server) : CallResult :=
  let cl := stop_clients server.clients
  let sock : Int × List Effect :=
    if server.socket_fd ≥ 0 then (-1, [Effect.close server.socket_fd])
    else (server.socket_fd, [])
  let eg : List Effect :=
    match server.entry_group with
    | some g => [Effect.entry_group_free g]
    | none => []
  let ac : List Effect :=
    match server.avahi_client with
    | some c => [Effect.client_free c]
    | none => []
  ⟨0,
    { server with
      running := false, clients := cl.1, socket_fd := sock.1, entry_group := none,
      avahi_client := none },
    cl.2 ++ sock.2 ++ eg ++ ac⟩

/-- The function `airplay_server_is_connected` on a non-null server: whether
some slot of the array is connected. -/
def airplay_server_is_connected (server : airplay_server) : Bool :=
  server.clients.any (fun c => c.connected)

/-- The function `airplay_server_set_config`: the return value and the server
afterwards; a null pointer is `none`. -/
def airplay_server_set_config (server : Option airplay_server)
    (config : Option airplay_config_t) : Int × Option airplay_server :=
  match server, config with
  | some s, some c => (0, some { s with config := c })
  | _, _ => (-1, server)

/-- The function `airplay_server_get_config`: the return value and the
structure `*config` afterwards; a null pointer is `none`. The server is only
read. -/
def airplay_server_get_config (server : Option airplay_server)
    (config : Option airplay_config_t) : Int × Option airplay_config_t :=
  match server, config with
  | some s, some _ => (0, some s.config)
  | _, _ => (-1, config)

/-! ## Words used to state the claims -/

/-- The nine method names `handle_client_request` compares against, in the
order of its tests. -/
def method_names : List String :=
  ["OPTIONS", "POST", "GET", "ANNOUNCE", "SETUP", "RECORD", "PAUSE", "FLUSH", "TEARDOWN"]

/-- The method names of the streaming protocol. -/
def streaming_methods : List String :=
  ["ANNOUNCE", "SETUP", "RECORD", "PAUSE", "FLUSH", "TEARDOWN"]

/-- The leading token of a buffer: its bytes before the first blank, tab,
carriage return or line feed. -/
def leading_token (buffer : List Nat) : List Nat :=
  buffer.takeWhile (fun c => c != 32 && c != 9 && c != 13 && c != 10)

/-- The number of `=` characters at the end of a string. -/
def trailing_pads (chars : List Nat) : Nat :=
  (chars.reverse.takeWhile (fun c => c == PAD)).length

/-! ## RFC 4648 in the words of the specification -/

/-- The eight bits of a byte, most significant first. -/
def byte_bits (b : Nat) : List Nat :=
  [b / 128 % 2, b / 64 % 2, b / 32 % 2, b / 16 % 2, b / 8 % 2, b / 4 % 2, b / 2 % 2, b % 2]

/-- The bits of a byte sequence, in order. -/
def bit_string : List Nat → List Nat
  | [] => []
  | b :: rest => byte_bits b ++ bit_string rest

/-- The values of the 6-bit groups of a bit string, most significant bit
first, the last group filled with zero bits. -/
def sextets : List Nat → List Nat
  | b0 :: b1 :: b2 :: b3 :: b4 :: b5 :: rest =>
    (b0 * 32 + b1 * 16 + b2 * 8 + b3 * 4 + b4 * 2 + b5) :: sextets rest
  | [] => []
  | [b0] => [b0 * 32]
  | [b0, b1] => [b0 * 32 + b1 * 16]
  | [b0, b1, b2] => [b0 * 32 + b1 * 16 + b2 * 8]
  | [b0, b1, b2, b3] => [b0 * 32 + b1 * 16 + b2 * 8 + b3 * 4]
  | [b0, b1, b2, b3, b4] => [b0 * 32 + b1 * 16 + b2 * 8 + b3 * 4 + b4 * 2]

/-- The alphabet of RFC 4648: `A`-`Z` for 0-25, `a`-`z` for 26-51, `0`-`9`
for 52-61, `+` for 62 and `/` for 63. -/
def rfc4648_alphabet (k : Nat) : Nat :=
  if k < 26 then 65 + k
  else if k < 52 then 97 + (k - 26)
  else if k < 62 then 48 + (k - 52)
  else if k = 62 then 43
  else 47

/-- The standard encoding as the specification words it: every 6-bit group of
the input mapped through the alphabet, then `(3 - n mod 3) mod 3` characters
`=`. -/
def rfc4648_encode (x : List Nat) : List Nat :=
  (sextets (bit_string x)).map rfc4648_alphabet ++
    List.replicate ((3 - x.length % 3) % 3) PAD

/-! ## The decoder's output in closed form -/

/-- The three bytes one pass of the decoding loop computes from the four
characters it reads. -/
def decode_quad_bytes (nullDiff c0 c1 c2 c3 : Nat) : List Nat :=
  let triple := ((decode_operand nullDiff c0 <<< 18) + (decode_operand nullDiff c1 <<< 12) +
    (decode_operand nullDiff c2 <<< 6) + decode_operand nullDiff c3) % UINT32_MOD
  [(triple >>> 16) &&& 0xFF, (triple >>> 8) &&& 0xFF, triple &&& 0xFF]

/-- The bytes the decoding loop computes, three for every four characters. -/
def decode_bytes (nullDiff : Nat) : List Nat → List Nat
  | c0 :: c1 :: c2 :: c3 :: rest =>
    decode_quad_bytes nullDiff c0 c1 c2 c3 ++ decode_bytes nullDiff rest
  | [] => []
  | [_] => []
  | [_, _] => []
  | [_, _, _] => []

/-- The decoded length `base64_decode` computes for a string of at least two
characters: three quarters of its length, less one for each of its last two
characters that is `=`. -/
def decoded_length_of (chars : List Nat) : Nat :=
  chars.length * 3 / 4 - (if chars.getD (chars.length - 1) 0 = PAD then 1 else 0) -
    (if chars.getD (chars.length - 2) 0 = PAD then 1 else 0)

/-! ## airplay_server.c: callback registration -/

/-- The function `airplay_server_set_audio_callback`: the return value and the
server afterwards; a null pointer is `none`. -/
def airplay_server_set_audio_callback (server : Option airplay_server)
    (callback : Option Nat) : Int × Option airplay_server :=
  match server with
  | none => (-1, none)
  | some s => (0, some { s with audio_callback := callback })

/-- The function `airplay_server_set_volume_callback`. -/
def airplay_server_set_volume_callback (server : Option airplay_server)
    (callback : Option Nat) : Int × Option airplay_server :=
  match server with
  | none => (-1, none)
  | some s => (0, some { s with volume_callback := callback })

/-- The function `airplay_server_set_playback_callbacks`. -/
def airplay_server_set_playback_callbacks (server : Option airplay_server)
    (play_cb pause_cb stop_cb next_cb prev_cb : Option Nat) : Int × Option airplay_server :=
  match server with
  | none => (-1, none)
  | some s =>
    (0, some { s with
      play_callback := play_cb, pause_callback := pause_cb, stop_callback := stop_cb,
      next_callback := next_cb, previous_callback := prev_cb })

/-- One call of a registration function, with its callback arguments. -/
inductive CallbackCall where
  /-- A call of `airplay_server_set_audio_callback`. -/
  | audio (callback : Option Nat)
  /-- A call of `airplay_server_set_volume_callback`. -/
  | volume (callback : Option Nat)
  /-- A call of `airplay_server_set_playback_callbacks`. -/
  | playback (play_cb pause_cb stop_cb next_cb prev_cb : Option Nat)
deriving DecidableEq, Repr

/-- Whether the call registers the audio handler. -/
def CallbackCall.sets_audio : CallbackCall → Bool
  | CallbackCall.audio _ => true
  | _ => false

/-- Whether the call registers the volume handler. -/
def CallbackCall.sets_volume : CallbackCall → Bool
  | CallbackCall.volume _ => true
  | _ => false

/-- Whether the call registers the five transport handlers. -/
def CallbackCall.sets_playback : CallbackCall → Bool
  | CallbackCall.playback _ _ _ _ _ => true
  | _ => false

/-- The server after one registration call. -/
def register_call (server : Option airplay_server) : CallbackCall → Option airplay_server
  | CallbackCall.audio cb => (airplay_server_set_audio_callback server cb).2
  | CallbackCall.volume cb => (airplay_server_set_volume_callback server cb).2
  | CallbackCall.playback p1 p2 p3 p4 p5 =>
    (airplay_server_set_playback_callbacks server p1 p2 p3 p4 p5).2

/-- The server after a sequence of registration calls, oldest first. -/
def register_calls (server : airplay_server) (calls : List CallbackCall) :
    Option airplay_server :=
  calls.foldl register_call (some server)

/-! ## airplay_server.c: Avahi callbacks -/

/-- The values of `AvahiClientState`. -/
inductive AvahiClientState where
  | S_REGISTERING
  | S_RUNNING
  | S_COLLISION
  | FAILURE
  | CONNECTING
deriving DecidableEq, Repr

/-- The values of `AvahiEntryGroupState`. -/
inductive AvahiEntryGroupState where
  | UNCOMMITED
  | REGISTERING
  | ESTABLISHED
  | COLLISION
  | FAILURE
deriving DecidableEq, Repr

/-- Calls into the Avahi library that publish a service. -/
inductive AvahiCall where
  /-- A call `avahi_entry_group_add_service(g, ..., name, type, ..., port, NULL)`. -/
  | add_service (g : Nat) (name type : List Nat) (port : Nat)
  /-- A call `avahi_entry_group_commit(g)`. -/
  | commit (g : Nat)
deriving DecidableEq, Repr

/-- The function `avahi_client_callback`; `new_group` is what
`avahi_entry_group_new` returns when it is called. The name passed is the C
string in `config.device_name`. -/
def avahi_client_callback (server : airplay_server) (state : AvahiClientState)
    (new_group : Option Nat) : airplay_server × List AvahiCall :=
  match state with
  | AvahiClientState.S_RUNNING =>
    match server.entry_group with
    | none =>
      match new_group with
      | some g =>
        ({ server with entry_group := some g },
          [AvahiCall.add_service g (server.config.device_name.takeWhile (fun c => c != 0))
            (str "_airplay._tcp") server.config.port, AvahiCall.commit g])
      | none => ({ server with entry_group := none }, [])
    | some _ => (server, [])
  | AvahiClientState.FAILURE => (server, [])
  | _ => (server, [])

/-- The function `avahi_entry_group_callback`: every case only writes to the
system log. -/
def avahi_entry_group_callback (server : airplay_server) (state : AvahiEntryGroupState) :
    airplay_server × List AvahiCall :=
  match state with
  | AvahiEntryGroupState.ESTABLISHED => (server, [])
  | AvahiEntryGroupState.COLLISION => (server, [])
  | AvahiEntryGroupState.FAILURE => (server, [])
  | _ => (server, [])

/-- A started server configured with the device name `Kitchen`. -/
def example_kitchen : airplay_server :=
  { example_started with
    config := { example_started.config with
      device_name := (str "Kitchen" ++ List.replicate 64 0).take 64 } }

/-! ## playback_control.c -/

/-- The enumerator `PLAYBACK_STOPPED`. -/
def PLAYBACK_STOPPED : Int := 0

/-- The enumerator `PLAYBACK_PLAYING`. -/
def PLAYBACK_PLAYING : Int := 1

/-- The enumerator `PLAYBACK_PAUSED`. -/
def PLAYBACK_PAUSED : Int := 2

/-- The enumerator `PLAYBACK_BUFFERING`. -/
def PLAYBACK_BUFFERING : Int := 3

/-- The type `playback_info_t`. -/
structure playback_info_t where
  /-- The array `char title[256]`. -/
  title : List Nat
  /-- The array `char artist[256]`. -/
  artist : List Nat
  /-- The array `char album[256]`. -/
  album : List Nat
  /-- The field `duration_ms`. -/
  duration_ms : Nat
  /-- The field `position_ms`. -/
  position_ms : Nat
deriving DecidableEq, Repr

/-- The static variables of `playback_control.c`; a `playback_state_t` is its
integer value, a callback pointer its address or `none`. -/
structure PlaybackModule where
  /-- The variable `current_state`. -/
  current_state : Int
  /-- The variable `current_info`. -/
  current_info : playback_info_t
  /-- The variable `state_callback`. -/
  state_callback : Option Nat
  /-- The variable `info_callback`. -/
  info_callback : Option Nat
deriving DecidableEq, Repr

/-- Callback invocations of `playback_control.c`, in the order made. -/
inductive PlaybackEffect where
  /-- A call `state_callback(state)` of the handler at `cb`. -/
  | state_changed (cb : Nat) (state : Int)
  /-- A call `info_callback(&current_info)` of the handler at `cb`. -/
  | info_changed (cb : Nat) (info : playback_info_t)
deriving DecidableEq, Repr

/-- What a call of a playback function leaves behind. -/
structure PlaybackResult where
  /-- The return value. -/
  ret : Int
  /-- The static variables after the call. -/
  module : PlaybackModule
  /-- The callback invocations made. -/
  effects : List PlaybackEffect
deriving DecidableEq, Repr

/-- The statement `if (state_callback) state_callback(current_state)`. -/
def notify_state (m : PlaybackModule) : List PlaybackEffect :=
  match m.state_callback with
  | some cb => [PlaybackEffect.state_changed cb m.current_state]
  | none => []

/-- The statement `if (info_callback) info_callback(&current_info)`. -/
def notify_info (m : PlaybackModule) : List PlaybackEffect :=
  match m.info_callback with
  | some cb => [PlaybackEffect.info_changed cb m.current_info]
  | none => []

/-- The function `playback_control_play`. -/
def playback_control_play (m : PlaybackModule) : PlaybackResult :=
  let m1 : PlaybackModule :=
    if m.current_state = PLAYBACK_PAUSED then { m with current_state := PLAYBACK_PLAYING }
    else if m.current_state = PLAYBACK_STOPPED then { m with current_state := PLAYBACK_PLAYING }
    else m
  ⟨0, m1, notify_state m1⟩

/-- The function `playback_control_pause`. -/
def playback_control_pause (m : PlaybackModule) : PlaybackResult :=
  if m.current_state = PLAYBACK_PLAYING then
    ⟨0, { m with current_state := PLAYBACK_PAUSED },
      notify_state { m with current_state := PLAYBACK_PAUSED }⟩
  else ⟨0, m, []⟩

/-- The function `playback_control_stop`. -/
def playback_control_stop (m : PlaybackModule) : PlaybackResult :=
  let m1 : PlaybackModule :=
    { m with
      current_state := PLAYBACK_STOPPED,
      current_info := { m.current_info with position_ms := 0 } }
  ⟨0, m1, notify_state m1 ++ notify_info m1⟩

/-- The function `playback_control_set_state`; the argument is the integer
value passed as `playback_state_t`. -/
def playback_control_set_state (m : PlaybackModule) (state : Int) : PlaybackResult :=
  if state < PLAYBACK_STOPPED ∨ state > PLAYBACK_BUFFERING then ⟨-1, m, []⟩
  else ⟨0, { m with current_state := state }, notify_state { m with current_state := state }⟩

/-! ## volume_control.c, with `float` as IEEE 754 binary32 bit patterns -/

/-- The sign bit of a `float`, given as its 32-bit pattern. -/
def float_sign (x : Nat) : Nat := x / 2 ^ 31 % 2

/-- The exponent field of a `float`. -/
def float_exponent (x : Nat) : Nat := x / 2 ^ 23 % 256

/-- The fraction field of a `float`. -/
def float_fraction (x : Nat) : Nat := x % 2 ^ 23

/-- Whether a `float` is a NaN: exponent field 255 and a non-zero fraction. -/
def float_is_nan (x : Nat) : Bool := float_exponent x == 255 && float_fraction x != 0

/-- The magnitude of a `float` that is no NaN, in units of 2^-149: the
fraction for exponent field 0 (zeros and subnormal numbers), and
`(2^23 + fraction) * 2^(exponent - 1)` otherwise. An infinity comes out as
2^277, above every finite magnitude. -/
def float_magnitude (x : Nat) : Nat :=
  if float_exponent x = 0 then float_fraction x
  else (2 ^ 23 + float_fraction x) * 2 ^ (float_exponent x - 1)

/-- The value of a `float` that is no NaN, in units of 2^-149; both zeros
have the value 0. -/
def float_scaled (x : Nat) : Int :=
  if float_sign x = 1 then -(float_magnitude x : Int) else (float_magnitude x : Int)

/-- The comparison `a < b` of two `float`s: false when either is a NaN. -/
def float_lt (a b : Nat) : Bool :=
  !float_is_nan a && !float_is_nan b && decide (float_scaled a < float_scaled b)

/-- The comparison `a > b` of two `float`s: false when either is a NaN. -/
def float_gt (a b : Nat) : Bool := float_lt b a

/-- The number of halvings that bring `n` below 2^24, at most `fuel` of them;
with `fuel = n` it is the excess of the length of `n` in bits over 24. -/
def float_shift : Nat → Nat → Nat
  | 0, _ => 0
  | fuel + 1, n => if n < 2 ^ 24 then 0 else float_shift fuel (n / 2) + 1

/-- The `float` of sign bit `sign` nearest to the magnitude `n`, given in
units of 2^-149, ties to the even fraction; an infinity when the rounded
magnitude is beyond the largest finite one. Magnitudes below 2^24 are
patterns themselves. -/
def float_round (sign n : Nat) : Nat :=
  if n < 2 ^ 24 then sign * 2 ^ 31 + n
  else
    let k := float_shift n n
    let q := n / 2 ^ k
    let r := n % 2 ^ k
    let q := if r > 2 ^ (k - 1) ∨ (r = 2 ^ (k - 1) ∧ q % 2 = 1) then q + 1 else q
    let bits := (k + 1) * 2 ^ 23 + (q - 2 ^ 23)
    if bits ≥ 255 * 2 ^ 23 then sign * 2 ^ 31 + 255 * 2 ^ 23 else sign * 2 ^ 31 + bits

/-- The default NaN. Which NaN an operation yields (sign and payload) is left
open by C and differs between processors and compilers; every NaN result is
written as this one, and only `float_is_nan` is ever asked of it. -/
def float_nan : Nat := 0x7FC00000

/-- The sum `a + b` of two `float`s in single precision, rounding to nearest,
ties to even: a NaN when an operand is a NaN or the operands are opposite
infinities, an infinity when one operand is, a zero of the common sign or +0
for an exact sum of 0, and the rounded exact sum otherwise. -/
def float_add (a b : Nat) : Nat :=
  if float_is_nan a || float_is_nan b then float_nan
  else if float_exponent a = 255 then
    if float_exponent b = 255 ∧ float_sign a ≠ float_sign b then float_nan else a
  else if float_exponent b = 255 then b
  else if float_scaled a + float_scaled b = 0 then
    if float_sign a = 1 ∧ float_sign b = 1 then 2 ^ 31 else 0
  else if float_scaled a + float_scaled b < 0 then
    float_round 1 (float_scaled a + float_scaled b).natAbs
  else float_round 0 (float_scaled a + float_scaled b).natAbs

/-- The `float` with the opposite sign. -/
def float_neg (x : Nat) : Nat := if float_sign x = 1 then x - 2 ^ 31 else x + 2 ^ 31

/-- The difference `a - b` of two `float`s in single precision: the sum of
`a` and the opposite of `b`. -/
def float_sub (a b : Nat) : Nat := float_add a (float_neg b)

/-- Whether a `float` lies in [0, 1], in the words of the specification: it
is a number, at least 0 and at most 1 (2^149 units of 2^-149). -/
def float_in_unit_interval (x : Nat) : Bool :=
  !float_is_nan x && decide (0 ≤ float_scaled x) && decide (float_scaled x ≤ 2 ^ 149)

/-- The constant `VOLUME_STEP`, `0.05f`: the `float` nearest to 1/20. -/
def VOLUME_STEP : Nat := 0x3D4CCCCD

/-- The constant `MIN_VOLUME`, `0.0f`. -/
def MIN_VOLUME : Nat := 0

/-- The constant `MAX_VOLUME`, `1.0f`. -/
def MAX_VOLUME : Nat := 0x3F800000

/-- The static variables of `volume_control.c`. -/
structure VolumeModule where
  /-- The variable `current_volume`, a `float`. -/
  current_volume : Nat
  /-- The variable `is_muted`. -/
  is_muted : Bool
  /-- The variable `volume_callback`. -/
  volume_callback : Option Nat
deriving DecidableEq, Repr

/-- Calls `volume_control.c` makes outside itself, in the order made. -/
inductive VolumeEffect where
  /-- A call `audio_output_set_volume(level)`. -/
  | audio_output_set_volume (level : Nat)
  /-- A call `volume_callback(volume, muted)` of the handler at `cb`. -/
  | volume_changed (cb : Nat) (volume : Nat) (muted : Bool)
deriving DecidableEq, Repr

/-- What a call of a volume function leaves behind. -/
structure VolumeResult where
  /-- The return value. -/
  ret : Int
  /-- The static variables after the call. -/
  module : VolumeModule
  /-- The calls made. -/
  effects : List VolumeEffect
deriving DecidableEq, Repr

/-- The statements "apply volume to audio output" and "notify callback"
shared by the four functions that change the volume or the mute flag; the
level for a muted output is `0.0f`. -/
def volume_apply (m : VolumeModule) : List VolumeEffect :=
  VolumeEffect.audio_output_set_volume (if m.is_muted then 0 else m.current_volume) ::
    (match m.volume_callback with
      | some cb => [VolumeEffect.volume_changed cb m.current_volume m.is_muted]
      | none => [])

/-- The function `volume_control_init`: the volume becomes `0.5f`. -/
def volume_control_init (m : VolumeModule) : VolumeResult :=
  ⟨0, { m with current_volume := 0x3F000000, is_muted := false }, []⟩

/-- The function `volume_control_set_volume`. -/
def volume_control_set_volume (m : VolumeModule) (volume : Nat) : VolumeResult :=
  if float_lt volume MIN_VOLUME || float_gt volume MAX_VOLUME then ⟨-1, m, []⟩
  else ⟨0, { m with current_volume := volume }, volume_apply { m with current_volume := volume }⟩

/-- The function `volume_control_set_mute`. -/
def volume_control_set_mute (m : VolumeModule) (mute : Bool) : VolumeResult :=
  ⟨0, { m with is_muted := mute }, volume_apply { m with is_muted := mute }⟩

/-- The function `volume_control_step_up`. -/
def volume_control_step_up (m : VolumeModule) : VolumeResult :=
  let new_volume := float_add m.current_volume VOLUME_STEP
  let new_volume := if float_gt new_volume MAX_VOLUME then MAX_VOLUME else new_volume
  ⟨0, { m with current_volume := new_volume }, volume_apply { m with current_volume := new_volume }⟩

/-- The function `volume_control_step_down`. -/
def volume_control_step_down (m : VolumeModule) : VolumeResult :=
  let new_volume := float_sub m.current_volume VOLUME_STEP
  let new_volume := if float_lt new_volume MIN_VOLUME then MIN_VOLUME else new_volume
  ⟨0, { m with current_volume := new_volume }, volume_apply { m with current_volume := new_volume }⟩

/-- The function `volume_control_set_callback`. -/
def volume_control_set_callback (m : VolumeModule) (callback : Option Nat) : VolumeResult :=
  ⟨0, { m with volume_callback := callback }, []⟩

/-- The function `volume_control_cleanup`. -/
def volume_control_cleanup (m : VolumeModule) : VolumeResult :=
  ⟨0, { m with volume_callback := none }, []⟩

/-- One call of a function of `volume_control.c`. -/
inductive VolumeCall where
  | init
  | cleanup
  | set_volume (volume : Nat)
  | set_mute (mute : Bool)
  | step_up
  | step_down
  | set_callback (callback : Option Nat)
deriving DecidableEq, Repr

/-- The outcome of one call. -/
def volume_call (m : VolumeModule) : VolumeCall → VolumeResult
  | VolumeCall.init => volume_control_init m
  | VolumeCall.cleanup => volume_control_cleanup m
  | VolumeCall.set_volume v => volume_control_set_volume m v
  | VolumeCall.set_mute b => volume_control_set_mute m b
  | VolumeCall.step_up => volume_control_step_up m
  | VolumeCall.step_down => volume_control_step_down m
  | VolumeCall.set_callback cb => volume_control_set_callback m cb

/-- The static variables as the program starts: volume `0.5f`, not muted, no
callback. -/
def volume_initial : VolumeModule := ⟨0x3F000000, false, none⟩

/-- The static variables after a sequence of calls, oldest first. -/
def volume_calls (m : VolumeModule) (calls : List VolumeCall) : VolumeModule :=
  calls.foldl (fun st c => (volume_call st c).module) m

/-! ## audio_output.c: configuration and frame counts -/

/-- The type `audio_config_t`; `channels` and `bits_per_sample` are `uint8_t`
values, the device name is the string pointed to. -/
structure audio_config_t where
  /-- The field `uint32_t sample_rate`. -/
  sample_rate : Nat
  /-- The field `uint8_t channels`. -/
  channels : Nat
  /-- The field `uint8_t bits_per_sample`. -/
  bits_per_sample : Nat
  /-- The field `const char *device_name`. -/
  device_name : List Nat
  /-- The field `bool use_hw_volume`. -/
  use_hw_volume : Bool
deriving DecidableEq, Repr

/-- The configuration `audio_output_init` stores. -/
def audio_default_config : audio_config_t := ⟨44100, 2, 16, str "default", false⟩

/-- The function `audio_output_configure`: the return value and
`current_config` afterwards; a null pointer is `none`. -/
def audio_output_configure (current_config : audio_config_t) (config : Option audio_config_t) :
    Int × audio_config_t :=
  match config with
  | none => (-1, current_config)
  | some c => (0, c)

/-- The divisor `current_config.channels * current_config.bits_per_sample / 8`
of `audio_output_start` and `audio_output_write`, computed in `int`. -/
def bytes_per_frame (c : audio_config_t) : Nat := c.channels * c.bits_per_sample / 8

/-- The quotient `n / (channels * bits_per_sample / 8)` that
`audio_output_start` computes for `n = buffer_size` and `audio_output_write`
for `n = length`; `none` when the divisor is zero, where the C division is
undefined. -/
def frame_count (c : audio_config_t) (n : Nat) : Option Nat :=
  if bytes_per_frame c = 0 then none else some (n / bytes_per_frame c)

/-! ## network_utils.c: the discovery response -/

/-- The literal `discovery_response` of `airplay_handle_discovery_request`. -/
def discovery_response : List Nat :=
  str "HTTP/1.1 200 OK\r\nContent-Type: text/x-apple-plist+xml\r\nContent-Length: 0\r\n\r\n"

/-- What a call of `airplay_handle_discovery_request` leaves behind. -/
structure DiscoveryResult where
  /-- The return value. -/
  ret : Int
  /-- The bytes from `response[0]` on after the call; longer than the buffer
  passed when the call has written past its end. -/
  response : List Nat
  /-- The value of `*response_length` after the call. -/
  response_length : Nat
  /-- The number of bytes the call has stored through `response`. -/
  written : Nat
deriving DecidableEq, Repr

/-- The function `airplay_handle_discovery_request` with non-null `response`
and `response_length`: `response` is the caller's buffer, `response_length`
the value of `*response_length` before the call. The request bytes are not
read. `strcpy` stores the literal and its terminating NUL. -/
def airplay_handle_discovery_request (request : Option (List Nat)) (response : List Nat)
    (response_length : Nat) : DiscoveryResult :=
  match request with
  | none => ⟨-1, response, response_length, 0⟩
  | some _ =>
    let resp_len := discovery_response.length
    if response_length < resp_len then ⟨-1, response, response_length, 0⟩
    else
      ⟨0, write_bytes response (discovery_response ++ [0]), resp_len,
        (discovery_response ++ [0]).length⟩

/-! ## multiroom.c: the room table -/

/-- The constant `MAX_ROOMS`. -/
def MAX_ROOMS : Nat := 8

/-- The constant `MAX_ROOM_NAME_LEN`. -/
def MAX_ROOM_NAME_LEN : Nat := 32

/-- The C library's `strcmp(s1, s2)` on strings given by their characters
before the NUL. -/
def strcmp : List Nat → List Nat → Int
  | [], s2 => 0 - (s2.headD 0 : Int)
  | c1 :: t1, s2 =>
    if c1 ≠ s2.headD 0 then (c1 : Int) - (s2.headD 0 : Int)
    else if c1 = 0 then 0
    else strcmp t1 s2.tail

/-- Entry `i` of the three parallel arrays `rooms`, `room_sockets` and
`room_addresses`. -/
structure Room where
  /-- The string in `rooms[i]`. -/
  name : List Nat
  /-- The descriptor `room_sockets[i]`. -/
  socket : Int
  /-- The address `room_addresses[i]`, its port given in host order. -/
  address : sockaddr_in
deriving DecidableEq, Repr

/-- An entry as `multiroom_init` and the end of `multiroom_remove_room` leave
it: zeroed name and address, socket -1. -/
def Room.cleared : Room := ⟨[], -1, ⟨0, 0, 0⟩⟩

/-- The static variables of `multiroom.c` that room management uses. -/
structure MultiroomModule where
  /-- The arrays `rooms`, `room_sockets` and `room_addresses`, entry by entry. -/
  rooms : List Room
  /-- The variable `room_count`. -/
  room_count : Nat
  /-- The variable `room_added_callback`. -/
  room_added_callback : Option Nat
  /-- The variable `room_removed_callback`. -/
  room_removed_callback : Option Nat
deriving DecidableEq, Repr

/-- Calls room management makes outside the module, in the order made. -/
inductive RoomEffect where
  /-- A call `close(fd)`. -/
  | close (fd : Int)
  /-- A call `room_added_callback(room_name)` of the handler at `cb`. -/
  | room_added (cb : Nat) (room_name : List Nat)
  /-- A call `room_removed_callback(room_name)` of the handler at `cb`. -/
  | room_removed (cb : Nat) (room_name : List Nat)
deriving DecidableEq, Repr

/-- What a call of a room function leaves behind. -/
structure RoomResult where
  /-- The return value. -/
  ret : Int
  /-- The static variables after the call. -/
  module : MultiroomModule
  /-- The calls made. -/
  effects : List RoomEffect
deriving DecidableEq, Repr

/-- The room part of `multiroom_init`. -/
def multiroom_init (m : MultiroomModule) : RoomResult :=
  ⟨0, { m with room_count := 0, rooms := List.replicate MAX_ROOMS Room.cleared }, []⟩

/-- The search loop of `multiroom_add_room` and `multiroom_remove_room`: the
first index below `room_count` whose name compares equal to `room_name`. -/
def find_room (m : MultiroomModule) (room_name : List Nat) : Option Nat :=
  (List.range m.room_count).find?
    (fun i => strcmp (m.rooms.getD i Room.cleared).name room_name == 0)

/-- The function `multiroom_add_room`; `room_name` is `none` for a null
pointer, `sock` is what `socket` returns when it is called. -/
def multiroom_add_room (m : MultiroomModule) (room_name : Option (List Nat)) (port : Nat)
    (sock : Int) : RoomResult :=
  match room_name with
  | none => ⟨-1, m, []⟩
  | some name =>
    if name.length = 0 then ⟨-1, m, []⟩
    else if m.room_count ≥ MAX_ROOMS then ⟨-1, m, []⟩
    else if (find_room m name).isSome then ⟨-1, m, []⟩
    else
      let old := m.rooms.getD m.room_count Room.cleared
      let named : Room := { old with name := name.take (MAX_ROOM_NAME_LEN - 1) }
      let entry : Room :=
        if sock ≥ 0 then { named with socket := sock, address := ⟨2, port, 0⟩ } else named
      ⟨0, { m with rooms := m.rooms.set m.room_count entry, room_count := m.room_count + 1 },
        match m.room_added_callback with
        | some cb => [RoomEffect.room_added cb name]
        | none => []⟩

/-- The loop "shift remaining rooms":
`for (i = room_index; i < room_count - 1; i++)` entry `i` takes entry `i + 1`. -/
def shift_rooms (rooms : List Room) (room_index room_count : Nat) : List Room :=
  (List.range' room_index (room_count - 1 - room_index)).foldl
    (fun rs i => rs.set i (rs.getD (i + 1) Room.cleared)) rooms

/-- The function `multiroom_remove_room`. -/
def multiroom_remove_room (m : MultiroomModule) (room_name : Option (List Nat)) : RoomResult :=
  match room_name with
  | none => ⟨-1, m, []⟩
  | some name =>
    match find_room m name with
    | none => ⟨-1, m, []⟩
    | some room_index =>
      let closed : List RoomEffect :=
        if (m.rooms.getD room_index Room.cleared).socket ≥ 0 then
          [RoomEffect.close (m.rooms.getD room_index Room.cleared).socket]
        else []
      let shifted := shift_rooms m.rooms room_index m.room_count
      ⟨0,
        { m with
          rooms := shifted.set (m.room_count - 1) Room.cleared,
          room_count := m.room_count - 1 },
        closed ++
          match m.room_removed_callback with
          | some cb => [RoomEffect.room_removed cb name]
          | none => []⟩

/-- One call of room management with a non-null name. -/
inductive RoomCall where
  /-- A call `multiroom_add_room(room_name, port)` during which `socket`
  returns `sock`. -/
  | add (room_name : List Nat) (port : Nat) (sock : Int)
  /-- A call `multiroom_remove_room(room_name)`. -/
  | remove (room_name : List Nat)
deriving DecidableEq, Repr

/-- The outcome of one call. -/
def room_call (m : MultiroomModule) : RoomCall → RoomResult
  | RoomCall.add name port sock => multiroom_add_room m (some name) port sock
  | RoomCall.remove name => multiroom_remove_room m (some name)

/-- The static variables after `multiroom_init` and a sequence of calls,
oldest first. -/
def room_calls (m : MultiroomModule) (calls : List RoomCall) : MultiroomModule :=
  calls.foldl (fun st c => (room_call st c).module) (multiroom_init m).module

/-- The names stored in the first `room_count` entries. -/
def stored_names (m : MultiroomModule) : List (List Nat) :=
  (m.rooms.take m.room_count).map (fun r => r.name)

/-- The static variables as the program starts: zeroed arrays, no callback. -/
def multiroom_initial : MultiroomModule :=
  ⟨List.replicate MAX_ROOMS ⟨[], 0, ⟨0, 0, 0⟩⟩, 0, none, none⟩

/-! ## Helper lemmas: strings and handlers -/

/-- The characters of `ANNOUNCE`. -/
theorem str_ANNOUNCE : str "ANNOUNCE" = [65, 78, 78, 79, 85, 78, 67, 69] := by decide

/-- The characters of `SETUP`. -/
theorem str_SETUP : str "SETUP" = [83, 69, 84, 85, 80] := by decide

/-- The characters of `RECORD`. -/
theorem str_RECORD : str "RECORD" = [82, 69, 67, 79, 82, 68] := by decide

/-- The characters of `PAUSE`. -/
theorem str_PAUSE : str "PAUSE" = [80, 65, 85, 83, 69] := by decide

/-- The characters of `FLUSH`. -/
theorem str_FLUSH : str "FLUSH" = [70, 76, 85, 83, 72] := by decide

/-- The characters of `TEARDOWN`. -/
theorem str_TEARDOWN : str "TEARDOWN" = [84, 69, 65, 82, 68, 79, 87, 78] := by decide

/-- The characters of `OPTIONS`. -/
theorem str_OPTIONS : str "OPTIONS" = [79, 80, 84, 73, 79, 78, 83] := by decide

/-- The characters of `POST`. -/
theorem str_POST : str "POST" = [80, 79, 83, 84] := by decide

/-- The characters of `GET`. -/
theorem str_GET : str "GET" = [71, 69, 84] := by decide

/-- The response to a request that starts with `SETUP`. -/
theorem rtsp_response_setup (rest : List Nat) :
    rtsp_response (str "SETUP" ++ rest) =
      str ("RTSP/1.0 200 OK\r\nCSeq: 2\r\nServer: AirPlay/220.68\r\n" ++
        "Transport: RTP/AVP/UDP;unicast;interleaved=0-1\r\n\r\n") := by
  simp [rtsp_response, str_SETUP, str_ANNOUNCE, strncmp]

/-- The response to a request that starts with `RECORD`. -/
theorem rtsp_response_record (rest : List Nat) :
    rtsp_response (str "RECORD" ++ rest) =
      str "RTSP/1.0 200 OK\r\nCSeq: 3\r\nServer: AirPlay/220.68\r\n\r\n" := by
  simp [rtsp_response, str_SETUP, str_ANNOUNCE, str_RECORD, strncmp]

/-- The response to a request that starts with `TEARDOWN`. -/
theorem rtsp_response_teardown (rest : List Nat) :
    rtsp_response (str "TEARDOWN" ++ rest) =
      str "RTSP/1.0 200 OK\r\nCSeq: 1\r\nServer: AirPlay/220.68\r\n\r\n" := by
  simp [rtsp_response, str_SETUP, str_ANNOUNCE, str_RECORD, str_TEARDOWN, strncmp]

/-- A received buffer that starts with `SETUP` goes to the RTSP handler. -/
theorem handle_client_request_setup (server : airplay_server) (fd : Int) (rest : List Nat) :
    handle_client_request server fd (some (str "SETUP" ++ rest)) =
      ⟨0, server, [Effect.send fd (rtsp_response (str "SETUP" ++ rest))]⟩ := by
  simp [handle_client_request, handle_rtsp_request, str_SETUP, str_ANNOUNCE, str_OPTIONS,
    str_POST, str_GET, strncmp]
  omega

/-- A received buffer that starts with `RECORD` goes to the RTSP handler. -/
theorem handle_client_request_record (server : airplay_server) (fd : Int) (rest : List Nat) :
    handle_client_request server fd (some (str "RECORD" ++ rest)) =
      ⟨0, server, [Effect.send fd (rtsp_response (str "RECORD" ++ rest))]⟩ := by
  simp [handle_client_request, handle_rtsp_request, str_SETUP, str_ANNOUNCE, str_OPTIONS,
    str_POST, str_GET, str_RECORD, strncmp]
  omega

/-- A received buffer that starts with `TEARDOWN` goes to the RTSP handler. -/
theorem handle_client_request_teardown (server : airplay_server) (fd : Int) (rest : List Nat) :
    handle_client_request server fd (some (str "TEARDOWN" ++ rest)) =
      ⟨0, server, [Effect.send fd (rtsp_response (str "TEARDOWN" ++ rest))]⟩ := by
  simp [handle_client_request, handle_rtsp_request, str_SETUP, str_ANNOUNCE, str_OPTIONS,
    str_POST, str_GET, str_RECORD, str_PAUSE, str_FLUSH, str_TEARDOWN, strncmp]
  omega

/-- No handler changes the server structure. -/
theorem handle_client_request_server (server : airplay_server) (fd : Int)
    (rx : Option (List Nat)) : (handle_client_request server fd rx).server = server := by
  unfold handle_client_request handle_http_request handle_rtsp_request
  dsimp only
  split_ifs <;> rfl

/-! ## Helper lemmas: the slot table -/

/-- The slot-filling loop leaves a full table as it is. -/
theorem accept_fill_full (fd : Int) (addr : sockaddr_in) (cs : List Client)
    (h : ∀ c ∈ cs, c.connected = true) : accept_fill fd addr cs = cs := by
  induction cs with
  | nil => rfl
  | cons c cs ih =>
    have hc : c.connected = true := h c (List.mem_cons_self _ _)
    simp [accept_fill, hc, ih (fun d hd => h d (List.mem_cons_of_mem _ hd))]

/-- The slot-filling loop leaves every connected slot as it is. -/
theorem accept_fill_getD (fd : Int) (addr : sockaddr_in) (cs : List Client) (k : Nat)
    (h : (cs.getD k Client.zero).connected = true) :
    (accept_fill fd addr cs).getD k Client.zero = cs.getD k Client.zero := by
  induction cs generalizing k with
  | nil => rfl
  | cons c cs ih =>
    cases k with
    | zero =>
      have hc : c.connected = true := by simpa using h
      simp [accept_fill, hc]
    | succ k =>
      have hk : (cs.getD k Client.zero).connected = true := by simpa using h
      by_cases hc : c.connected = true
      · simpa [accept_fill, hc] using ih k hk
      · simp [accept_fill, hc]

/-- The block "check for new connections" leaves every connected slot as it is. -/
theorem accept_step_getD (ready : Bool) (cs : List Client) (fd : Int) (addr : sockaddr_in)
    (k : Nat) (h : (cs.getD k Client.zero).connected = true) :
    (accept_step ready cs fd addr).1.getD k Client.zero = cs.getD k Client.zero := by
  unfold accept_step
  split_ifs
  · exact accept_fill_getD fd addr cs k h
  · rfl
  · rfl

/-- The result of `airplay_server_process` when the server is running and
`select` reports readiness: the accept block, then the client loop. -/
theorem airplay_server_process_ready (server : airplay_server) (os : ProcessInput)
    (isset : Int → Bool) (hrun : server.running = true)
    (hsel : os.select = SelectOutcome.ready isset) :
    airplay_server_process server os =
      ⟨0,
        ((List.range MAX_CLIENTS).foldl (client_step isset os.recv)
          ({ server with
              clients :=
                (accept_step (isset server.socket_fd) server.clients os.accept_fd
                  os.accept_addr).1 },
            (accept_step (isset server.socket_fd) server.clients os.accept_fd
              os.accept_addr).2)).1,
        ((List.range MAX_CLIENTS).foldl (client_step isset os.recv)
          ({ server with
              clients :=
                (accept_step (isset server.socket_fd) server.clients os.accept_fd
                  os.accept_addr).1 },
            (accept_step (isset server.socket_fd) server.clients os.accept_fd
              os.accept_addr).2)).2⟩ := by
  unfold airplay_server_process
  simp only [hrun, hsel, Bool.not_true, Bool.false_eq_true, if_false]

/-- One pass of the client loop leaves slot `k` as it is when the pass is for
another slot or its handler does not report a failure. -/
theorem client_step_slot (isset : Int → Bool) (recv : Nat → Option (List Nat))
    (st : airplay_server × List Effect) (i k : Nat)
    (h : i = k → ∀ server fd, 0 ≤ (handle_client_request server fd (recv i)).ret) :
    (client_step isset recv st i).1.slot k = st.1.slot k := by
  unfold client_step
  dsimp only
  split_ifs with h1 h2
  · by_cases hik : i = k
    · exact absurd h2 (not_lt.mpr (h hik _ _))
    · simp only [airplay_server.slot, handle_client_request_server]
      rw [List.getD_eq_getElem?_getD, List.getD_eq_getElem?_getD,
        List.getElem?_set_ne hik, ← List.getD_eq_getElem?_getD]
  · simp only [handle_client_request_server]
  · rfl

/-- The client loop leaves slot `k` as it is when the handler of slot `k` does
not report a failure. -/
theorem client_loop_slot (isset : Int → Bool) (recv : Nat → Option (List Nat)) (k : Nat)
    (h : ∀ server fd, 0 ≤ (handle_client_request server fd (recv k)).ret)
    (l : List Nat) (st : airplay_server × List Effect) :
    (l.foldl (client_step isset recv) st).1.slot k = st.1.slot k := by
  induction l generalizing st with
  | nil => rfl
  | cons i l ih =>
    rw [List.foldl_cons, ih]
    exact client_step_slot isset recv st i k (fun hik server fd => by subst hik; exact h server fd)

/-- One pass of the client loop keeps the calls recorded so far. -/
theorem client_step_effects_mono (isset : Int → Bool) (recv : Nat → Option (List Nat))
    (st : airplay_server × List Effect) (i : Nat) (e : Effect) (h : e ∈ st.2) :
    e ∈ (client_step isset recv st i).2 := by
  unfold client_step
  dsimp only
  split_ifs
  · simp [h]
  · simp [h]
  · exact h

/-- The client loop keeps the calls recorded so far. -/
theorem client_loop_effects_mono (isset : Int → Bool) (recv : Nat → Option (List Nat))
    (e : Effect) (l : List Nat) (st : airplay_server × List Effect) (h : e ∈ st.2) :
    e ∈ (l.foldl (client_step isset recv) st).2 := by
  induction l generalizing st with
  | nil => exact h
  | cons i l ih =>
    rw [List.foldl_cons]
    exact ih _ (client_step_effects_mono isset recv st i e h)

/-- The client loop sends what the handler of a connected, ready slot sends
when that handler does not report a failure. -/
theorem client_loop_sends (isset : Int → Bool) (recv : Nat → Option (List Nat)) (k : Nat)
    (response : List Nat)
    (h : ∀ server fd, handle_client_request server fd (recv k) =
      ⟨0, server, [Effect.send fd response]⟩)
    (l : List Nat) (hk : k ∈ l) (st : airplay_server × List Effect)
    (hconn : (st.1.slot k).connected = true) (hready : isset (st.1.slot k).fd = true) :
    Effect.send (st.1.slot k).fd response ∈ (l.foldl (client_step isset recv) st).2 := by
  induction l generalizing st with
  | nil => simp at hk
  | cons i l ih =>
    rw [List.foldl_cons]
    by_cases hik : i = k
    · subst hik
      apply client_loop_effects_mono
      unfold client_step
      simp [hconn, hready, h]
    · have hkl : k ∈ l := by
        rcases List.mem_cons.mp hk with h1 | h1
        · exact absurd h1.symm hik
        · exact h1
      have hs : (client_step isset recv st i).1.slot k = st.1.slot k :=
        client_step_slot isset recv st i k (fun h1 => absurd h1 hik)
      have := ih hkl (client_step isset recv st i) (by rw [hs]; exact hconn)
        (by rw [hs]; exact hready)
      rwa [hs] at this

/-! ## Pairing verification -/

/-- C2: with HMAC-SHA1 taken as any function with 20-byte output, for all
non-null challenge, response and key `airplay_verify_pairing` returns 0 if and
only if the response is exactly `sha1_hmac(key, challenge)`, and returns -1
for every other response. -/
theorem airplay_verify_pairing_accepts_iff (HMAC : List Nat → List Nat → List Nat)
    (hlen : ∀ k d, (HMAC k d).length = SHA_DIGEST_LENGTH)
    (challenge response key : List Nat) :
    (airplay_verify_pairing HMAC (some challenge) (some response) (some key) = 0 ↔
        response = HMAC key challenge) ∧
      (response ≠ HMAC key challenge →
        airplay_verify_pairing HMAC (some challenge) (some response) (some key) = -1) := by
  have hd := hlen key challenge
  by_cases hr : response.length = SHA_DIGEST_LENGTH
  · have h1 : (HMAC key challenge).take SHA_DIGEST_LENGTH = HMAC key challenge :=
      List.take_of_length_le (le_of_eq hd)
    have h2 : response.take SHA_DIGEST_LENGTH = response :=
      List.take_of_length_le (le_of_eq hr)
    by_cases he : response = HMAC key challenge
    · subst he
      simp [airplay_verify_pairing, sha1_hmac, memcmp_eq, hr]
    · have he2 : ¬ HMAC key challenge = response := fun h => he h.symm
      simp [airplay_verify_pairing, sha1_hmac, memcmp_eq, hr, h1, h2, he, he2]
  · have he : response ≠ HMAC key challenge := fun h => hr (by rw [h, hd])
    simp [airplay_verify_pairing, sha1_hmac, hr, he]

/-- Witness of C2 for a concrete 20-byte keyed function, challenge and key. -/
theorem airplay_verify_pairing_accepts_iff_witness :
    (airplay_verify_pairing example_hmac (some [1, 2, 3]) (some (example_hmac [9, 9] [1, 2, 3]))
          (some [9, 9]) = 0 ↔
        example_hmac [9, 9] [1, 2, 3] = example_hmac [9, 9] [1, 2, 3]) ∧
      (example_hmac [9, 9] [1, 2, 3] ≠ example_hmac [9, 9] [1, 2, 3] →
        airplay_verify_pairing example_hmac (some [1, 2, 3])
          (some (example_hmac [9, 9] [1, 2, 3])) (some [9, 9]) = -1) :=
  airplay_verify_pairing_accepts_iff example_hmac (fun _ _ => by simp [example_hmac, SHA_DIGEST_LENGTH])
    [1, 2, 3] (example_hmac [9, 9] [1, 2, 3]) [9, 9]

/-- C8 fails: it is not the case that a second verification of a challenge is
always rejected; the claim is false for every keyed function with 20-byte
output. -/
theorem verify_replay_rejected_counterexample :
    ¬ (∀ (HMAC : List Nat → List Nat → List Nat) (challenge response key : List Nat),
        (∀ k d, (HMAC k d).length = SHA_DIGEST_LENGTH) →
        (verify_calls HMAC
          [(challenge, response, key), (challenge, HMAC key challenge, key)]).getD 1 0 = -1) := by
  intro h
  have h1 := h example_hmac [1, 2, 3] [0] [9, 9] (fun _ _ => by simp [example_hmac, SHA_DIGEST_LENGTH])
  revert h1
  decide

/-- C8 as amended: `airplay_verify_pairing` keeps no record of the challenges
it has seen. After any earlier call with the same challenge, whatever its
response and result, a call with the correct response `sha1_hmac(key,
challenge)` returns 0 again, and every call returns what the same call would
return on its own. -/
theorem verify_replay_accepted (HMAC : List Nat → List Nat → List Nat)
    (hlen : ∀ k d, (HMAC k d).length = SHA_DIGEST_LENGTH)
    (challenge response key : List Nat) :
    verify_calls HMAC [(challenge, response, key), (challenge, HMAC key challenge, key)] =
      [airplay_verify_pairing HMAC (some challenge) (some response) (some key), 0] := by
  have hd := hlen key challenge
  simp [verify_calls, airplay_verify_pairing, sha1_hmac, memcmp_eq, hd]

/-- Witness of the amended C8: a rejected attempt followed by a replay of the
same challenge with the correct response. -/
theorem verify_replay_accepted_witness :
    verify_calls example_hmac
        [([1, 2, 3], [0], [9, 9]), ([1, 2, 3], example_hmac [9, 9] [1, 2, 3], [9, 9])] =
      [airplay_verify_pairing example_hmac (some [1, 2, 3]) (some [0]) (some [9, 9]), 0] :=
  verify_replay_accepted example_hmac (fun _ _ => by simp [example_hmac, SHA_DIGEST_LENGTH])
    [1, 2, 3] [0] [9, 9]

/-! ## Streaming requests -/

/-- C3 fails on the code: an `ANNOUNCE` request that carries `CSeq: 7` is
answered, for every server state and descriptor, with the fixed response of
the `ANNOUNCE` branch, whose `CSeq` header is 1. -/
theorem announce_cseq_not_echoed (server : airplay_server) (fd : Int) :
    header_value "CSeq" (str "ANNOUNCE rtsp://10.0.0.1/1 RTSP/1.0\r\nCSeq: 7\r\n\r\n") =
        some (str "7") ∧
      handle_client_request server fd
          (some (str "ANNOUNCE rtsp://10.0.0.1/1 RTSP/1.0\r\nCSeq: 7\r\n\r\n")) =
        ⟨0, server, [Effect.send fd
          (str "RTSP/1.0 200 OK\r\nCSeq: 1\r\nServer: AirPlay/220.68\r\n\r\n")]⟩ ∧
      header_value "CSeq" (str "RTSP/1.0 200 OK\r\nCSeq: 1\r\nServer: AirPlay/220.68\r\n\r\n") =
        some (str "1") := by
  refine ⟨by decide, ?_, by decide⟩
  rfl

/-- C4 fails: on a session that has received nothing yet, a `SETUP` request
read by `airplay_server_process` is answered with status 200. -/
theorem setup_before_announce_counterexample :
    (airplay_server_process example_one_session
        (example_read (str "SETUP rtsp://10.0.0.1/1 RTSP/1.0\r\nCSeq: 1\r\n\r\n"))).effects =
      [Effect.send 5 (str ("RTSP/1.0 200 OK\r\nCSeq: 2\r\nServer: AirPlay/220.68\r\n" ++
        "Transport: RTP/AVP/UDP;unicast;interleaved=0-1\r\n\r\n"))] ∧
    status_code (str ("RTSP/1.0 200 OK\r\nCSeq: 2\r\nServer: AirPlay/220.68\r\n" ++
        "Transport: RTP/AVP/UDP;unicast;interleaved=0-1\r\n\r\n")) = str "200" := by
  decide

/-- C4 as amended: a `SETUP` request is answered with status 200 and a
`Transport` header for every server state, hence whether or not an `ANNOUNCE`
was handled on the session before; the handler leaves the server structure
unchanged and returns 0. -/
theorem setup_always_ok (server : airplay_server) (fd : Int) (rest : List Nat) :
    (handle_client_request server fd (some (str "SETUP" ++ rest))).ret = 0 ∧
      (handle_client_request server fd (some (str "SETUP" ++ rest))).server = server ∧
      (∃ response,
        (handle_client_request server fd (some (str "SETUP" ++ rest))).effects =
            [Effect.send fd response] ∧
          status_code response = str "200" ∧
          header_value "Transport" response =
            some (str "RTP/AVP/UDP;unicast;interleaved=0-1")) := by
  rw [handle_client_request_setup, rtsp_response_setup]
  exact ⟨rfl, rfl, _, rfl, by decide, by decide⟩

/-- C5 fails: on a session that has received nothing yet (no `SETUP`), a
`RECORD` request read by `airplay_server_process` is answered with status 200. -/
theorem record_before_setup_counterexample :
    (airplay_server_process example_one_session
        (example_read (str "RECORD rtsp://10.0.0.1/1 RTSP/1.0\r\nCSeq: 1\r\n\r\n"))).effects =
      [Effect.send 5 (str "RTSP/1.0 200 OK\r\nCSeq: 3\r\nServer: AirPlay/220.68\r\n\r\n")] ∧
    status_code (str "RTSP/1.0 200 OK\r\nCSeq: 3\r\nServer: AirPlay/220.68\r\n\r\n") =
      str "200" := by
  decide

/-- C5 as amended: a `RECORD` request is answered with status 200 for every
server state, hence whatever was handled on the session before it; the handler
leaves the server structure unchanged and returns 0. -/
theorem record_always_ok (server : airplay_server) (fd : Int) (rest : List Nat) :
    (handle_client_request server fd (some (str "RECORD" ++ rest))).ret = 0 ∧
      (handle_client_request server fd (some (str "RECORD" ++ rest))).server = server ∧
      (∃ response,
        (handle_client_request server fd (some (str "RECORD" ++ rest))).effects =
            [Effect.send fd response] ∧
          status_code response = str "200") := by
  rw [handle_client_request_record, rtsp_response_record]
  exact ⟨rfl, rfl, _, rfl, by decide⟩

/-- C6 fails: after `airplay_server_process` has handled a `TEARDOWN` read
from the session in slot 0, the slot is still connected, nothing has been
closed, and bytes arriving later on that socket are dispatched. -/
theorem teardown_counterexample :
    ((airplay_server_process example_one_session
        (example_read (str "TEARDOWN rtsp://10.0.0.1/1 RTSP/1.0\r\nCSeq: 4\r\n\r\n"))).server.slot
          0).connected = true ∧
      (airplay_server_process example_one_session
        (example_read (str "TEARDOWN rtsp://10.0.0.1/1 RTSP/1.0\r\nCSeq: 4\r\n\r\n"))).effects =
        [Effect.send 5 (str "RTSP/1.0 200 OK\r\nCSeq: 1\r\nServer: AirPlay/220.68\r\n\r\n")] ∧
      (airplay_server_process
        (airplay_server_process example_one_session
          (example_read (str "TEARDOWN rtsp://10.0.0.1/1 RTSP/1.0\r\nCSeq: 4\r\n\r\n"))).server
        (example_read (str "GET /info HTTP/1.1\r\n\r\n"))).effects =
        [Effect.send 5 http_response] := by
  decide

/-- C6 as amended: when `airplay_server_process` handles a `TEARDOWN` read
from a connected session, it returns 0, answers with the fixed status-200
response of the RTSP handler, and leaves that session's slot as it was (same
descriptor, address and session id, still connected). -/
theorem teardown_keeps_slot (server : airplay_server) (os : ProcessInput)
    (isset : Int → Bool) (k : Nat) (rest : List Nat)
    (hrun : server.running = true) (hsel : os.select = SelectOutcome.ready isset)
    (hk : k < MAX_CLIENTS)
    (hconn : (server.slot k).connected = true) (hready : isset (server.slot k).fd = true)
    (hrecv : os.recv k = some (str "TEARDOWN" ++ rest)) :
    (airplay_server_process server os).ret = 0 ∧
      (airplay_server_process server os).server.slot k = server.slot k ∧
      ((airplay_server_process server os).server.slot k).connected = true ∧
      Effect.send (server.slot k).fd
          (str "RTSP/1.0 200 OK\r\nCSeq: 1\r\nServer: AirPlay/220.68\r\n\r\n") ∈
        (airplay_server_process server os).effects := by
  have hcall : ∀ (sv : airplay_server) (fd : Int),
      handle_client_request sv fd (os.recv k) =
        ⟨0, sv, [Effect.send fd
          (str "RTSP/1.0 200 OK\r\nCSeq: 1\r\nServer: AirPlay/220.68\r\n\r\n")]⟩ := by
    intro sv fd
    rw [hrecv, handle_client_request_teardown, rtsp_response_teardown]
  have hret : ∀ (sv : airplay_server) (fd : Int),
      0 ≤ (handle_client_request sv fd (os.recv k)).ret := by
    intro sv fd
    rw [hcall]
  rw [airplay_server_process_ready server os isset hrun hsel]
  have hstep := accept_step_getD (isset server.socket_fd) server.clients os.accept_fd
    os.accept_addr k hconn
  generalize accept_step (isset server.socket_fd) server.clients os.accept_fd os.accept_addr =
    acc at hstep ⊢
  have hs : ({ server with clients := acc.1 } : airplay_server).slot k = server.slot k := hstep
  have hslot := client_loop_slot isset os.recv k hret (List.range MAX_CLIENTS)
    ({ server with clients := acc.1 }, acc.2)
  have hsend := client_loop_sends isset os.recv k _ hcall (List.range MAX_CLIENTS)
    (List.mem_range.mpr hk) ({ server with clients := acc.1 }, acc.2)
    (by rw [hs]; exact hconn) (by rw [hs]; exact hready)
  dsimp only at hslot hsend ⊢
  rw [hs] at hslot hsend
  exact ⟨rfl, hslot, by rw [hslot]; exact hconn, hsend⟩

/-- Witness of the amended C6 on the session of slot 0. -/
theorem teardown_keeps_slot_witness :
    (airplay_server_process example_one_session
        (example_read (str "TEARDOWN rtsp://10.0.0.1/1 RTSP/1.0\r\nCSeq: 4\r\n\r\n"))).ret = 0 ∧
      (airplay_server_process example_one_session
        (example_read (str "TEARDOWN rtsp://10.0.0.1/1 RTSP/1.0\r\nCSeq: 4\r\n\r\n"))).server.slot 0 =
        example_one_session.slot 0 ∧
      ((airplay_server_process example_one_session
        (example_read (str "TEARDOWN rtsp://10.0.0.1/1 RTSP/1.0\r\nCSeq: 4\r\n\r\n"))).server.slot
          0).connected = true ∧
      Effect.send (example_one_session.slot 0).fd
          (str "RTSP/1.0 200 OK\r\nCSeq: 1\r\nServer: AirPlay/220.68\r\n\r\n") ∈
        (airplay_server_process example_one_session
          (example_read (str "TEARDOWN rtsp://10.0.0.1/1 RTSP/1.0\r\nCSeq: 4\r\n\r\n"))).effects :=
  teardown_keeps_slot example_one_session
    (example_read (str "TEARDOWN rtsp://10.0.0.1/1 RTSP/1.0\r\nCSeq: 4\r\n\r\n"))
    (fun fd => fd == 5) 0 (str " rtsp://10.0.0.1/1 RTSP/1.0\r\nCSeq: 4\r\n\r\n")
    (by decide) rfl (by decide) (by decide) (by decide) (by decide)

/-! ## Accepting a connection -/

/-- C7: when the server is running, the listening socket is ready, `accept`
returns a descriptor, all `MAX_CLIENTS` slots are connected and none of them
holds that descriptor, the accept block of `airplay_server_process` closes the
new descriptor and changes no slot: the client loop starts from the server as
it was, with the `close` as the only call made so far. -/
theorem accept_when_full (server : airplay_server) (os : ProcessInput) (isset : Int → Bool)
    (hrun : server.running = true) (hsel : os.select = SelectOutcome.ready isset)
    (hlisten : isset server.socket_fd = true) (hacc : 0 ≤ os.accept_fd)
    (hlen : server.clients.length = MAX_CLIENTS)
    (hfull : ∀ i, i < MAX_CLIENTS → (server.slot i).connected = true)
    (hfresh : ∀ i, i < MAX_CLIENTS → (server.slot i).fd ≠ os.accept_fd) :
    accept_step (isset server.socket_fd) server.clients os.accept_fd os.accept_addr =
        (server.clients, [Effect.close os.accept_fd]) ∧
      airplay_server_process server os =
        ⟨0,
          ((List.range MAX_CLIENTS).foldl (client_step isset os.recv)
            (server, [Effect.close os.accept_fd])).1,
          ((List.range MAX_CLIENTS).foldl (client_step isset os.recv)
            (server, [Effect.close os.accept_fd])).2⟩ ∧
      Effect.close os.accept_fd ∈ (airplay_server_process server os).effects := by
  have hslot : ∀ c ∈ server.clients, ∃ i, i < MAX_CLIENTS ∧ server.slot i = c := by
    intro c hc
    obtain ⟨i, hi, rfl⟩ := List.getElem_of_mem hc
    refine ⟨i, hlen ▸ hi, ?_⟩
    simp [airplay_server.slot, List.getD_eq_getElem?_getD, List.getElem?_eq_getElem hi]
  have hall : ∀ c ∈ server.clients, c.connected = true := by
    intro c hc
    obtain ⟨i, hi, rfl⟩ := hslot c hc
    exact hfull i hi
  have hany : server.clients.any (fun c => c.fd == os.accept_fd) = false := by
    rw [List.any_eq_false]
    intro c hc
    obtain ⟨i, hi, rfl⟩ := hslot c hc
    simpa using hfresh i hi
  have hstep : accept_step (isset server.socket_fd) server.clients os.accept_fd os.accept_addr =
      (server.clients, [Effect.close os.accept_fd]) := by
    unfold accept_step
    simp [hlisten, hacc, accept_fill_full _ _ _ hall, hany]
  have hproc := airplay_server_process_ready server os isset hrun hsel
  rw [hstep] at hproc
  refine ⟨hstep, hproc, ?_⟩
  rw [hproc]
  exact client_loop_effects_mono isset os.recv _ _ _ (List.mem_singleton.mpr rfl)

/-- Witness of C7: four sessions on descriptors 5 to 8 and a new connection on
descriptor 9. -/
theorem accept_when_full_witness :
    accept_step ((fun fd => fd == 3) example_full.socket_fd) example_full.clients
          example_accept.accept_fd example_accept.accept_addr =
        (example_full.clients, [Effect.close example_accept.accept_fd]) ∧
      airplay_server_process example_full example_accept =
        ⟨0,
          ((List.range MAX_CLIENTS).foldl (client_step (fun fd => fd == 3) example_accept.recv)
            (example_full, [Effect.close example_accept.accept_fd])).1,
          ((List.range MAX_CLIENTS).foldl (client_step (fun fd => fd == 3) example_accept.recv)
            (example_full, [Effect.close example_accept.accept_fd])).2⟩ ∧
      Effect.close example_accept.accept_fd ∈
        (airplay_server_process example_full example_accept).effects :=
  accept_when_full example_full example_accept (fun fd => fd == 3) (by decide) rfl (by decide)
    (by decide) (by decide) (by decide) (by decide)

/-! ## Base64: the loops by groups and the round trip -/

/-- Masking with `0x3F` keeps the value modulo 64. -/
theorem and_63 (x : Nat) : x &&& 0x3F = x % 64 := Nat.and_pow_two_sub_one_eq_mod x 6

/-- Masking with `0xFF` keeps the value modulo 256. -/
theorem and_255 (x : Nat) : x &&& 0xFF = x % 256 := Nat.and_pow_two_sub_one_eq_mod x 8

set_option maxRecDepth 100000 in
/-- The first 64 entries of the table are pairwise distinct and none is `=`. -/
theorem base64_chars_index :
    ∀ k, k < 64 → base64_chars.getD k 0 ≠ PAD ∧ base64_chars.getD k 0 ∈ base64_chars ∧
      base64_chars.indexOf (base64_chars.getD k 0) = k := by
  decide

/-- The decoder's operand for the `k`-th table character is `k`. -/
theorem decode_operand_table (nd k : Nat) (hk : k < 64) :
    decode_operand nd (base64_chars.getD k 0) = k := by
  obtain ⟨h1, h2, h3⟩ := base64_chars_index k hk
  rw [decode_operand, strchr_offset, if_neg h1, if_pos h2, h3]

/-- Induction on a list by steps of three elements. -/
theorem list_induction3 {P : List Nat → Prop} (h0 : P []) (h1 : ∀ a, P [a])
    (h2 : ∀ a b, P [a, b]) (h3 : ∀ a b c rest, P rest → P (a :: b :: c :: rest)) :
    ∀ l, P l
  | [] => h0
  | [a] => h1 a
  | [a, b] => h2 a b
  | a :: b :: c :: rest => h3 a b c rest (list_induction3 h0 h1 h2 h3 rest)

/-- Reading at `i + k` is reading at `k` after dropping `i` elements. -/
theorem getD_add_drop (data : List Nat) (i k : Nat) :
    data.getD (i + k) 0 = (data.drop i).getD k 0 := by
  simp [List.getD_eq_getElem?_getD, List.getElem?_drop]

/-- The encoding loop, given enough fuel, appends the groups of the bytes from
index `i` on. -/
theorem encode_loop_groups (data : List Nat) (fuel i : Nat) (encoded : List Nat)
    (hfuel : data.length - i ≤ fuel) :
    encode_loop data fuel i encoded = encoded ++ encode_groups (data.drop i) := by
  induction fuel generalizing i encoded with
  | zero =>
    have : data.drop i = [] := List.drop_eq_nil_of_le (by omega)
    simp [encode_loop, this, encode_groups]
  | succ fuel ih =>
    unfold encode_loop
    by_cases hi : i < data.length
    · rw [if_pos hi]
      have hlen : data.length = i + (data.drop i).length := by
        rw [List.length_drop]; omega
      have g0 : data.getD i 0 = (data.drop i).getD 0 0 := getD_add_drop data i 0
      have g1 : data.getD (i + 1) 0 = (data.drop i).getD 1 0 := getD_add_drop data i 1
      have g2 : data.getD (i + 1 + 1) 0 = (data.drop i).getD 2 0 := getD_add_drop data i 2
      have hd3 : data.drop (i + 3) = (data.drop i).drop 3 := by
        rw [List.drop_drop]
      generalize hl : data.drop i = l at hlen g0 g1 g2 hd3
      match l, hlen, g0, g1, g2, hd3 with
      | [], hlen, _, _, _, _ => simp at hlen; omega
      | [a], hlen, g0, g1, g2, hd3 =>
        have k1 : ¬ (i + 1 < data.length) := by simp at hlen; omega
        have e : encode_body data i = (i + 1, encode_quad ((a <<< 16) + (0 <<< 8) + 0)) := by
          simp only [encode_body, hi, k1, if_true, if_false, g0, List.getD_cons_zero, encode_quad]
        rw [e]
        dsimp only
        rw [ih _ _ (by simp at hlen; omega)]
        have : data.drop (i + 1) = [] := List.drop_eq_nil_of_le (by simp at hlen; omega)
        simp [this, encode_groups]
      | [a, b], hlen, g0, g1, g2, hd3 =>
        have k1 : i + 1 < data.length := by simp at hlen; omega
        have k2 : ¬ (i + 1 + 1 < data.length) := by simp at hlen; omega
        have e : encode_body data i = (i + 2, encode_quad ((a <<< 16) + (b <<< 8) + 0)) := by
          simp only [encode_body, hi, k1, k2, if_true, if_false, g0, g1, List.getD_cons_zero,
            List.getD_cons_succ, encode_quad]
        rw [e]
        dsimp only
        rw [ih _ _ (by simp at hlen; omega)]
        have : data.drop (i + 2) = [] := List.drop_eq_nil_of_le (by simp at hlen; omega)
        simp [this, encode_groups]
      | a :: b :: c :: rest, hlen, g0, g1, g2, hd3 =>
        have k1 : i + 1 < data.length := by simp at hlen; omega
        have k2 : i + 1 + 1 < data.length := by simp at hlen; omega
        have e : encode_body data i = (i + 3, encode_quad ((a <<< 16) + (b <<< 8) + c)) := by
          simp only [encode_body, hi, k1, k2, if_true, if_false, g0, g1, g2, List.getD_cons_zero,
            List.getD_cons_succ, encode_quad]
        rw [e]
        dsimp only
        rw [ih _ _ (by simp at hlen; omega), hd3]
        simp [encode_groups]
    · rw [if_neg hi]
      have : data.drop i = [] := List.drop_eq_nil_of_le (by omega)
      simp [this, encode_groups]

/-- The padding loop turns the grouped output into the padded one, also behind
a prefix. -/
theorem encode_pad_groups (x : List Nat) :
    ∀ pre : List Nat,
      encode_pad (pre.length + ((x.length + 2) / 3) * 4) ((3 - x.length % 3) % 3)
        (pre ++ encode_groups x) = pre ++ encode_padded x := by
  induction x using list_induction3 with
  | h0 => intro pre; simp [encode_pad, encode_groups, encode_padded]
  | h1 a =>
    intro pre
    simp [encode_pad, encode_groups, encode_padded, encode_quad, List.range_succ, List.set_append]
  | h2 a b =>
    intro pre
    simp [encode_pad, encode_groups, encode_padded, encode_quad, List.range_succ, List.set_append]
  | h3 a b c rest ih =>
    intro pre
    have h := ih (pre ++ encode_quad ((a <<< 16) + (b <<< 8) + c))
    have e1 : (pre ++ encode_quad ((a <<< 16) + (b <<< 8) + c)).length = pre.length + 4 := by
      simp [encode_quad]
    have e2 : ((a :: b :: c :: rest).length + 2) / 3 * 4 = 4 + (rest.length + 2) / 3 * 4 := by
      simp only [List.length_cons]; omega
    have e3 : (a :: b :: c :: rest).length % 3 = rest.length % 3 := by
      simp only [List.length_cons]; omega
    rw [e1] at h
    rw [e2, e3, encode_groups, encode_padded, ← List.append_assoc, ← List.append_assoc,
      ← Nat.add_assoc]
    exact h

/-- The encoder computes the padded encoding by groups. -/
theorem base64_encode_eq_padded (x : List Nat) : base64_encode x = encode_padded x := by
  unfold base64_encode
  dsimp only
  rw [encode_loop_groups x x.length 0 [] (by omega)]
  have := encode_pad_groups x []
  simpa using this

/-- Inside a string that fits `size_t`, `charAt` reads the character list. -/
theorem charAt_add_drop (s : CString) (i k : Nat) (h : i + k + 2 < SIZE_MOD) :
    s.charAt (i + k) = (s.chars.drop i).getD k 0 := by
  have h1 : i + k ≠ SIZE_MOD - 1 := by omega
  have h2 : i + k ≠ SIZE_MOD - 2 := by omega
  rw [CString.charAt, if_neg h1, if_neg h2, getD_add_drop]

/-- The decoding loop, given enough fuel, is the decoding by groups of the
characters from index `i` on. -/
theorem decode_loop_groups (nd : Nat) (s : CString) (dL : Nat)
    (hsize : s.chars.length + 2 < SIZE_MOD) (fuel i : Nat) (jd : Nat × List Nat)
    (hmod : (s.chars.length - i) % 4 = 0) (hfuel : s.chars.length - i ≤ 4 * fuel) :
    decode_loop nd s s.chars.length dL fuel i jd = decode_groups nd dL (s.chars.drop i) jd := by
  induction fuel generalizing i jd with
  | zero =>
    have : s.chars.drop i = [] := List.drop_eq_nil_of_le (by omega)
    simp [decode_loop, this, decode_groups]
  | succ fuel ih =>
    unfold decode_loop
    by_cases hi : i < s.chars.length
    · rw [if_pos hi]
      have hlen : (s.chars.drop i).length = s.chars.length - i := List.length_drop _ _
      have g0 : s.charAt i = (s.chars.drop i).getD 0 0 := charAt_add_drop s i 0 (by omega)
      have g1 : s.charAt (i + 1) = (s.chars.drop i).getD 1 0 := charAt_add_drop s i 1 (by omega)
      have g2 : s.charAt (i + 2) = (s.chars.drop i).getD 2 0 := charAt_add_drop s i 2 (by omega)
      have g3 : s.charAt (i + 3) = (s.chars.drop i).getD 3 0 := charAt_add_drop s i 3 (by omega)
      have hd4 : s.chars.drop (i + 4) = (s.chars.drop i).drop 4 := by
        rw [List.drop_drop]
      have ih4 := ih (i + 4) (decode_quad nd dL (s.charAt i) (s.charAt (i + 1)) (s.charAt (i + 2))
        (s.charAt (i + 3)) jd) (by omega) (by omega)
      rw [hd4] at ih4
      generalize s.chars.drop i = l at hlen g0 g1 g2 g3 ih4
      match l, hlen, g0, g1, g2, g3, ih4 with
      | [], hlen, _, _, _, _, _ => simp at hlen; omega
      | [_], hlen, _, _, _, _, _ => simp at hlen; omega
      | [_, _], hlen, _, _, _, _, _ => simp at hlen; omega
      | [_, _, _], hlen, _, _, _, _, _ => simp at hlen; omega
      | c0 :: c1 :: c2 :: c3 :: rest, _, g0, g1, g2, g3, ih4 =>
        simp only [List.getD_cons_zero, List.getD_cons_succ] at g0 g1 g2 g3
        rw [g0, g1, g2, g3] at ih4
        simp only [g0, g1, g2, g3, decode_groups]
        exact ih4
    · rw [if_neg hi]
      have : s.chars.drop i = [] := List.drop_eq_nil_of_le (by omega)
      simp [this, decode_groups]

/-- The decoder's operand for `=` is 0. -/
theorem decode_operand_pad (nd : Nat) : decode_operand nd PAD = 0 := by
  simp [decode_operand]

/-- A value masked with `0x3F` is below 64. -/
theorem sextet_lt (x : Nat) : x &&& 0x3F < 64 := by
  rw [and_63]; omega

/-- Three guarded stores depend only on the values stored. -/
theorem store_if_values (dL : Nat) (jd : Nat × List Nat) (x y z a b c : Nat)
    (hx : x = a) (hy : y = b) (hz : z = c) :
    store_if dL (store_if dL (store_if dL jd x) y) z =
      store_if dL (store_if dL (store_if dL jd a) b) c := by
  rw [hx, hy, hz]

/-- One pass of the decoder on the four characters of a full group stores the
three bytes of the group. -/
theorem decode_quad_full (nd dL a b c : Nat) (ha : a < 256) (hb : b < 256) (hc : c < 256)
    (jd : Nat × List Nat) :
    decode_quad nd dL
        (base64_chars.getD ((((a <<< 16) + (b <<< 8) + c) >>> 18) &&& 0x3F) 0)
        (base64_chars.getD ((((a <<< 16) + (b <<< 8) + c) >>> 12) &&& 0x3F) 0)
        (base64_chars.getD ((((a <<< 16) + (b <<< 8) + c) >>> 6) &&& 0x3F) 0)
        (base64_chars.getD (((a <<< 16) + (b <<< 8) + c) &&& 0x3F) 0) jd =
      store_if dL (store_if dL (store_if dL jd a) b) c := by
  unfold decode_quad
  simp only [decode_operand_table _ _ (sextet_lt _)]
  simp only [and_63, and_255, Nat.shiftLeft_eq, Nat.shiftRight_eq_div_pow, UINT32_MOD]
  apply store_if_values <;> omega

/-- One pass of the decoder on the characters of a two-byte group stores the two
bytes, then 0. -/
theorem decode_quad_two (nd dL a b : Nat) (ha : a < 256) (hb : b < 256)
    (jd : Nat × List Nat) :
    decode_quad nd dL
        (base64_chars.getD ((((a <<< 16) + (b <<< 8) + 0) >>> 18) &&& 0x3F) 0)
        (base64_chars.getD ((((a <<< 16) + (b <<< 8) + 0) >>> 12) &&& 0x3F) 0)
        (base64_chars.getD ((((a <<< 16) + (b <<< 8) + 0) >>> 6) &&& 0x3F) 0)
        PAD jd =
      store_if dL (store_if dL (store_if dL jd a) b) 0 := by
  unfold decode_quad
  simp only [decode_operand_table _ _ (sextet_lt _), decode_operand_pad]
  simp only [and_63, and_255, Nat.shiftLeft_eq, Nat.shiftRight_eq_div_pow, UINT32_MOD]
  apply store_if_values <;> omega

/-- One pass of the decoder on the characters of a one-byte group stores the
byte, then 0 twice. -/
theorem decode_quad_one (nd dL a : Nat) (ha : a < 256) (jd : Nat × List Nat) :
    decode_quad nd dL
        (base64_chars.getD ((((a <<< 16) + (0 <<< 8) + 0) >>> 18) &&& 0x3F) 0)
        (base64_chars.getD ((((a <<< 16) + (0 <<< 8) + 0) >>> 12) &&& 0x3F) 0)
        PAD PAD jd =
      store_if dL (store_if dL (store_if dL jd a) 0) 0 := by
  unfold decode_quad
  simp only [decode_operand_table _ _ (sextet_lt _), decode_operand_pad]
  simp only [and_63, and_255, Nat.shiftLeft_eq, Nat.shiftRight_eq_div_pow, UINT32_MOD]
  apply store_if_values <;> omega

/-- A guarded store below the decoded length overwrites the next byte. -/
theorem store_if_append (dL v t : Nat) (xs ts : List Nat) (h : xs.length < dL) :
    store_if dL (xs.length, xs ++ t :: ts) v = ((xs ++ [v]).length, (xs ++ [v]) ++ ts) := by
  simp [store_if, h]

/-- A guarded store at or past the decoded length does nothing. -/
theorem store_if_full (dL v : Nat) (xs ts : List Nat) (h : dL ≤ xs.length) :
    store_if dL (xs.length, xs ++ ts) v = (xs.length, xs ++ ts) := by
  simp [store_if, Nat.not_lt.mpr h]

/-- Decoding by groups the padded encoding of `ys`, after `xs` has been stored,
stores `ys` next and leaves the rest of the buffer. -/
theorem decode_groups_padded (nd : Nat) (ys : List Nat) :
    ∀ xs tail : List Nat, (∀ b ∈ ys, b < 256) → ys.length ≤ tail.length →
      decode_groups nd (xs.length + ys.length) (encode_padded ys) (xs.length, xs ++ tail) =
        xs ++ ys ++ tail.drop ys.length := by
  induction ys using list_induction3 with
  | h0 => intro xs tail _ _; simp [encode_padded, decode_groups]
  | h1 a =>
    intro xs tail hb hlen
    have ha : a < 256 := hb a (by simp)
    match tail, hlen with
    | t :: ts, _ =>
      simp only [encode_padded, encode_quad, List.take, List.cons_append, List.nil_append,
        decode_groups, decode_quad_one nd _ a ha, List.length_singleton]
      rw [store_if_append _ _ _ _ _ (by omega)]
      rw [store_if_full _ _ _ _ (by simp), store_if_full _ _ _ _ (by simp)]
      simp
  | h2 a b =>
    intro xs tail hb hlen
    have ha : a < 256 := hb a (by simp)
    have hb2 : b < 256 := hb b (by simp)
    match tail, hlen with
    | t1 :: t2 :: ts, _ =>
      simp only [encode_padded, encode_quad, List.take, List.cons_append, List.nil_append,
        decode_groups, decode_quad_two nd _ a b ha hb2, List.length_cons, List.length_nil]
      rw [store_if_append _ _ _ _ _ (by omega)]
      rw [store_if_append _ _ _ _ _ (by simp)]
      rw [store_if_full _ _ _ _ (by simp)]
      simp
  | h3 a b c rest ih =>
    intro xs tail hb hlen
    have ha : a < 256 := hb a (by simp)
    have hb2 : b < 256 := hb b (by simp)
    have hc : c < 256 := hb c (by simp)
    match tail, hlen with
    | t1 :: t2 :: t3 :: ts, hlen =>
      simp only [encode_padded, encode_quad, List.cons_append, List.nil_append, List.append_eq,
        decode_groups, decode_quad_full nd _ a b c ha hb2 hc, List.length_cons]
      rw [store_if_append _ _ _ _ _ (by omega)]
      rw [store_if_append _ _ _ _ _ (by simp)]
      rw [store_if_append _ _ _ _ _ (by simp)]
      have h := ih (xs ++ [a] ++ [b] ++ [c]) ts (fun x hx => hb x (by simp [hx]))
        (by simp at hlen; omega)
      have e : (xs ++ [a] ++ [b] ++ [c]).length + rest.length = xs.length + (rest.length + 1 + 1 + 1) := by
        simp; omega
      rw [e] at h
      rw [h]
      simp

/-- The padded encoding has `4 * ceil(n / 3)` characters. -/
theorem encode_padded_length (x : List Nat) :
    (encode_padded x).length = (x.length + 2) / 3 * 4 := by
  induction x using list_induction3 with
  | h0 => simp [encode_padded]
  | h1 a => simp [encode_padded, encode_quad]
  | h2 a b => simp [encode_padded, encode_quad]
  | h3 a b c rest ih =>
    simp only [encode_padded, encode_quad, List.length_append, List.length_cons, List.length_nil,
      ih]
    omega

/-- No character the encoder takes from the table is `=`. -/
theorem table_ne_pad (k : Nat) : base64_chars.getD (k &&& 0x3F) 0 ≠ PAD :=
  (base64_chars_index _ (sextet_lt k)).1

/-- The last character of a non-empty encoding is `=` exactly when the length
is not a multiple of 3, the one before exactly when the length is 1 modulo 3. -/
theorem encode_padded_tail (x : List Nat) (hx : x ≠ []) :
    ((encode_padded x).getD ((encode_padded x).length - 1) 0 = PAD ↔ x.length % 3 ≠ 0) ∧
      ((encode_padded x).getD ((encode_padded x).length - 2) 0 = PAD ↔ x.length % 3 = 1) := by
  induction x using list_induction3 with
  | h0 => exact absurd rfl hx
  | h1 a => simp [encode_padded, encode_quad]
  | h2 a b =>
    have := table_ne_pad (((a <<< 16) + (b <<< 8) + 0) >>> 6)
    simpa [encode_padded, encode_quad] using this
  | h3 a b c rest ih =>
    by_cases hr : rest = []
    · subst hr
      have h3 := table_ne_pad ((a <<< 16) + (b <<< 8) + c)
      have h2 := table_ne_pad (((a <<< 16) + (b <<< 8) + c) >>> 6)
      simp only [encode_padded, encode_quad, List.append_nil, List.length_cons, List.length_nil]
      constructor
      · simpa using h3
      · simpa using h2
    · have hl := encode_padded_length rest
      have hpos : 4 ≤ (encode_padded rest).length := by
        have : 0 < rest.length := List.length_pos.mpr hr
        omega
      have e1 : (encode_padded (a :: b :: c :: rest)).length - 1 =
          4 + ((encode_padded rest).length - 1) := by
        simp only [encode_padded, encode_quad, List.length_append, List.length_cons,
          List.length_nil]
        omega
      have e2 : (encode_padded (a :: b :: c :: rest)).length - 2 =
          4 + ((encode_padded rest).length - 2) := by
        simp only [encode_padded, encode_quad, List.length_append, List.length_cons,
          List.length_nil]
        omega
      have e3 : (a :: b :: c :: rest).length % 3 = rest.length % 3 := by
        simp only [List.length_cons]; omega
      have g : ∀ n, (encode_padded (a :: b :: c :: rest)).getD (4 + n) 0 =
          (encode_padded rest).getD n 0 := by
        intro n
        simp only [encode_padded, encode_quad]
        rw [List.getD_append_right _ _ _ _ (by simp)]
        simp
      rw [e1, e2, e3, g, g]
      exact ih hr

/-- For every non-empty byte sequence `x` the round trip holds: decoding the
string `base64_encode` produces, with a capacity of at least the length of `x`
and an output buffer that large, returns 0, reports that length and leaves
the bytes of `x` at the start of the buffer, the rest of it untouched. -/
theorem base64_roundtrip_nonempty (nullDiff prev2 prev1 : Nat) (x data : List Nat)
    (length : Nat) (hx : x ≠ []) (hbytes : ∀ b ∈ x, b < 256)
    (hsize : 4 * (x.length + 2) < SIZE_MOD) (hcap : x.length ≤ length)
    (hbuf : x.length ≤ data.length) :
    base64_decode nullDiff ⟨prev2, prev1, base64_encode x⟩ data length =
      ⟨0, x ++ data.drop x.length, x.length⟩ := by
  have hpos : 0 < x.length := List.length_pos.mpr hx
  have hl := encode_padded_length x
  obtain ⟨t1, t2⟩ := encode_padded_tail x hx
  rw [base64_encode_eq_padded]
  unfold SIZE_MOD at hsize
  have hL4 : (encode_padded x).length % 4 = 0 := by omega
  have hc1 : ((encode_padded x).length + SIZE_MOD - 1) % SIZE_MOD =
      (encode_padded x).length - 1 := by
    unfold SIZE_MOD; omega
  have hc2 : ((encode_padded x).length + SIZE_MOD - 2) % SIZE_MOD =
      (encode_padded x).length - 2 := by
    unfold SIZE_MOD; omega
  have hg1 : (CString.mk prev2 prev1 (encode_padded x)).charAt ((encode_padded x).length - 1) =
      (encode_padded x).getD ((encode_padded x).length - 1) 0 := by
    have h1 : (encode_padded x).length - 1 ≠ SIZE_MOD - 1 := by unfold SIZE_MOD; omega
    have h2 : (encode_padded x).length - 1 ≠ SIZE_MOD - 2 := by unfold SIZE_MOD; omega
    rw [CString.charAt, if_neg h1, if_neg h2]
  have hg2 : (CString.mk prev2 prev1 (encode_padded x)).charAt ((encode_padded x).length - 2) =
      (encode_padded x).getD ((encode_padded x).length - 2) 0 := by
    have h1 : (encode_padded x).length - 2 ≠ SIZE_MOD - 1 := by unfold SIZE_MOD; omega
    have h2 : (encode_padded x).length - 2 ≠ SIZE_MOD - 2 := by unfold SIZE_MOD; omega
    rw [CString.charAt, if_neg h1, if_neg h2]
  have hloop := decode_loop_groups nullDiff ⟨prev2, prev1, encode_padded x⟩ x.length
    (by show (encode_padded x).length + 2 < SIZE_MOD; unfold SIZE_MOD; omega)
    (encode_padded x).length 0 (0, data) (by simpa using hL4) (by simp; omega)
  have hcore := decode_groups_padded nullDiff x [] data hbytes hbuf
  simp only [List.length_nil, Nat.zero_add, List.nil_append] at hcore
  simp only [List.drop_zero] at hloop
  rw [hcore] at hloop
  have hq : (encode_padded x).length * 3 % SIZE_MOD / 4 = (x.length + 2) / 3 * 3 := by
    unfold SIZE_MOD; omega
  have hdecr : ∀ n, 0 < n → n < SIZE_MOD → (n + SIZE_MOD - 1) % SIZE_MOD = n - 1 := by
    intro n h1 h2
    unfold SIZE_MOD at h2 ⊢
    omega
  have hdec : (if (encode_padded x).getD ((encode_padded x).length - 2) 0 = PAD then
        ((if (encode_padded x).getD ((encode_padded x).length - 1) 0 = PAD then
          ((encode_padded x).length * 3 % SIZE_MOD / 4 + SIZE_MOD - 1) % SIZE_MOD
          else (encode_padded x).length * 3 % SIZE_MOD / 4) + SIZE_MOD - 1) % SIZE_MOD
      else (if (encode_padded x).getD ((encode_padded x).length - 1) 0 = PAD then
          ((encode_padded x).length * 3 % SIZE_MOD / 4 + SIZE_MOD - 1) % SIZE_MOD
          else (encode_padded x).length * 3 % SIZE_MOD / 4)) = x.length := by
    rw [hq]
    split_ifs with h2 h1 h1
    · have := t2.mp h2
      rw [hdecr ((x.length + 2) / 3 * 3) (by omega) (by unfold SIZE_MOD; omega),
        hdecr _ (by omega) (by unfold SIZE_MOD; omega)]
      omega
    · have := t2.mp h2; have := t1.not.mp h1; omega
    · have := t1.mp h1; have := t2.not.mp h2
      rw [hdecr _ (by omega) (by unfold SIZE_MOD; omega)]
      omega
    · have := t1.not.mp h1; omega
  unfold base64_decode
  simp only [hL4, ne_eq, not_true_eq_false, if_false, hc1, hc2, hg1, hg2, hdec,
    Nat.not_lt.mpr hcap, hloop]

/-- The round trip on the seven bytes of `foobar!`, decoded into a ten-byte
buffer with capacity 10. -/
theorem base64_roundtrip_nonempty_example :
    base64_decode 0 ⟨0, 0, base64_encode (str "foobar!")⟩ (List.replicate 10 0) 10 =
      ⟨0, str "foobar!" ++ (List.replicate 10 0).drop (str "foobar!").length,
        (str "foobar!").length⟩ :=
  base64_roundtrip_nonempty 0 0 0 (str "foobar!") (List.replicate 10 0) 10 (by decide)
    (by decide) (by decide) (by decide) (by decide)

/-! ## Decoding: rejected and unchecked inputs -/

/-- C9: for every string whose length is not a multiple of 4, `base64_decode`
returns -1 and leaves the output buffer and `*length` as they were. -/
theorem base64_decode_bad_length (nullDiff : Nat) (encoded : CString) (data : List Nat)
    (length : Nat) (h : encoded.chars.length % 4 ≠ 0) :
    base64_decode nullDiff encoded data length = ⟨-1, data, length⟩ := by
  unfold base64_decode
  simp only [h, ne_eq, not_false_eq_true, if_true]

/-- Witness of C9: the five-character string `QUJDR`. -/
theorem base64_decode_bad_length_witness :
    base64_decode 0 ⟨0, 0, str "QUJDR"⟩ [7, 7, 7, 7] 4 = ⟨-1, [7, 7, 7, 7], 4⟩ :=
  base64_decode_bad_length 0 ⟨0, 0, str "QUJDR"⟩ [7, 7, 7, 7] 4 (by decide)

/-- C10 fails on the code: the four-character string `ab!d` holds `!`, which
is neither in the alphabet nor `=`, and `base64_decode` with capacity 3
returns 0 and reports length 3, whatever `strchr`'s null result turns into. -/
theorem base64_decode_invalid_char_accepted (nullDiff : Nat) (data : List Nat) :
    33 ∈ str "ab!d" ∧ 33 ∉ base64_chars ∧ 33 ≠ PAD ∧ (str "ab!d").length % 4 = 0 ∧
      (base64_decode nullDiff ⟨0, 0, str "ab!d"⟩ data 3).ret = 0 ∧
      (base64_decode nullDiff ⟨0, 0, str "ab!d"⟩ data 3).length = 3 := by
  refine ⟨by decide, by decide, by decide, by decide, ?_, ?_⟩ <;> rfl

/-- C1 fails on the code for the empty sequence: `base64_encode` of no bytes
is the empty string, and `base64_decode` of an empty string looks at the two
bytes before it; when the byte just before is `=` (the string sits after
`a=` in memory) the decoded length wraps to `SIZE_MAX` and the call returns
-1 for a capacity of 16. -/
theorem base64_roundtrip_empty_fails (nullDiff : Nat) :
    base64_encode [] = [] ∧
      base64_decode nullDiff ⟨97, 61, base64_encode []⟩ (List.replicate 16 0) 16 =
        ⟨-1, List.replicate 16 0, 16⟩ := by
  refine ⟨by decide, ?_⟩
  rfl


/-! ## Pairing: response length and key generation -/

/-- C13: for every challenge, key and response whose length is not 20,
`airplay_verify_pairing` returns -1, also when the first 20 bytes of a longer
response are the digest `sha1_hmac(key, challenge)`. -/
theorem airplay_verify_pairing_wrong_length (HMAC : List Nat → List Nat → List Nat)
    (challenge response key : List Nat) (h : response.length ≠ SHA_DIGEST_LENGTH) :
    airplay_verify_pairing HMAC (some challenge) (some response) (some key) = -1 := by
  simp [airplay_verify_pairing, sha1_hmac, h]

/-- Witness of C13: a 21-byte response whose first 20 bytes are the digest. -/
theorem airplay_verify_pairing_wrong_length_witness :
    (example_hmac [9, 9] [1, 2, 3] ++ [0]).take 20 = example_hmac [9, 9] [1, 2, 3] ∧
      airplay_verify_pairing example_hmac (some [1, 2, 3])
        (some (example_hmac [9, 9] [1, 2, 3] ++ [0])) (some [9, 9]) = -1 :=
  ⟨by decide,
    airplay_verify_pairing_wrong_length example_hmac [1, 2, 3]
      (example_hmac [9, 9] [1, 2, 3] ++ [0]) [9, 9] (by decide)⟩

/-- Sizes below 2^31 reach `RAND_bytes` as they are. -/
theorem int_of_size_t_small (n : Nat) (h : n < 2 ^ 31) : int_of_size_t n = (n : Int) := by
  unfold int_of_size_t UINT32_MOD
  have h1 : n % 2 ^ 32 = n := Nat.mod_eq_of_lt (by omega)
  rw [h1, if_pos h]

/-- Sizes that differ by a multiple of 2^32 reach `RAND_bytes` as the same
count. -/
theorem int_of_size_t_wraps (n k : Nat) : int_of_size_t (n + k * 2 ^ 32) = int_of_size_t n := by
  unfold int_of_size_t UINT32_MOD
  rw [Nat.add_mul_mod_self_right]

/-- C14 fails on the code for sizes that do not fit the `int` count of
`RAND_bytes`. The size 2^32 + 16 reaches `RAND_bytes` as 16, so for every
source the call does what a request for 16 bytes does: with the working
source it returns 0 having filled the first 16 bytes of the key only. The
size 2^31 reaches `RAND_bytes` as -2^31, and with the working source, which
refuses a negative count, the call returns -1 with the key as it was. -/
theorem pairing_key_size_truncated (RAND_bytes : Int → RandOutcome) (key : List Nat) :
    int_of_size_t (2 ^ 32 + 16) = 16 ∧
      airplay_generate_pairing_key RAND_bytes (some key) (2 ^ 32 + 16) =
        airplay_generate_pairing_key RAND_bytes (some key) 16 ∧
      airplay_generate_pairing_key example_rand (some key) (2 ^ 32 + 16) =
        (0, some ([1, 2, 3, 4, 5, 6, 7, 8, 9, 10, 11, 12, 13, 14, 15, 16] ++ key.drop 16)) ∧
      int_of_size_t (2 ^ 31) = -(2 ^ 31) ∧
      (example_rand (-(2 ^ 31))).ret = 0 ∧
      airplay_generate_pairing_key example_rand (some key) (2 ^ 31) = (-1, some key) := by
  have h16 : int_of_size_t (2 ^ 32 + 16) = 16 := by decide
  have h31 : int_of_size_t (2 ^ 31) = -(2 ^ 31) := by decide
  have hr16 : example_rand 16 = ⟨1, [1, 2, 3, 4, 5, 6, 7, 8, 9, 10, 11, 12, 13, 14, 15, 16]⟩ := by
    decide
  have hr31 : example_rand (-(2 ^ 31)) = ⟨0, []⟩ := by decide
  have step : ∀ (R : Int → RandOutcome) (n : Nat), 16 ≤ n →
      airplay_generate_pairing_key R (some key) n =
        if (R (int_of_size_t n)).ret ≠ 1 then
          (-1, some (write_bytes key (R (int_of_size_t n)).bytes))
        else (0, some (write_bytes key (R (int_of_size_t n)).bytes)) := by
    intro R n h
    have h1 : ¬ n < 16 := by omega
    have h2 : ¬ n = 0 := by omega
    simp only [airplay_generate_pairing_key, generate_random_bytes, h1, h2, if_false]
  refine ⟨h16, ?_, ?_, h31, by rw [hr31], ?_⟩
  · rw [step _ _ (by decide), step _ _ (by decide), h16]
    rfl
  · rw [step _ _ (by decide), h16, hr16]
    rfl
  · rw [step _ _ (by decide), h31, hr31]
    rfl

/-- Supporting C14: `airplay_generate_pairing_key` returns -1 and leaves the
key buffer as it was for every size below 16; for every size from 16 up to
2^31 - 1, when `RAND_bytes` succeeds and delivers the requested number of
bytes, it returns 0 and the key buffer holds exactly those bytes in its first
`key_size` positions, the rest unchanged. -/
theorem pairing_key_below_int_max (RAND_bytes : Int → RandOutcome) (key : List Nat)
    (key_size : Nat) :
    (key_size < 16 →
        airplay_generate_pairing_key RAND_bytes (some key) key_size = (-1, some key)) ∧
      (16 ≤ key_size → key_size < 2 ^ 31 → (RAND_bytes key_size).ret = 1 →
        (RAND_bytes key_size).bytes.length = key_size →
        airplay_generate_pairing_key RAND_bytes (some key) key_size =
          (0, some ((RAND_bytes key_size).bytes ++ key.drop key_size))) := by
  constructor
  · intro h
    simp [airplay_generate_pairing_key, h]
  · intro h hmax hret hlen
    have h1 : ¬ key_size < 16 := by omega
    have h2 : key_size ≠ 0 := by omega
    simp [airplay_generate_pairing_key, generate_random_bytes, write_bytes, h1, h2,
      int_of_size_t_small key_size hmax, hret, hlen]

/-- The supporting statement at work: size 15 is refused, and size 16 with the
working source fills the first 16 positions of a 20-byte buffer. -/
theorem pairing_key_below_int_max_example :
    airplay_generate_pairing_key example_rand (some (List.replicate 20 0)) 15 =
        (-1, some (List.replicate 20 0)) ∧
      airplay_generate_pairing_key example_rand (some (List.replicate 20 0)) 16 =
        (0, some ([1, 2, 3, 4, 5, 6, 7, 8, 9, 10, 11, 12, 13, 14, 15, 16] ++ [0, 0, 0, 0])) :=
  ⟨(pairing_key_below_int_max example_rand (List.replicate 20 0) 15).1 (by decide),
    (pairing_key_below_int_max example_rand (List.replicate 20 0) 16).2 (by decide) (by decide)
      (by decide) (by decide)⟩

/-! ## Stopping the server and its configuration -/

/-- The stop loop leaves no slot connected. -/
theorem stop_clients_none_connected (cs : List Client) :
    (stop_clients cs).1.any (fun c => c.connected) = false := by
  induction cs with
  | nil => rfl
  | cons c cs ih =>
    by_cases hc : c.connected = true
    · rw [stop_clients, if_pos hc, List.any_cons, ih]
      rfl
    · rw [stop_clients, if_neg hc, List.any_cons, ih]
      simpa using hc

/-- The stop loop does nothing on slots none of which is connected. -/
theorem stop_clients_idle (cs : List Client) (h : cs.any (fun c => c.connected) = false) :
    stop_clients cs = (cs, []) := by
  induction cs with
  | nil => rfl
  | cons c cs ih =>
    simp only [List.any_cons, Bool.or_eq_false_iff] at h
    simp [stop_clients, h.1, ih h.2]

/-- The stop loop closes the descriptor of every connected slot. -/
theorem stop_clients_closes (cs : List Client) (c : Client) (hc : c ∈ cs)
    (hconn : c.connected = true) : Effect.close c.fd ∈ (stop_clients cs).2 := by
  induction cs with
  | nil => simp at hc
  | cons d cs ih =>
    rcases List.mem_cons.mp hc with h | h
    · subst h
      simp [stop_clients, hconn]
    · by_cases hd : d.connected = true
      · simp [stop_clients, hd, ih h]
      · simp [stop_clients, hd, ih h]

/-- C18: `airplay_server_stop` is idempotent: for every server state both
calls return 0, the second call leaves the state the first call produced, and
the second call makes no call at all (it closes no descriptor and frees no
Avahi object). -/
theorem airplay_server_stop_idempotent (s : airplay_server) :
    (airplay_server_stop s).ret = 0 ∧
      airplay_server_stop (airplay_server_stop s).server =
        ⟨0, (airplay_server_stop s).server, []⟩ := by
  refine ⟨rfl, ?_⟩
  have h1 := stop_clients_idle _ (stop_clients_none_connected s.clients)
  by_cases hs : 0 ≤ s.socket_fd
  · simp [airplay_server_stop, hs, h1]
  · simp [airplay_server_stop, hs, h1]


/-- C19: for every server state whose descriptor field is a descriptor or -1,
after `airplay_server_stop` has returned the server is not running, no slot
is connected, the descriptor of every slot that was connected and the
listening descriptor have been closed, the descriptor field is -1, the entry
group and the Avahi client have been freed and cleared, and a following
`airplay_server_process` returns -1 and leaves the server as it is, making no
call. -/
theorem airplay_server_stop_post (s : airplay_server) (os : ProcessInput)
    (hfd : -1 ≤ s.socket_fd) :
    (airplay_server_stop s).ret = 0 ∧
      (airplay_server_stop s).server.running = false ∧
      airplay_server_is_connected (airplay_server_stop s).server = false ∧
      (∀ c ∈ s.clients, c.connected = true →
        Effect.close c.fd ∈ (airplay_server_stop s).effects) ∧
      (0 ≤ s.socket_fd → Effect.close s.socket_fd ∈ (airplay_server_stop s).effects) ∧
      (airplay_server_stop s).server.socket_fd = -1 ∧
      (∀ g, s.entry_group = some g →
        Effect.entry_group_free g ∈ (airplay_server_stop s).effects) ∧
      (∀ a, s.avahi_client = some a →
        Effect.client_free a ∈ (airplay_server_stop s).effects) ∧
      (airplay_server_stop s).server.entry_group = none ∧
      (airplay_server_stop s).server.avahi_client = none ∧
      airplay_server_process (airplay_server_stop s).server os =
        ⟨-1, (airplay_server_stop s).server, []⟩ := by
  refine ⟨rfl, rfl, stop_clients_none_connected s.clients, ?_, ?_, ?_, ?_, ?_, rfl, rfl, ?_⟩
  · intro c hc hconn
    have := stop_clients_closes s.clients c hc hconn
    simp [airplay_server_stop, this]
  · intro h
    simp [airplay_server_stop, h]
  · by_cases h : 0 ≤ s.socket_fd
    · simp [airplay_server_stop, h]
    · have : s.socket_fd = -1 := by omega
      simp [airplay_server_stop, this]
  · intro g hg
    simp [airplay_server_stop, hg]
  · intro a ha
    simp [airplay_server_stop, ha]
  · simp [airplay_server_process, airplay_server_stop]

/-- Witness of C19: stopping the server with four sessions. -/
theorem airplay_server_stop_post_witness :
    (airplay_server_stop example_full).effects =
        [Effect.close 5, Effect.close 6, Effect.close 7, Effect.close 8, Effect.close 3,
          Effect.client_free 1] ∧
      (airplay_server_stop example_full).server.socket_fd = -1 ∧
      airplay_server_process (airplay_server_stop example_full).server example_accept =
        ⟨-1, (airplay_server_stop example_full).server, []⟩ :=
  ⟨by decide, (airplay_server_stop_post example_full example_accept (by decide)).2.2.2.2.2.1,
    (airplay_server_stop_post example_full example_accept (by decide)).2.2.2.2.2.2.2.2.2.2⟩

/-- C20: `airplay_server_get_config` after `airplay_server_set_config(s, c)`
returns 0 and a configuration equal to `c` in all six fields; `set_config`
returns 0 and changes nothing of the server but its configuration; with a
null server or a null configuration argument both functions return -1 and
change nothing. -/
theorem config_set_get (s : airplay_server) (c out : airplay_config_t) :
    airplay_server_set_config (some s) (some c) = (0, some { s with config := c }) ∧
      airplay_server_get_config (airplay_server_set_config (some s) (some c)).2 (some out) =
        (0, some c) ∧
      (∀ got, (airplay_server_get_config (airplay_server_set_config (some s) (some c)).2
          (some out)).2 = some got →
        got.device_name = c.device_name ∧ got.model_name = c.model_name ∧
          got.device_id = c.device_id ∧ got.port = c.port ∧
          got.enable_multiroom = c.enable_multiroom ∧
          got.multiroom_group = c.multiroom_group) ∧
      airplay_server_set_config none (some c) = (-1, none) ∧
      airplay_server_set_config (some s) none = (-1, some s) ∧
      airplay_server_get_config none (some out) = (-1, some out) ∧
      airplay_server_get_config (some s) none = (-1, none) := by
  refine ⟨rfl, rfl, ?_, rfl, rfl, rfl, rfl⟩
  intro got h
  have : got = c := by
    simpa [airplay_server_set_config, airplay_server_get_config] using h.symm
  subst this
  exact ⟨rfl, rfl, rfl, rfl, rfl, rfl⟩


/-! ## Classification of requests -/

/-- A received buffer that starts with `OPTIONS` goes to the HTTP handler. -/
theorem handle_client_request_options (server : airplay_server) (fd : Int) (rest : List Nat) :
    handle_client_request server fd (some (str "OPTIONS" ++ rest)) =
      ⟨0, server, [Effect.send fd http_response]⟩ := by
  simp [handle_client_request, handle_http_request, str_OPTIONS, strncmp]
  omega

/-- A received buffer that starts with `GET` goes to the HTTP handler. -/
theorem handle_client_request_get (server : airplay_server) (fd : Int) (rest : List Nat) :
    handle_client_request server fd (some (str "GET" ++ rest)) =
      ⟨0, server, [Effect.send fd http_response]⟩ := by
  simp [handle_client_request, handle_http_request, str_OPTIONS, str_POST, str_GET, strncmp]
  omega

/-- A received buffer that starts with `POST` goes to the HTTP handler. -/
theorem handle_client_request_post (server : airplay_server) (fd : Int) (rest : List Nat) :
    handle_client_request server fd (some (str "POST" ++ rest)) =
      ⟨0, server, [Effect.send fd http_response]⟩ := by
  simp [handle_client_request, handle_http_request, str_OPTIONS, str_POST, strncmp]
  omega

/-- A received buffer that starts with `ANNOUNCE` is answered by the first
branch of the RTSP handler. -/
theorem handle_client_request_announce (server : airplay_server) (fd : Int)
    (rest : List Nat) :
    handle_client_request server fd (some (str "ANNOUNCE" ++ rest)) =
      ⟨0, server, [Effect.send fd
        (str "RTSP/1.0 200 OK\r\nCSeq: 1\r\nServer: AirPlay/220.68\r\n\r\n")]⟩ := by
  simp [handle_client_request, handle_rtsp_request, rtsp_response, str_ANNOUNCE, str_OPTIONS,
    str_POST, str_GET, strncmp]
  omega

/-- A received buffer that starts with `PAUSE` is answered by the last branch
of the RTSP handler. -/
theorem handle_client_request_pause (server : airplay_server) (fd : Int) (rest : List Nat) :
    handle_client_request server fd (some (str "PAUSE" ++ rest)) =
      ⟨0, server, [Effect.send fd
        (str "RTSP/1.0 200 OK\r\nCSeq: 1\r\nServer: AirPlay/220.68\r\n\r\n")]⟩ := by
  simp [handle_client_request, handle_rtsp_request, rtsp_response, str_ANNOUNCE, str_OPTIONS,
    str_POST, str_GET, str_SETUP, str_RECORD, str_PAUSE, strncmp]
  omega

/-- A received buffer that starts with `FLUSH` is answered by the last branch
of the RTSP handler. -/
theorem handle_client_request_flush (server : airplay_server) (fd : Int) (rest : List Nat) :
    handle_client_request server fd (some (str "FLUSH" ++ rest)) =
      ⟨0, server, [Effect.send fd
        (str "RTSP/1.0 200 OK\r\nCSeq: 1\r\nServer: AirPlay/220.68\r\n\r\n")]⟩ := by
  simp [handle_client_request, handle_rtsp_request, rtsp_response, str_ANNOUNCE, str_OPTIONS,
    str_POST, str_GET, str_SETUP, str_RECORD, str_PAUSE, str_FLUSH, strncmp]
  omega

/-- C16: every request that starts with `OPTIONS`, `GET` or `POST` is
answered with exactly the bytes `HTTP/1.1 200 OK`, `Content-Type:
text/x-apple-plist+xml`, `Content-Length: 0` and an empty line, whatever
follows the method; the handler returns 0 and leaves the server structure,
hence every session slot, unchanged. -/
theorem discovery_fixed_response (server : airplay_server) (fd : Int) (rest : List Nat) :
    handle_client_request server fd (some (str "OPTIONS" ++ rest)) =
        ⟨0, server, [Effect.send fd (str ("HTTP/1.1 200 OK\r\n" ++
          "Content-Type: text/x-apple-plist+xml\r\nContent-Length: 0\r\n\r\n"))]⟩ ∧
      handle_client_request server fd (some (str "GET" ++ rest)) =
        ⟨0, server, [Effect.send fd (str ("HTTP/1.1 200 OK\r\n" ++
          "Content-Type: text/x-apple-plist+xml\r\nContent-Length: 0\r\n\r\n"))]⟩ ∧
      handle_client_request server fd (some (str "POST" ++ rest)) =
        ⟨0, server, [Effect.send fd (str ("HTTP/1.1 200 OK\r\n" ++
          "Content-Type: text/x-apple-plist+xml\r\nContent-Length: 0\r\n\r\n"))]⟩ ∧
      status_code (str ("HTTP/1.1 200 OK\r\n" ++
          "Content-Type: text/x-apple-plist+xml\r\nContent-Length: 0\r\n\r\n")) = str "200" := by
  have h : str ("HTTP/1.1 200 OK\r\n" ++
      "Content-Type: text/x-apple-plist+xml\r\nContent-Length: 0\r\n\r\n") = http_response := by
    decide
  rw [h]
  exact ⟨handle_client_request_options server fd rest, handle_client_request_get server fd rest,
    handle_client_request_post server fd rest, by decide⟩

/-- C17: for every request that starts with one of the six streaming methods,
the response sent has the first line `RTSP/1.0 200 OK` and ends with an empty
line, and it has a `Transport` header if and only if the method is `SETUP`. -/
theorem streaming_response_shape (server : airplay_server) (fd : Int) (rest : List Nat)
    (m : String) (hm : m ∈ streaming_methods) :
    ∃ response,
      handle_client_request server fd (some (str m ++ rest)) =
          ⟨0, server, [Effect.send fd response]⟩ ∧
        (message_lines response).headD [] = str "RTSP/1.0 200 OK" ∧
        response.reverse.take 4 = (str "\r\n\r\n").reverse ∧
        ((header_value "Transport" response).isSome = true ↔ m = "SETUP") := by
  simp only [streaming_methods, List.mem_cons, List.mem_singleton, List.not_mem_nil,
    or_false] at hm
  rcases hm with h | h | h | h | h | h <;> subst h
  · exact ⟨_, handle_client_request_announce server fd rest, by decide, by decide, by decide⟩
  · exact ⟨_, by rw [handle_client_request_setup, rtsp_response_setup], by decide, by decide,
      by decide⟩
  · exact ⟨_, by rw [handle_client_request_record, rtsp_response_record], by decide, by decide,
      by decide⟩
  · exact ⟨_, handle_client_request_pause server fd rest, by decide, by decide, by decide⟩
  · exact ⟨_, handle_client_request_flush server fd rest, by decide, by decide, by decide⟩
  · exact ⟨_, by rw [handle_client_request_teardown, rtsp_response_teardown], by decide,
      by decide, by decide⟩

/-- Witness of C17 for a `SETUP` request. -/
theorem streaming_response_shape_witness :
    ∃ response,
      handle_client_request example_one_session 5
          (some (str "SETUP" ++ str " rtsp://10.0.0.1/1 RTSP/1.0\r\nCSeq: 2\r\n\r\n")) =
          ⟨0, example_one_session, [Effect.send 5 response]⟩ ∧
        (message_lines response).headD [] = str "RTSP/1.0 200 OK" ∧
        response.reverse.take 4 = (str "\r\n\r\n").reverse ∧
        ((header_value "Transport" response).isSome = true ↔ "SETUP" = "SETUP") :=
  streaming_response_shape example_one_session 5
    (str " rtsp://10.0.0.1/1 RTSP/1.0\r\nCSeq: 2\r\n\r\n") "SETUP" (by decide)


/-- For a literal without NUL, `strncmp(s, lit, strlen(lit)) == 0` exactly
when `s` starts with `lit`. -/
theorem strncmp_eq_zero_iff (lit : List Nat) (h0 : ∀ c ∈ lit, c ≠ 0) (s : List Nat) :
    strncmp s lit lit.length = 0 ↔ lit <+: s := by
  induction lit generalizing s with
  | nil => simp [strncmp]
  | cons c l ih =>
    have hc : c ≠ 0 := h0 c (List.mem_cons_self _ _)
    have hl : ∀ d ∈ l, d ≠ 0 := fun d hd => h0 d (List.mem_cons_of_mem _ hd)
    cases s with
    | nil =>
      have hc' : ¬ (0 = c) := fun h => hc h.symm
      simp only [List.length_cons, strncmp, List.headD_nil, List.headD_cons, ne_eq, hc',
        not_false_eq_true, if_true]
      constructor
      · intro h; exfalso; omega
      · intro h; simp at h
    | cons a t =>
      by_cases hac : a = c
      · subst hac
        simp only [List.length_cons, strncmp, List.headD_cons, ne_eq, not_true_eq_false,
          if_false, hc, List.tail_cons]
        rw [ih hl t]
        constructor
        · intro h; exact (List.cons_prefix_cons.mpr ⟨rfl, h⟩)
        · intro h; exact (List.cons_prefix_cons.mp h).2
      · simp only [List.length_cons, strncmp, List.headD_cons, ne_eq, hac, not_false_eq_true,
          if_true]
        constructor
        · intro h; exfalso; omega
        · intro h; exact absurd (List.cons_prefix_cons.mp h).1.symm hac

/-- No method name holds a NUL. -/
theorem method_names_no_nul : ∀ m ∈ method_names, ∀ c ∈ str m, c ≠ 0 := by
  decide

/-- C15 fails: the buffer `OPTIONSX * HTTP/1.1` has the leading token
`OPTIONSX`, which is none of the nine method names, and
`handle_client_request` answers it with the discovery response. -/
theorem unknown_token_counterexample :
    leading_token (str "OPTIONSX * HTTP/1.1\r\n\r\n") = str "OPTIONSX" ∧
      str "OPTIONSX" ∉ method_names.map str ∧
      handle_client_request example_one_session 5 (some (str "OPTIONSX * HTTP/1.1\r\n\r\n")) =
        ⟨0, example_one_session, [Effect.send 5 http_response]⟩ := by
  decide

/-- C15 as amended: for every non-empty received buffer that does not start
with any of the nine method names, `handle_client_request` sends nothing,
leaves the server unchanged and returns 0. -/
theorem unknown_prefix_ignored (server : airplay_server) (fd : Int) (buffer : List Nat)
    (hne : buffer ≠ []) (h : ∀ m ∈ method_names, ¬ (str m <+: buffer)) :
    handle_client_request server fd (some buffer) = ⟨0, server, []⟩ := by
  have hz : ∀ m ∈ method_names, ¬ (strncmp buffer (str m) (str m).length = 0) := by
    intro m hm hcmp
    exact h m hm ((strncmp_eq_zero_iff (str m) (method_names_no_nul m hm) buffer).mp hcmp)
  have h1 := hz "OPTIONS" (by decide)
  have h2 := hz "POST" (by decide)
  have h3 := hz "GET" (by decide)
  have h4 := hz "ANNOUNCE" (by decide)
  have h5 := hz "SETUP" (by decide)
  have h6 := hz "RECORD" (by decide)
  have h7 := hz "PAUSE" (by decide)
  have h8 := hz "FLUSH" (by decide)
  have h9 := hz "TEARDOWN" (by decide)
  have l1 : (str "OPTIONS").length = 7 := by decide
  have l2 : (str "POST").length = 4 := by decide
  have l3 : (str "GET").length = 3 := by decide
  have l4 : (str "ANNOUNCE").length = 8 := by decide
  have l5 : (str "SETUP").length = 5 := by decide
  have l6 : (str "RECORD").length = 6 := by decide
  have l7 : (str "PAUSE").length = 5 := by decide
  have l8 : (str "FLUSH").length = 5 := by decide
  have l9 : (str "TEARDOWN").length = 8 := by decide
  rw [l1] at h1; rw [l2] at h2; rw [l3] at h3; rw [l4] at h4; rw [l5] at h5
  rw [l6] at h6; rw [l7] at h7; rw [l8] at h8; rw [l9] at h9
  have hpos : ¬ ((buffer.length : Int) ≤ 0) := by
    have : 0 < buffer.length := List.length_pos.mpr hne
    omega
  unfold handle_client_request
  simp only [hpos, if_false, Option.getD_some, h1, h2, h3, h4, h5, h6, h7, h8, h9, or_self]

/-- Witness of the amended C15: a `DESCRIBE` request. -/
theorem unknown_prefix_ignored_witness :
    handle_client_request example_one_session 5
        (some (str "DESCRIBE rtsp://10.0.0.1/1 RTSP/1.0\r\nCSeq: 1\r\n\r\n")) =
      ⟨0, example_one_session, []⟩ :=
  unknown_prefix_ignored example_one_session 5
    (str "DESCRIBE rtsp://10.0.0.1/1 RTSP/1.0\r\nCSeq: 1\r\n\r\n") (by decide) (by decide)


/-! ## The encoder against RFC 4648 -/

set_option maxRecDepth 100000 in
/-- The first 64 entries of the table are the RFC 4648 alphabet. -/
theorem base64_chars_alphabet :
    ∀ k, k < 64 → base64_chars.getD k 0 = rfc4648_alphabet k := by
  decide

/-- No character of the alphabet is `=`. -/
theorem rfc4648_alphabet_ne_pad (k : Nat) : rfc4648_alphabet k ≠ PAD := by
  unfold rfc4648_alphabet PAD
  split_ifs <;> omega

/-- The table character of a masked value, as an alphabet character. -/
theorem table_char_eq (v s : Nat) (h : v % 64 = s) :
    base64_chars.getD (v &&& 0x3F) 0 = rfc4648_alphabet s := by
  rw [base64_chars_alphabet _ (sextet_lt v), and_63, h]

/-- The characters of a full group are the alphabet characters of the four
6-bit groups of its 24 bits. -/
theorem encode_quad_full (a b c : Nat) (ha : a < 256) (hb : b < 256) (hc : c < 256) :
    encode_quad ((a <<< 16) + (b <<< 8) + c) =
      (sextets (byte_bits a ++ byte_bits b ++ byte_bits c)).map rfc4648_alphabet := by
  have k0 := table_char_eq (((a <<< 16) + (b <<< 8) + c) >>> 18)
    (a / 128 % 2 * 32 + a / 64 % 2 * 16 + a / 32 % 2 * 8 + a / 16 % 2 * 4 + a / 8 % 2 * 2 +
      a / 4 % 2) (by simp only [Nat.shiftLeft_eq, Nat.shiftRight_eq_div_pow]; omega)
  have k1 := table_char_eq (((a <<< 16) + (b <<< 8) + c) >>> 12)
    (a / 2 % 2 * 32 + a % 2 * 16 + b / 128 % 2 * 8 + b / 64 % 2 * 4 + b / 32 % 2 * 2 +
      b / 16 % 2) (by simp only [Nat.shiftLeft_eq, Nat.shiftRight_eq_div_pow]; omega)
  have k2 := table_char_eq (((a <<< 16) + (b <<< 8) + c) >>> 6)
    (b / 8 % 2 * 32 + b / 4 % 2 * 16 + b / 2 % 2 * 8 + b % 2 * 4 + c / 128 % 2 * 2 +
      c / 64 % 2) (by simp only [Nat.shiftLeft_eq, Nat.shiftRight_eq_div_pow]; omega)
  have k3 := table_char_eq ((a <<< 16) + (b <<< 8) + c)
    (c / 32 % 2 * 32 + c / 16 % 2 * 16 + c / 8 % 2 * 8 + c / 4 % 2 * 4 + c / 2 % 2 * 2 +
      c % 2) (by simp only [Nat.shiftLeft_eq]; omega)
  unfold encode_quad
  rw [k0, k1, k2, k3]
  rfl

/-- The first three characters of a two-byte group are the alphabet
characters of the three 6-bit groups of its 16 bits. -/
theorem encode_quad_two (a b : Nat) (ha : a < 256) (hb : b < 256) :
    (encode_quad ((a <<< 16) + (b <<< 8) + 0)).take 3 =
      (sextets (byte_bits a ++ byte_bits b)).map rfc4648_alphabet := by
  have k0 := table_char_eq (((a <<< 16) + (b <<< 8) + 0) >>> 18)
    (a / 128 % 2 * 32 + a / 64 % 2 * 16 + a / 32 % 2 * 8 + a / 16 % 2 * 4 + a / 8 % 2 * 2 +
      a / 4 % 2) (by simp only [Nat.shiftLeft_eq, Nat.shiftRight_eq_div_pow]; omega)
  have k1 := table_char_eq (((a <<< 16) + (b <<< 8) + 0) >>> 12)
    (a / 2 % 2 * 32 + a % 2 * 16 + b / 128 % 2 * 8 + b / 64 % 2 * 4 + b / 32 % 2 * 2 +
      b / 16 % 2) (by simp only [Nat.shiftLeft_eq, Nat.shiftRight_eq_div_pow]; omega)
  have k2 := table_char_eq (((a <<< 16) + (b <<< 8) + 0) >>> 6)
    (b / 8 % 2 * 32 + b / 4 % 2 * 16 + b / 2 % 2 * 8 + b % 2 * 4)
    (by simp only [Nat.shiftLeft_eq, Nat.shiftRight_eq_div_pow]; omega)
  unfold encode_quad
  rw [k0, k1, k2]
  rfl

/-- The first two characters of a one-byte group are the alphabet characters
of the two 6-bit groups of its 8 bits. -/
theorem encode_quad_one (a : Nat) (ha : a < 256) :
    (encode_quad ((a <<< 16) + (0 <<< 8) + 0)).take 2 =
      (sextets (byte_bits a)).map rfc4648_alphabet := by
  have k0 := table_char_eq (((a <<< 16) + (0 <<< 8) + 0) >>> 18)
    (a / 128 % 2 * 32 + a / 64 % 2 * 16 + a / 32 % 2 * 8 + a / 16 % 2 * 4 + a / 8 % 2 * 2 +
      a / 4 % 2) (by simp only [Nat.shiftLeft_eq, Nat.shiftRight_eq_div_pow]; omega)
  have k1 := table_char_eq (((a <<< 16) + (0 <<< 8) + 0) >>> 12)
    (a / 2 % 2 * 32 + a % 2 * 16)
    (by simp only [Nat.shiftLeft_eq, Nat.shiftRight_eq_div_pow]; omega)
  unfold encode_quad
  rw [k0, k1]
  rfl

/-- The 6-bit groups of three bytes followed by more bits are the four groups
of the three bytes, then the groups of the rest. -/
theorem sextets_three_bytes (a b c : Nat) (bits : List Nat) :
    sextets (byte_bits a ++ (byte_bits b ++ (byte_bits c ++ bits))) =
      sextets (byte_bits a ++ byte_bits b ++ byte_bits c) ++ sextets bits := by
  simp [byte_bits, sextets]

/-- The padded encoding by groups is the standard encoding. -/
theorem encode_padded_eq_rfc4648 (x : List Nat) (hbytes : ∀ b ∈ x, b < 256) :
    encode_padded x = rfc4648_encode x := by
  induction x using list_induction3 with
  | h0 => simp [encode_padded, rfc4648_encode, bit_string, sextets]
  | h1 a =>
    have ha : a < 256 := hbytes a (by simp)
    rw [encode_padded, encode_quad_one a ha]
    simp [rfc4648_encode, bit_string]
  | h2 a b =>
    have ha : a < 256 := hbytes a (by simp)
    have hb : b < 256 := hbytes b (by simp)
    rw [encode_padded, encode_quad_two a b ha hb]
    simp [rfc4648_encode, bit_string]
  | h3 a b c rest ih =>
    have ha : a < 256 := hbytes a (by simp)
    have hb : b < 256 := hbytes b (by simp)
    have hc : c < 256 := hbytes c (by simp)
    have e3 : (a :: b :: c :: rest).length % 3 = rest.length % 3 := by
      simp only [List.length_cons]; omega
    rw [encode_padded, encode_quad_full a b c ha hb hc,
      ih (fun x hx => hbytes x (by simp [hx]))]
    simp only [rfc4648_encode, bit_string, e3, sextets_three_bytes, List.map_append,
      List.append_assoc]


/-- A string made of characters other than `=` followed by `k` characters
`=` ends with exactly `k` of them and holds no other. -/
theorem pads_after_body (body : List Nat) (k : Nat) (h : PAD ∉ body) :
    trailing_pads (body ++ List.replicate k PAD) = k ∧
      (body ++ List.replicate k PAD).count PAD = k := by
  constructor
  · unfold trailing_pads
    rw [List.reverse_append, List.reverse_replicate]
    have hb : body.reverse.takeWhile (fun c => c == PAD) = [] := by
      cases hr : body.reverse with
      | nil => rfl
      | cons c l =>
        have hc : c ∈ body := by
          have : c ∈ body.reverse := by rw [hr]; exact List.mem_cons_self _ _
          exact List.mem_reverse.mp this
        have : c ≠ PAD := fun e => h (e ▸ hc)
        have hf : (c == PAD) = false := by simpa using this
        rw [List.takeWhile_cons, hf]
        rfl
    induction k with
    | zero => simp [hb]
    | succ k ih =>
      rw [List.replicate_succ, List.cons_append, List.takeWhile_cons]
      simp only [beq_self_eq_true, if_true, List.length_cons, ih]
  · rw [List.count_append, List.count_eq_zero.mpr h, List.count_replicate_self]
    omega

/-- C12: for every byte sequence `x` of length `n`, `base64_encode` gives the
standard encoding of RFC 4648: every 6-bit group of the bits of `x`, most
significant first and zero-filled at the end, mapped through the alphabet
`A`-`Z`, `a`-`z`, `0`-`9`, `+`, `/`, then `(3 - n mod 3) mod 3` characters
`=`; the string has `4 * ceil(n / 3)` characters, ends with exactly that many
`=` and holds no `=` elsewhere. -/
theorem base64_encode_rfc4648 (x : List Nat) (hbytes : ∀ b ∈ x, b < 256) :
    base64_encode x = rfc4648_encode x ∧
      (base64_encode x).length = 4 * ((x.length + 2) / 3) ∧
      trailing_pads (base64_encode x) = (3 - x.length % 3) % 3 ∧
      (base64_encode x).count PAD = (3 - x.length % 3) % 3 := by
  have he : base64_encode x = rfc4648_encode x := by
    rw [base64_encode_eq_padded, encode_padded_eq_rfc4648 x hbytes]
  have hl : (base64_encode x).length = 4 * ((x.length + 2) / 3) := by
    rw [base64_encode_eq_padded, encode_padded_length]
    omega
  have hbody : PAD ∉ (sextets (bit_string x)).map rfc4648_alphabet := by
    intro hmem
    obtain ⟨k, _, hk⟩ := List.mem_map.mp hmem
    exact rfc4648_alphabet_ne_pad k hk
  have hp := pads_after_body _ ((3 - x.length % 3) % 3) hbody
  refine ⟨he, hl, ?_, ?_⟩
  · rw [he]; exact hp.1
  · rw [he]; exact hp.2

/-- Witness of C12: the seven bytes of `foobar!` encode to `Zm9vYmFyIQ==`. -/
theorem base64_encode_rfc4648_witness :
    base64_encode (str "foobar!") = rfc4648_encode (str "foobar!") ∧
      (base64_encode (str "foobar!")).length = 4 * (((str "foobar!").length + 2) / 3) ∧
      trailing_pads (base64_encode (str "foobar!")) = (3 - (str "foobar!").length % 3) % 3 ∧
      (base64_encode (str "foobar!")).count PAD = (3 - (str "foobar!").length % 3) % 3 :=
  base64_encode_rfc4648 (str "foobar!") (by decide)

/-- The standard encoding of `foobar!` spelled out. -/
theorem rfc4648_encode_example : rfc4648_encode (str "foobar!") = str "Zm9vYmFyIQ==" := by
  decide


/-! ## The decoder's reported length and stores -/

/-- Induction on a list by steps of four elements. -/
theorem list_induction4 {P : List Nat → Prop} (h0 : P []) (h1 : ∀ a, P [a])
    (h2 : ∀ a b, P [a, b]) (h3 : ∀ a b c, P [a, b, c])
    (h4 : ∀ a b c d rest, P rest → P (a :: b :: c :: d :: rest)) :
    ∀ l, P l
  | [] => h0
  | [a] => h1 a
  | [a, b] => h2 a b
  | [a, b, c] => h3 a b c
  | a :: b :: c :: d :: rest => h4 a b c d rest (list_induction4 h0 h1 h2 h3 h4 rest)

/-- Three guarded stores after `xs` store as many of the three values as the
decoded length still allows, and leave the rest of the buffer. -/
theorem store_if_three (dL v1 v2 v3 : Nat) (xs tail : List Nat)
    (h : dL - xs.length ≤ tail.length) :
    store_if dL (store_if dL (store_if dL (xs.length, xs ++ tail) v1) v2) v3 =
      ((xs ++ [v1, v2, v3].take (dL - xs.length)).length,
        (xs ++ [v1, v2, v3].take (dL - xs.length)) ++
          tail.drop ([v1, v2, v3].take (dL - xs.length)).length) := by
  rcases (by omega : dL ≤ xs.length ∨ dL = xs.length + 1 ∨ dL = xs.length + 2 ∨
      xs.length + 3 ≤ dL) with h0 | h1 | h2 | h3
  · rw [store_if_full _ _ _ _ h0, store_if_full _ _ _ _ h0, store_if_full _ _ _ _ h0]
    have : dL - xs.length = 0 := by omega
    simp [this]
  · have hk : dL - xs.length = 1 := by omega
    rw [hk] at h ⊢
    match tail, h with
    | t :: ts, _ =>
      rw [store_if_append _ _ _ _ _ (by omega), store_if_full _ _ _ _ (by simp; omega),
        store_if_full _ _ _ _ (by simp; omega)]
      simp
  · have hk : dL - xs.length = 2 := by omega
    rw [hk] at h ⊢
    match tail, h with
    | t1 :: t2 :: ts, _ =>
      rw [store_if_append _ _ _ _ _ (by omega), store_if_append _ _ _ _ _ (by simp; omega),
        store_if_full _ _ _ _ (by simp; omega)]
      simp
  · have hk : [v1, v2, v3].take (dL - xs.length) = [v1, v2, v3] := by
      apply List.take_of_length_le
      simp; omega
    rw [hk]
    match tail, (by omega : 3 ≤ tail.length) with
    | t1 :: t2 :: t3 :: ts, _ =>
      rw [store_if_append _ _ _ _ _ (by omega), store_if_append _ _ _ _ _ (by simp; omega),
        store_if_append _ _ _ _ _ (by simp; omega)]
      simp


/-- One pass of the decoding loop is three guarded stores of the bytes
computed from the four characters. -/
theorem decode_quad_stores (nd dL c0 c1 c2 c3 : Nat) (jd : Nat × List Nat) :
    decode_quad nd dL c0 c1 c2 c3 jd =
      store_if dL (store_if dL (store_if dL jd ((decode_quad_bytes nd c0 c1 c2 c3).getD 0 0))
        ((decode_quad_bytes nd c0 c1 c2 c3).getD 1 0))
        ((decode_quad_bytes nd c0 c1 c2 c3).getD 2 0) := rfl

/-- The bytes computed from four characters are three. -/
theorem decode_quad_bytes_eq (nd c0 c1 c2 c3 : Nat) :
    decode_quad_bytes nd c0 c1 c2 c3 =
      [(decode_quad_bytes nd c0 c1 c2 c3).getD 0 0, (decode_quad_bytes nd c0 c1 c2 c3).getD 1 0,
        (decode_quad_bytes nd c0 c1 c2 c3).getD 2 0] := rfl

/-- The decoding loop computes three bytes for every four characters. -/
theorem decode_bytes_length (nd : Nat) (chars : List Nat) :
    (decode_bytes nd chars).length = 3 * (chars.length / 4) := by
  induction chars using list_induction4 with
  | h0 => rfl
  | h1 a => simp [decode_bytes]
  | h2 a b => simp [decode_bytes]
  | h3 a b c => simp [decode_bytes]
  | h4 a b c d rest ih =>
    rw [decode_bytes, List.length_append, ih, decode_quad_bytes_eq]
    simp only [List.length_cons, List.length_nil]
    omega

/-- Decoding by groups, for any characters: after `xs`, the loop stores the
computed bytes up to the decoded length and leaves the rest of the buffer. -/
theorem decode_groups_stores (nd dL : Nat) (chars : List Nat) :
    ∀ xs tail : List Nat, dL - xs.length ≤ tail.length →
      decode_groups nd dL chars (xs.length, xs ++ tail) =
        xs ++ (decode_bytes nd chars).take (dL - xs.length) ++
          tail.drop (min (dL - xs.length) (decode_bytes nd chars).length) := by
  induction chars using list_induction4 with
  | h0 => intro xs tail _; simp [decode_groups, decode_bytes]
  | h1 a => intro xs tail _; simp [decode_groups, decode_bytes]
  | h2 a b => intro xs tail _; simp [decode_groups, decode_bytes]
  | h3 a b c => intro xs tail _; simp [decode_groups, decode_bytes]
  | h4 c0 c1 c2 c3 rest ih =>
    intro xs tail h
    rw [decode_groups, decode_quad_stores, store_if_three _ _ _ _ _ _ h,
      ← decode_quad_bytes_eq]
    have hq : (decode_quad_bytes nd c0 c1 c2 c3).length = 3 := by
      rw [decode_quad_bytes_eq]; rfl
    have hw : ((decode_quad_bytes nd c0 c1 c2 c3).take (dL - xs.length)).length =
        min (dL - xs.length) 3 := by
      rw [List.length_take, hq]
    rw [ih _ _ (by rw [List.length_append, List.length_drop, hw]; omega)]
    rw [decode_bytes, List.take_append_eq_append_take, hq, List.length_append, hw,
      List.drop_drop, List.length_append, hq]
    have e1 : dL - (xs.length + min (dL - xs.length) 3) = dL - xs.length - 3 := by omega
    have e2 : min (dL - xs.length) 3 + min (dL - xs.length - 3) (decode_bytes nd rest).length =
        min (dL - xs.length) (3 + (decode_bytes nd rest).length) := by omega
    rw [e1]
    simp only [List.append_assoc]
    rw [e2]


/-- C11 fails: the string `A===` ends with three `=`, so three quarters of
its length less its trailing `=` is 0, and `base64_decode` succeeds, reports
length 1 and stores one byte. -/
theorem decode_length_counterexample :
    trailing_pads (str "A===") = 3 ∧
      (str "A===").length * 3 / 4 - trailing_pads (str "A===") = 0 ∧
      base64_decode 0 ⟨0, 0, str "A==="⟩ [9, 9, 9] 3 = ⟨0, [0, 9, 9], 1⟩ := by
  decide

/-- C11 as amended: for every non-empty string whose length `L` is a
multiple of 4, with `d` three quarters of `L` less one for each of the last
two characters that is `=`: when the capacity `*length` is below `d` the call
returns -1 and leaves the buffer and `*length` as they were; otherwise it
returns 0, reports exactly `d` whatever the capacity is, and has stored
exactly `d` bytes, the first `d` bytes the loop computes from the characters,
leaving the rest of the buffer as it was. -/
theorem base64_decode_reported_length (nullDiff : Nat) (encoded : CString) (data : List Nat)
    (length : Nat) (hne : encoded.chars ≠ []) (hmod : encoded.chars.length % 4 = 0)
    (hsize : 3 * encoded.chars.length < SIZE_MOD) :
    ((decode_bytes nullDiff encoded.chars).take (decoded_length_of encoded.chars)).length =
        decoded_length_of encoded.chars ∧
      (length < decoded_length_of encoded.chars →
        base64_decode nullDiff encoded data length = ⟨-1, data, length⟩) ∧
      (decoded_length_of encoded.chars ≤ length →
        decoded_length_of encoded.chars ≤ data.length →
        base64_decode nullDiff encoded data length =
          ⟨0, (decode_bytes nullDiff encoded.chars).take (decoded_length_of encoded.chars) ++
              data.drop (decoded_length_of encoded.chars),
            decoded_length_of encoded.chars⟩) := by
  have hpos : 0 < encoded.chars.length := List.length_pos.mpr hne
  have hL : 4 ≤ encoded.chars.length := by omega
  have hbl := decode_bytes_length nullDiff encoded.chars
  have hc1 : (encoded.chars.length + SIZE_MOD - 1) % SIZE_MOD = encoded.chars.length - 1 := by
    unfold SIZE_MOD at hsize ⊢; omega
  have hc2 : (encoded.chars.length + SIZE_MOD - 2) % SIZE_MOD = encoded.chars.length - 2 := by
    unfold SIZE_MOD at hsize ⊢; omega
  have hg1 : encoded.charAt (encoded.chars.length - 1) =
      encoded.chars.getD (encoded.chars.length - 1) 0 := by
    have h1 : encoded.chars.length - 1 ≠ SIZE_MOD - 1 := by unfold SIZE_MOD at hsize ⊢; omega
    have h2 : encoded.chars.length - 1 ≠ SIZE_MOD - 2 := by unfold SIZE_MOD at hsize ⊢; omega
    rw [CString.charAt, if_neg h1, if_neg h2]
  have hg2 : encoded.charAt (encoded.chars.length - 2) =
      encoded.chars.getD (encoded.chars.length - 2) 0 := by
    have h1 : encoded.chars.length - 2 ≠ SIZE_MOD - 1 := by unfold SIZE_MOD at hsize ⊢; omega
    have h2 : encoded.chars.length - 2 ≠ SIZE_MOD - 2 := by unfold SIZE_MOD at hsize ⊢; omega
    rw [CString.charAt, if_neg h1, if_neg h2]
  have hq : encoded.chars.length * 3 % SIZE_MOD / 4 = encoded.chars.length * 3 / 4 := by
    rw [Nat.mod_eq_of_lt (by omega)]
  have hdecr : ∀ n, 0 < n → n < SIZE_MOD → (n + SIZE_MOD - 1) % SIZE_MOD = n - 1 := by
    intro n h1 h2
    unfold SIZE_MOD at h2 ⊢
    omega
  have hdec : (if encoded.chars.getD (encoded.chars.length - 2) 0 = PAD then
        ((if encoded.chars.getD (encoded.chars.length - 1) 0 = PAD then
          (encoded.chars.length * 3 % SIZE_MOD / 4 + SIZE_MOD - 1) % SIZE_MOD
          else encoded.chars.length * 3 % SIZE_MOD / 4) + SIZE_MOD - 1) % SIZE_MOD
      else (if encoded.chars.getD (encoded.chars.length - 1) 0 = PAD then
          (encoded.chars.length * 3 % SIZE_MOD / 4 + SIZE_MOD - 1) % SIZE_MOD
          else encoded.chars.length * 3 % SIZE_MOD / 4)) = decoded_length_of encoded.chars := by
    rw [hq]
    unfold decoded_length_of
    split_ifs with h2 h1 h1
    · rw [hdecr (encoded.chars.length * 3 / 4) (by omega) (by omega),
        hdecr _ (by omega) (by omega)]
    · rw [hdecr _ (by omega) (by omega)]
      omega
    · rw [hdecr _ (by omega) (by omega)]
      omega
    · omega
  have hle : decoded_length_of encoded.chars ≤ 3 * (encoded.chars.length / 4) := by
    unfold decoded_length_of
    omega
  refine ⟨?_, ?_, ?_⟩
  · rw [List.length_take, hbl]
    omega
  · intro hcap
    unfold base64_decode
    simp only [hmod, ne_eq, not_true_eq_false, if_false, hc1, hc2, hg1, hg2, hdec, hcap,
      if_true]
  · intro hcap hbuf
    have hloop := decode_loop_groups nullDiff encoded (decoded_length_of encoded.chars)
      (by omega) encoded.chars.length 0 (0, data) (by simpa using hmod) (by simp; omega)
    have hcore := decode_groups_stores nullDiff (decoded_length_of encoded.chars)
      encoded.chars [] data (by simpa using hbuf)
    simp only [List.length_nil, Nat.sub_zero, List.nil_append] at hcore
    simp only [List.drop_zero] at hloop
    rw [hcore, hbl, Nat.min_eq_left hle] at hloop
    unfold base64_decode
    simp only [hmod, ne_eq, not_true_eq_false, if_false, hc1, hc2, hg1, hg2, hdec,
      Nat.not_lt.mpr hcap, hloop]

/-- Witness of the amended C11: `Zm9vYQ==` with capacity 3 is refused, and
with capacity 6 it fills four bytes of a six-byte buffer. -/
theorem base64_decode_reported_length_witness :
    base64_decode 0 ⟨0, 0, str "Zm9vYQ=="⟩ [7, 7, 7, 7, 7, 7] 3 = ⟨-1, [7, 7, 7, 7, 7, 7], 3⟩ ∧
      base64_decode 0 ⟨0, 0, str "Zm9vYQ=="⟩ [7, 7, 7, 7, 7, 7] 6 =
        ⟨0, (decode_bytes 0 (str "Zm9vYQ==")).take (decoded_length_of (str "Zm9vYQ==")) ++
            [7, 7, 7, 7, 7, 7].drop (decoded_length_of (str "Zm9vYQ==")),
          decoded_length_of (str "Zm9vYQ==")⟩ :=
  ⟨(base64_decode_reported_length 0 ⟨0, 0, str "Zm9vYQ=="⟩ [7, 7, 7, 7, 7, 7] 3 (by decide)
      (by decide) (by decide)).2.1 (by decide),
    (base64_decode_reported_length 0 ⟨0, 0, str "Zm9vYQ=="⟩ [7, 7, 7, 7, 7, 7] 6 (by decide)
      (by decide) (by decide)).2.2 (by decide) (by decide)⟩

/-- The decoded length and bytes of `Zm9vYQ==`, and the call with capacity 6. -/
theorem base64_decode_reported_length_example :
    decoded_length_of (str "Zm9vYQ==") = 4 ∧
      base64_decode 0 ⟨0, 0, str "Zm9vYQ=="⟩ [7, 7, 7, 7, 7, 7] 6 =
        ⟨0, str "fooa" ++ [7, 7], 4⟩ := by
  decide

/-! ## Callback registration -/

/-- Registration calls never produce a null server from a non-null one. -/
theorem register_calls_some (calls : List CallbackCall) (s : airplay_server) :
    ∃ s', calls.foldl register_call (some s) = some s' := by
  induction calls generalizing s with
  | nil => exact ⟨s, rfl⟩
  | cons c calls ih =>
    cases c <;> exact ih _

/-- Registration calls change none of the fields that are not handlers. -/
theorem register_calls_frame (calls : List CallbackCall) (s s' : airplay_server)
    (h : calls.foldl register_call (some s) = some s') :
    s'.config = s.config ∧ s'.clients = s.clients ∧ s'.running = s.running ∧
      s'.socket_fd = s.socket_fd ∧ s'.server_addr = s.server_addr ∧
      s'.avahi_client = s.avahi_client ∧ s'.entry_group = s.entry_group := by
  induction calls generalizing s with
  | nil =>
    cases h
    exact ⟨rfl, rfl, rfl, rfl, rfl, rfl, rfl⟩
  | cons c calls ih =>
    cases c with
    | audio cb => exact ih { s with audio_callback := cb } h
    | volume cb => exact ih { s with volume_callback := cb } h
    | playback p1 p2 p3 p4 p5 =>
      exact ih { s with
        play_callback := p1, pause_callback := p2, stop_callback := p3,
        next_callback := p4, previous_callback := p5 } h

/-- Calls that do not register the audio handler leave it as it is. -/
theorem register_calls_keep_audio (calls : List CallbackCall) (s s' : airplay_server)
    (hno : ∀ c ∈ calls, c.sets_audio = false)
    (h : calls.foldl register_call (some s) = some s') :
    s'.audio_callback = s.audio_callback := by
  induction calls generalizing s with
  | nil => cases h; rfl
  | cons c calls ih =>
    have hc := hno c (List.mem_cons_self _ _)
    have hr := fun d hd => hno d (List.mem_cons_of_mem _ hd)
    cases c with
    | audio cb => simp [CallbackCall.sets_audio] at hc
    | volume cb => exact ih { s with volume_callback := cb } hr h
    | playback p1 p2 p3 p4 p5 =>
      exact ih { s with
        play_callback := p1, pause_callback := p2, stop_callback := p3,
        next_callback := p4, previous_callback := p5 } hr h

/-- Calls that do not register the volume handler leave it as it is. -/
theorem register_calls_keep_volume (calls : List CallbackCall) (s s' : airplay_server)
    (hno : ∀ c ∈ calls, c.sets_volume = false)
    (h : calls.foldl register_call (some s) = some s') :
    s'.volume_callback = s.volume_callback := by
  induction calls generalizing s with
  | nil => cases h; rfl
  | cons c calls ih =>
    have hc := hno c (List.mem_cons_self _ _)
    have hr := fun d hd => hno d (List.mem_cons_of_mem _ hd)
    cases c with
    | audio cb => exact ih { s with audio_callback := cb } hr h
    | volume cb => simp [CallbackCall.sets_volume] at hc
    | playback p1 p2 p3 p4 p5 =>
      exact ih { s with
        play_callback := p1, pause_callback := p2, stop_callback := p3,
        next_callback := p4, previous_callback := p5 } hr h

/-- Calls that do not register the transport handlers leave them as they are. -/
theorem register_calls_keep_playback (calls : List CallbackCall) (s s' : airplay_server)
    (hno : ∀ c ∈ calls, c.sets_playback = false)
    (h : calls.foldl register_call (some s) = some s') :
    s'.play_callback = s.play_callback ∧ s'.pause_callback = s.pause_callback ∧
      s'.stop_callback = s.stop_callback ∧ s'.next_callback = s.next_callback ∧
      s'.previous_callback = s.previous_callback := by
  induction calls generalizing s with
  | nil => cases h; exact ⟨rfl, rfl, rfl, rfl, rfl⟩
  | cons c calls ih =>
    have hc := hno c (List.mem_cons_self _ _)
    have hr := fun d hd => hno d (List.mem_cons_of_mem _ hd)
    cases c with
    | audio cb => exact ih { s with audio_callback := cb } hr h
    | volume cb => exact ih { s with volume_callback := cb } hr h
    | playback p1 p2 p3 p4 p5 => simp [CallbackCall.sets_playback] at hc

/-- C21: callback registration is last-wins and framed. Each function returns
0 on a non-null server and changes only its own handler fields (one for audio
and volume, exactly five for playback) and returns -1 on a null server; after
any sequence of calls the server is non-null with config, slots, running
flag, descriptor and Avahi fields as before; a handler registered by a call
that is followed only by calls that do not register it holds the value of
that call (a null value included), and a handler no call registers keeps its
value. -/
theorem callback_registration (s : airplay_server) (pre post : List CallbackCall)
    (cb p1 p2 p3 p4 p5 : Option Nat) :
    airplay_server_set_audio_callback (some s) cb = (0, some { s with audio_callback := cb }) ∧
      airplay_server_set_volume_callback (some s) cb =
        (0, some { s with volume_callback := cb }) ∧
      airplay_server_set_playback_callbacks (some s) p1 p2 p3 p4 p5 =
        (0, some { s with
          play_callback := p1, pause_callback := p2, stop_callback := p3,
          next_callback := p4, previous_callback := p5 }) ∧
      airplay_server_set_audio_callback none cb = (-1, none) ∧
      airplay_server_set_volume_callback none cb = (-1, none) ∧
      airplay_server_set_playback_callbacks none p1 p2 p3 p4 p5 = (-1, none) ∧
      (∃ s', register_calls s post = some s' ∧
        s'.config = s.config ∧ s'.clients = s.clients ∧ s'.running = s.running ∧
        s'.socket_fd = s.socket_fd ∧ s'.server_addr = s.server_addr ∧
        s'.avahi_client = s.avahi_client ∧ s'.entry_group = s.entry_group ∧
        ((∀ c ∈ post, c.sets_audio = false) → s'.audio_callback = s.audio_callback) ∧
        ((∀ c ∈ post, c.sets_volume = false) → s'.volume_callback = s.volume_callback) ∧
        ((∀ c ∈ post, c.sets_playback = false) →
          s'.play_callback = s.play_callback ∧ s'.pause_callback = s.pause_callback ∧
          s'.stop_callback = s.stop_callback ∧ s'.next_callback = s.next_callback ∧
          s'.previous_callback = s.previous_callback)) ∧
      ((∀ c ∈ post, c.sets_audio = false) →
        ∃ s', register_calls s (pre ++ CallbackCall.audio cb :: post) = some s' ∧
          s'.audio_callback = cb) ∧
      ((∀ c ∈ post, c.sets_volume = false) →
        ∃ s', register_calls s (pre ++ CallbackCall.volume cb :: post) = some s' ∧
          s'.volume_callback = cb) ∧
      ((∀ c ∈ post, c.sets_playback = false) →
        ∃ s', register_calls s (pre ++ CallbackCall.playback p1 p2 p3 p4 p5 :: post) = some s' ∧
          s'.play_callback = p1 ∧ s'.pause_callback = p2 ∧ s'.stop_callback = p3 ∧
          s'.next_callback = p4 ∧ s'.previous_callback = p5) := by
  refine ⟨rfl, rfl, rfl, rfl, rfl, rfl, ?_, ?_, ?_, ?_⟩
  · obtain ⟨s', hs'⟩ := register_calls_some post s
    obtain ⟨f1, f2, f3, f4, f5, f6, f7⟩ := register_calls_frame post s s' hs'
    exact ⟨s', hs', f1, f2, f3, f4, f5, f6, f7,
      fun h => register_calls_keep_audio post s s' h hs',
      fun h => register_calls_keep_volume post s s' h hs',
      fun h => register_calls_keep_playback post s s' h hs'⟩
  · intro hno
    obtain ⟨s1, h1⟩ := register_calls_some pre s
    obtain ⟨s2, h2⟩ := register_calls_some post { s1 with audio_callback := cb }
    refine ⟨s2, ?_, ?_⟩
    · unfold register_calls
      rw [List.foldl_append, h1, List.foldl_cons]
      exact h2
    · exact register_calls_keep_audio post _ s2 hno h2
  · intro hno
    obtain ⟨s1, h1⟩ := register_calls_some pre s
    obtain ⟨s2, h2⟩ := register_calls_some post { s1 with volume_callback := cb }
    refine ⟨s2, ?_, ?_⟩
    · unfold register_calls
      rw [List.foldl_append, h1, List.foldl_cons]
      exact h2
    · exact register_calls_keep_volume post _ s2 hno h2
  · intro hno
    obtain ⟨s1, h1⟩ := register_calls_some pre s
    obtain ⟨s2, h2⟩ := register_calls_some post { s1 with
      play_callback := p1, pause_callback := p2, stop_callback := p3,
      next_callback := p4, previous_callback := p5 }
    refine ⟨s2, ?_, ?_⟩
    · unfold register_calls
      rw [List.foldl_append, h1, List.foldl_cons]
      exact h2
    · exact register_calls_keep_playback post _ s2 hno h2

/-- Witness of C21: the audio handler set to 11, then reset to null, with
volume and playback registrations around and after it. -/
theorem callback_registration_witness :
    ∃ s', register_calls example_started
        ([CallbackCall.audio (some 11), CallbackCall.volume (some 12)] ++
          CallbackCall.audio none ::
            [CallbackCall.playback (some 1) (some 2) none (some 4) (some 5),
              CallbackCall.volume (some 13)]) = some s' ∧
      s'.audio_callback = none :=
  (callback_registration example_started
    [CallbackCall.audio (some 11), CallbackCall.volume (some 12)]
    [CallbackCall.playback (some 1) (some 2) none (some 4) (some 5),
      CallbackCall.volume (some 13)] none none none none none none).2.2.2.2.2.2.2.1
    (by decide)

/-! ## The advertisement callbacks -/

/-- C24 fails: after the service has been published under the configured name
`Kitchen`, a collision reported to the entry group callback leaves the server
as it is and makes no Avahi call, so nothing is published under another name;
a later client callback publishes nothing either. -/
theorem collision_counterexample :
    (avahi_client_callback example_kitchen AvahiClientState.S_RUNNING (some 7)).2 =
        [AvahiCall.add_service 7 (str "Kitchen") (str "_airplay._tcp") 7000,
          AvahiCall.commit 7] ∧
      avahi_entry_group_callback
          (avahi_client_callback example_kitchen AvahiClientState.S_RUNNING (some 7)).1
          AvahiEntryGroupState.COLLISION =
        ((avahi_client_callback example_kitchen AvahiClientState.S_RUNNING (some 7)).1, []) ∧
      (avahi_client_callback
          (avahi_entry_group_callback
            (avahi_client_callback example_kitchen AvahiClientState.S_RUNNING (some 7)).1
            AvahiEntryGroupState.COLLISION).1
          AvahiClientState.S_RUNNING (some 8)).2 = [] := by
  decide

/-- C24 as amended: when the entry group reports a name collision the
callback makes no Avahi call and leaves the server, its configured name and
its entry group included, as it is; as long as the entry group is set, no
client callback publishes anything. -/
theorem collision_only_logged (server : airplay_server) (state : AvahiClientState)
    (new_group : Option Nat) :
    avahi_entry_group_callback server AvahiEntryGroupState.COLLISION = (server, []) ∧
      (server.entry_group ≠ none →
        avahi_client_callback
          (avahi_entry_group_callback server AvahiEntryGroupState.COLLISION).1 state
          new_group = (server, [])) := by
  refine ⟨rfl, ?_⟩
  intro h
  cases hg : server.entry_group with
  | none => exact absurd hg h
  | some g =>
    cases state <;> simp [avahi_client_callback, avahi_entry_group_callback, hg]

/-- Witness of the amended C24 on the server whose service `Kitchen` has been
published. -/
theorem collision_only_logged_witness :
    avahi_client_callback
        (avahi_entry_group_callback
          (avahi_client_callback example_kitchen AvahiClientState.S_RUNNING (some 7)).1
          AvahiEntryGroupState.COLLISION).1 AvahiClientState.S_RUNNING (some 8) =
      ((avahi_client_callback example_kitchen AvahiClientState.S_RUNNING (some 7)).1, []) :=
  (collision_only_logged
    (avahi_client_callback example_kitchen AvahiClientState.S_RUNNING (some 7)).1
    AvahiClientState.S_RUNNING (some 8)).2 (by decide)

/-! ## Playback state machine -/

/-- C27: `playback_control_pause` changes the state only from PLAYING, to
PAUSED, and otherwise changes nothing and calls no callback;
`playback_control_play` moves STOPPED and PAUSED to PLAYING and leaves
PLAYING and BUFFERING as they are; `playback_control_stop` always yields
STOPPED with position 0; `playback_control_set_state` returns -1 and changes
nothing for every value outside STOPPED..BUFFERING and stores every value
inside; none of the four changes title, artist, album or duration. -/
theorem playback_state_machine (m : PlaybackModule) (state : Int) :
    (m.current_state = PLAYBACK_PLAYING →
        (playback_control_pause m).ret = 0 ∧
          (playback_control_pause m).module = { m with current_state := PLAYBACK_PAUSED }) ∧
      (m.current_state ≠ PLAYBACK_PLAYING → playback_control_pause m = ⟨0, m, []⟩) ∧
      (m.current_state = PLAYBACK_STOPPED ∨ m.current_state = PLAYBACK_PAUSED →
        (playback_control_play m).module = { m with current_state := PLAYBACK_PLAYING }) ∧
      (m.current_state = PLAYBACK_PLAYING ∨ m.current_state = PLAYBACK_BUFFERING →
        (playback_control_play m).module = m) ∧
      (playback_control_play m).ret = 0 ∧
      (playback_control_stop m).ret = 0 ∧
      (playback_control_stop m).module.current_state = PLAYBACK_STOPPED ∧
      (playback_control_stop m).module.current_info.position_ms = 0 ∧
      (state < PLAYBACK_STOPPED ∨ state > PLAYBACK_BUFFERING →
        playback_control_set_state m state = ⟨-1, m, []⟩) ∧
      (PLAYBACK_STOPPED ≤ state ∧ state ≤ PLAYBACK_BUFFERING →
        (playback_control_set_state m state).ret = 0 ∧
          (playback_control_set_state m state).module = { m with current_state := state }) ∧
      (∀ r ∈ [playback_control_play m, playback_control_pause m, playback_control_stop m,
          playback_control_set_state m state],
        r.module.current_info.title = m.current_info.title ∧
          r.module.current_info.artist = m.current_info.artist ∧
          r.module.current_info.album = m.current_info.album ∧
          r.module.current_info.duration_ms = m.current_info.duration_ms) := by
  refine ⟨?_, ?_, ?_, ?_, rfl, rfl, rfl, rfl, ?_, ?_, ?_⟩
  · intro h
    simp [playback_control_pause, h]
  · intro h
    simp [playback_control_pause, h]
  · intro h
    rcases h with h | h
    · simp [playback_control_play, h, PLAYBACK_STOPPED, PLAYBACK_PAUSED]
    · simp [playback_control_play, h]
  · intro h
    rcases h with h | h
    · simp [playback_control_play, h, PLAYBACK_STOPPED, PLAYBACK_PAUSED, PLAYBACK_PLAYING]
    · simp [playback_control_play, h, PLAYBACK_STOPPED, PLAYBACK_PAUSED, PLAYBACK_BUFFERING]
  · intro h
    simp [playback_control_set_state, h]
  · intro h
    have : ¬ (state < PLAYBACK_STOPPED ∨ state > PLAYBACK_BUFFERING) := by
      intro h'
      rcases h' with h' | h'
      · exact absurd h.1 (not_le.mpr h')
      · exact absurd h.2 (not_le.mpr h')
    simp [playback_control_set_state, this]
  · intro r hr
    simp only [List.mem_cons, List.mem_singleton, List.not_mem_nil, or_false] at hr
    rcases hr with h | h | h | h <;> subst h
    · unfold playback_control_play
      dsimp only
      split_ifs <;> exact ⟨rfl, rfl, rfl, rfl⟩
    · unfold playback_control_pause
      split_ifs <;> exact ⟨rfl, rfl, rfl, rfl⟩
    · exact ⟨rfl, rfl, rfl, rfl⟩
    · unfold playback_control_set_state
      split_ifs <;> exact ⟨rfl, rfl, rfl, rfl⟩

/-- Witness of C27: pausing while PLAYING with a state callback, pausing
while BUFFERING, and setting the state to 4. -/
theorem playback_state_machine_witness :
    playback_control_pause ⟨PLAYBACK_PLAYING, ⟨str "t", str "a", str "b", 1000, 10⟩, some 7, none⟩ =
        ⟨0, ⟨PLAYBACK_PAUSED, ⟨str "t", str "a", str "b", 1000, 10⟩, some 7, none⟩,
          [PlaybackEffect.state_changed 7 PLAYBACK_PAUSED]⟩ ∧
      playback_control_pause
          ⟨PLAYBACK_BUFFERING, ⟨str "t", str "a", str "b", 1000, 10⟩, some 7, none⟩ =
        ⟨0, ⟨PLAYBACK_BUFFERING, ⟨str "t", str "a", str "b", 1000, 10⟩, some 7, none⟩, []⟩ ∧
      playback_control_set_state
          ⟨PLAYBACK_BUFFERING, ⟨str "t", str "a", str "b", 1000, 10⟩, some 7, none⟩ 4 =
        ⟨-1, ⟨PLAYBACK_BUFFERING, ⟨str "t", str "a", str "b", 1000, 10⟩, some 7, none⟩, []⟩ :=
  ⟨by decide,
    (playback_state_machine
      ⟨PLAYBACK_BUFFERING, ⟨str "t", str "a", str "b", 1000, 10⟩, some 7, none⟩ 4).2.1
      (by decide),
    (playback_state_machine
      ⟨PLAYBACK_BUFFERING, ⟨str "t", str "a", str "b", 1000, 10⟩, some 7, none⟩
      4).2.2.2.2.2.2.2.2.1 (by decide)⟩

/-! ## Stored volume -/

set_option maxRecDepth 100000 in
/-- C28 fails on the code: the range test of `volume_control_set_volume`
lets a NaN through, both comparisons being false for it. From the start of
the program, setting the volume to a NaN returns 0, stores the NaN and hands
it to the audio output; the stored value does not lie in [0, 1], and it is
still a NaN after stepping up and down and muting. The first step up from
`0.5f` stores 9227469/16777216, the single precision sum, not 11/20. -/
theorem volume_nan_stored :
    float_is_nan float_nan = true ∧
      float_lt float_nan MIN_VOLUME = false ∧ float_gt float_nan MAX_VOLUME = false ∧
      volume_control_set_volume volume_initial float_nan =
        ⟨0, ⟨float_nan, false, none⟩, [VolumeEffect.audio_output_set_volume float_nan]⟩ ∧
      float_in_unit_interval
        (volume_control_set_volume volume_initial float_nan).module.current_volume = false ∧
      float_is_nan (volume_calls volume_initial
        [VolumeCall.set_volume float_nan, VolumeCall.step_up]).current_volume = true ∧
      float_is_nan (volume_calls volume_initial
        [VolumeCall.set_volume float_nan, VolumeCall.step_down]).current_volume = true ∧
      float_is_nan (volume_calls volume_initial
        [VolumeCall.set_volume float_nan, VolumeCall.step_up, VolumeCall.set_mute true,
          VolumeCall.step_down, VolumeCall.step_down]).current_volume = true ∧
      (volume_control_step_up volume_initial).module.current_volume = 0x3F0CCCCD ∧
      float_scaled 0x3F0CCCCD * 16777216 = 9227469 * 2 ^ 149 := by
  decide

set_option maxRecDepth 100000 in
/-- The constants of `volume_control.c` as numbers: `0.0f` is 0, `1.0f` is 1
(2^149 units of 2^-149), `0.5f` is 1/2, and `0.05f` is 13421773 * 2^-28, the
`float` nearest to 1/20: it is off by 4 * 2^-28 / 20, less than half a unit
in its last place. -/
theorem volume_constants :
    float_scaled MIN_VOLUME = 0 ∧ float_scaled MAX_VOLUME = 2 ^ 149 ∧
      float_scaled 0x3F000000 * 2 = 2 ^ 149 ∧
      float_scaled VOLUME_STEP = 13421773 * 2 ^ 121 ∧
      float_scaled VOLUME_STEP * 20 - 2 ^ 149 = 4 * 2 ^ 121 ∧
      float_is_nan MIN_VOLUME = false ∧ float_is_nan MAX_VOLUME = false ∧
      float_is_nan VOLUME_STEP = false := by
  decide

/-- The shift count brackets the magnitude: for `n` of at least 2^24 and
enough fuel, `2^(23 + k) ≤ n < 2^(24 + k)`. -/
theorem float_shift_bounds (fuel : Nat) :
    ∀ n, n ≤ fuel → 2 ^ 24 ≤ n →
      2 ^ (23 + float_shift fuel n) ≤ n ∧ n < 2 ^ (24 + float_shift fuel n) := by
  induction fuel with
  | zero =>
    intro n h hn
    have : (0 : Nat) < 2 ^ 24 := by norm_num
    omega
  | succ fuel ih =>
    intro n h hn
    have hlt : ¬ n < 2 ^ 24 := by omega
    simp only [float_shift, hlt, if_false]
    by_cases hh : 2 ^ 24 ≤ n / 2
    · obtain ⟨h1, h2⟩ := ih (n / 2) (by omega) hh
      have e1 : 2 ^ (23 + (float_shift fuel (n / 2) + 1)) =
          2 * 2 ^ (23 + float_shift fuel (n / 2)) := by
        rw [← Nat.add_assoc, Nat.pow_succ, Nat.mul_comm]
      have e2 : 2 ^ (24 + (float_shift fuel (n / 2) + 1)) =
          2 * 2 ^ (24 + float_shift fuel (n / 2)) := by
        rw [← Nat.add_assoc, Nat.pow_succ, Nat.mul_comm]
      rw [e1, e2]
      omega
    · have h0 : float_shift fuel (n / 2) = 0 := by
        cases fuel with
        | zero => rfl
        | succ f =>
          have hlt2 : n / 2 < 2 ^ 24 := by omega
          simp only [float_shift, hlt2, if_true]
      rw [h0]
      have e1 : (2 : Nat) ^ (23 + (0 + 1)) = 2 ^ 24 := by norm_num
      have e2 : (2 : Nat) ^ (24 + (0 + 1)) = 2 * 2 ^ 24 := by norm_num
      rw [e1, e2]
      omega

/-- The fields of a pattern put together from a sign bit, an exponent field
and a fraction field. -/
theorem float_fields (sign e f : Nat) (hs : sign ≤ 1) (he : e < 256) (hf : f < 2 ^ 23) :
    float_sign (sign * 2 ^ 31 + (e * 2 ^ 23 + f)) = sign ∧
      float_exponent (sign * 2 ^ 31 + (e * 2 ^ 23 + f)) = e ∧
      float_fraction (sign * 2 ^ 31 + (e * 2 ^ 23 + f)) = f := by
  unfold float_sign float_exponent float_fraction
  norm_num at hf ⊢
  refine ⟨?_, ?_, ?_⟩ <;> omega

/-- A pattern whose exponent field is not 255 is no NaN. -/
theorem float_not_nan_of_exponent (x : Nat) (h : float_exponent x ≠ 255) :
    float_is_nan x = false := by
  simp [float_is_nan, h]

/-- A pattern whose fraction field is 0 is no NaN. -/
theorem float_not_nan_of_fraction (x : Nat) (h : float_fraction x = 0) :
    float_is_nan x = false := by
  simp [float_is_nan, h]

/-- An infinity is no NaN and has the sign bit it was given. -/
theorem float_infinity_number (sign : Nat) (hs : sign ≤ 1) :
    float_is_nan (sign * 2 ^ 31 + 255 * 2 ^ 23) = false ∧
      float_sign (sign * 2 ^ 31 + 255 * 2 ^ 23) = sign := by
  have h : sign = 0 ∨ sign = 1 := by omega
  rcases h with h | h <;> subst h <;> exact ⟨by decide, by decide⟩

/-- A rounded magnitude is a number of the sign asked for: no NaN, with that
sign bit. -/
theorem float_round_number (sign n : Nat) (hs : sign ≤ 1) :
    float_is_nan (float_round sign n) = false ∧ float_sign (float_round sign n) = sign := by
  unfold float_round
  by_cases h : n < 2 ^ 24
  · rw [if_pos h]
    have hf := float_fields sign (n / 2 ^ 23) (n % 2 ^ 23) hs
      (by norm_num at h ⊢; omega) (Nat.mod_lt _ (by norm_num))
    have e : n / 2 ^ 23 * 2 ^ 23 + n % 2 ^ 23 = n := Nat.div_add_mod' n (2 ^ 23)
    rw [e] at hf
    refine ⟨float_not_nan_of_exponent _ ?_, hf.1⟩
    rw [hf.2.1]
    norm_num at h ⊢
    omega
  · rw [if_neg h]
    dsimp only
    split_ifs with hq hb hb
    · exact float_infinity_number sign hs
    · generalize (float_shift n n + 1) * 2 ^ 23 + (n / 2 ^ float_shift n n + 1 - 2 ^ 23) = bits
        at hb
      have hf := float_fields sign (bits / 2 ^ 23) (bits % 2 ^ 23) hs
        (by norm_num at hb ⊢; omega) (Nat.mod_lt _ (by norm_num))
      have e : bits / 2 ^ 23 * 2 ^ 23 + bits % 2 ^ 23 = bits := Nat.div_add_mod' bits (2 ^ 23)
      rw [e] at hf
      refine ⟨float_not_nan_of_exponent _ ?_, hf.1⟩
      rw [hf.2.1]
      norm_num at hb ⊢
      omega
    · exact float_infinity_number sign hs
    · generalize (float_shift n n + 1) * 2 ^ 23 + (n / 2 ^ float_shift n n - 2 ^ 23) = bits
        at hb
      have hf := float_fields sign (bits / 2 ^ 23) (bits % 2 ^ 23) hs
        (by norm_num at hb ⊢; omega) (Nat.mod_lt _ (by norm_num))
      have e : bits / 2 ^ 23 * 2 ^ 23 + bits % 2 ^ 23 = bits := Nat.div_add_mod' bits (2 ^ 23)
      rw [e] at hf
      refine ⟨float_not_nan_of_exponent _ ?_, hf.1⟩
      rw [hf.2.1]
      norm_num at hb ⊢
      omega

/-- The magnitude of a positive pattern with a non-zero exponent field. -/
theorem float_magnitude_fields (e f : Nat) (he : 0 < e) (he2 : e < 256) (hf : f < 2 ^ 23) :
    float_magnitude (0 * 2 ^ 31 + (e * 2 ^ 23 + f)) = (2 ^ 23 + f) * 2 ^ (e - 1) := by
  have h := float_fields 0 e f (by omega) he2 hf
  unfold float_magnitude
  rw [h.2.1, h.2.2, if_neg (by omega)]

/-- The pattern that rounding puts together from a shift count `k` and a
rounded quotient `q` between 2^23 and 2^24 has a magnitude of at most
2^(24 + k). -/
theorem float_round_pattern_magnitude (k q : Nat) (hk : k + 24 ≤ 149) (hq1 : 2 ^ 23 ≤ q)
    (hq2 : q ≤ 2 ^ 24) :
    float_magnitude (0 * 2 ^ 31 + ((k + 1) * 2 ^ 23 + (q - 2 ^ 23))) ≤ 2 ^ (24 + k) := by
  by_cases hq : q = 2 ^ 24
  · subst hq
    have e : (k + 1) * 2 ^ 23 + (2 ^ 24 - 2 ^ 23) = (k + 2) * 2 ^ 23 + 0 := by
      norm_num
      omega
    rw [e, float_magnitude_fields (k + 2) 0 (by omega) (by omega) (by norm_num)]
    have e2 : k + 2 - 1 = k + 1 := by omega
    rw [e2, Nat.add_zero, ← Nat.pow_add]
    apply Nat.le_of_eq
    congr 1
    omega
  · have hlt : q < 2 ^ 24 := Nat.lt_of_le_of_ne hq2 hq
    rw [float_magnitude_fields (k + 1) (q - 2 ^ 23) (by omega) (by omega)
      (by norm_num at hlt hq1 ⊢; omega)]
    have e2 : k + 1 - 1 = k := by omega
    have e3 : 2 ^ 23 + (q - 2 ^ 23) = q := by omega
    rw [e2, e3, Nat.pow_add]
    exact Nat.mul_le_mul_right _ hq2

/-- Rounding a magnitude below 1 (2^149 units) gives a magnitude of at most 1. -/
theorem float_round_le_one (n : Nat) (h : n < 2 ^ 149) :
    float_magnitude (float_round 0 n) ≤ 2 ^ 149 := by
  unfold float_round
  by_cases h24 : n < 2 ^ 24
  · rw [if_pos h24]
    have hf := float_fields 0 (n / 2 ^ 23) (n % 2 ^ 23) (by omega)
      (by norm_num at h24 ⊢; omega) (Nat.mod_lt _ (by norm_num))
    have e : n / 2 ^ 23 * 2 ^ 23 + n % 2 ^ 23 = n := Nat.div_add_mod' n (2 ^ 23)
    rw [e] at hf
    have hmag : float_magnitude (0 * 2 ^ 31 + n) = n := by
      unfold float_magnitude
      rw [hf.2.1, hf.2.2]
      by_cases h0 : n / 2 ^ 23 = 0
      · rw [if_pos h0]
        norm_num at h0 ⊢
        omega
      · have h1 : n / 2 ^ 23 = 1 := by norm_num at h24 h0 ⊢; omega
        rw [if_neg h0, h1]
        norm_num at h1 ⊢
        omega
    rw [hmag]
    exact Nat.le_of_lt h
  · rw [if_neg h24]
    dsimp only
    obtain ⟨hb1, hb2⟩ := float_shift_bounds n n (Nat.le_refl n) (by omega)
    generalize float_shift n n = k at hb1 hb2 ⊢
    have hk : 23 + k < 149 :=
      (Nat.pow_lt_pow_iff_right (by decide : 1 < 2)).mp (Nat.lt_of_le_of_lt hb1 h)
    have hq1 : 2 ^ 23 ≤ n / 2 ^ k := by
      rw [Nat.le_div_iff_mul_le (Nat.pow_pos (by decide))]
      rw [← Nat.pow_add]
      exact hb1
    have hq2 : n / 2 ^ k < 2 ^ 24 := by
      rw [Nat.div_lt_iff_lt_mul (Nat.pow_pos (by decide))]
      rw [← Nat.pow_add]
      exact hb2
    have hle : (2 : Nat) ^ (24 + k) ≤ 2 ^ 149 :=
      Nat.pow_le_pow_right (by decide) (by omega)
    have hsmall : ∀ q, q ≤ 2 ^ 24 → ¬ (k + 1) * 2 ^ 23 + (q - 2 ^ 23) ≥ 255 * 2 ^ 23 := by
      intro q hq
      norm_num at hq ⊢
      omega
    split_ifs with hq hb hb
    · exact absurd hb (hsmall _ (by omega))
    · exact Nat.le_trans
        (float_round_pattern_magnitude k (n / 2 ^ k + 1) (by omega) (by omega) (by omega)) hle
    · exact absurd hb (hsmall _ (by omega))
    · exact Nat.le_trans
        (float_round_pattern_magnitude k (n / 2 ^ k) (by omega) hq1 (by omega)) hle

set_option maxRecDepth 100000 in
/-- Lying in [0, 1], spelled out. -/
theorem float_in_unit_interval_iff (x : Nat) :
    float_in_unit_interval x = true ↔
      float_is_nan x = false ∧ 0 ≤ float_scaled x ∧ float_scaled x ≤ 2 ^ 149 := by
  simp [float_in_unit_interval, and_assoc]

set_option maxRecDepth 100000 in
/-- A number of sign bit 0 has its magnitude as its value. -/
theorem float_scaled_positive (x : Nat) (h : float_sign x = 0) :
    float_scaled x = (float_magnitude x : Int) := by
  simp [float_scaled, h]

set_option maxRecDepth 100000 in
/-- A number of sign bit 1 has the opposite of its magnitude as its value. -/
theorem float_scaled_negative (x : Nat) (h : float_sign x = 1) :
    float_scaled x = -(float_magnitude x : Int) := by
  simp [float_scaled, h]

set_option maxRecDepth 100000 in
/-- A number within [0, 1] is finite. -/
theorem float_finite_of_unit (x : Nat) (h0 : 0 ≤ float_scaled x)
    (h1 : float_scaled x ≤ 2 ^ 149) : float_exponent x ≠ 255 := by
  intro he
  have hm : 2 ^ 254 ≤ float_magnitude x := by
    unfold float_magnitude
    rw [he, if_neg (by decide)]
    have h1 : 1 ≤ 2 ^ 23 + float_fraction x :=
      Nat.le_trans (Nat.pow_pos (by decide)) (Nat.le_add_right _ _)
    calc 2 ^ 254 = 1 * 2 ^ (255 - 1) := by rw [Nat.one_mul]
      _ ≤ (2 ^ 23 + float_fraction x) * 2 ^ (255 - 1) := Nat.mul_le_mul_right _ h1
  have hbig : (2 : Nat) ^ 149 < 2 ^ 254 := Nat.pow_lt_pow_right (by decide) (by decide)
  have hm2 : ((2 : Nat) ^ 149 : Int) < (float_magnitude x : Int) := by
    exact_mod_cast Nat.lt_of_lt_of_le hbig hm
  unfold float_scaled at h0 h1
  split_ifs at h0 h1 with hs
  · have : (0 : Int) ≤ ((2 : Nat) ^ 149 : Int) := by positivity
    omega
  · push_cast at hm2
    omega

set_option maxRecDepth 100000 in
/-- Stepping up from a number in [0, 1] stores a number in [0, 1]. -/
theorem volume_step_up_unit (m : VolumeModule)
    (h : float_in_unit_interval m.current_volume = true) :
    float_in_unit_interval (volume_control_step_up m).module.current_volume = true := by
  obtain ⟨hn, h0, h1⟩ := (float_in_unit_interval_iff _).mp h
  have hS_nan : float_is_nan VOLUME_STEP = false := by decide
  have hS_exp : float_exponent VOLUME_STEP ≠ 255 := by decide
  have hS_pos : 0 < float_scaled VOLUME_STEP := by decide
  have hmax : float_in_unit_interval MAX_VOLUME = true := by decide
  have hmax_nan : float_is_nan MAX_VOLUME = false := by decide
  have hmax_scaled : float_scaled MAX_VOLUME = 2 ^ 149 := by decide
  have hfin := float_finite_of_unit _ h0 h1
  have hsum : float_add m.current_volume VOLUME_STEP =
      float_round 0 (float_scaled m.current_volume + float_scaled VOLUME_STEP).natAbs := by
    unfold float_add
    rw [hn, hS_nan]
    simp only [Bool.or_self, Bool.false_eq_true, if_false, hfin, hS_exp]
    rw [if_neg (by omega), if_neg (by omega)]
  have hr := float_round_number 0
    (float_scaled m.current_volume + float_scaled VOLUME_STEP).natAbs (by omega)
  simp only [volume_control_step_up]
  rw [hsum]
  generalize float_round 0 (float_scaled m.current_volume + float_scaled VOLUME_STEP).natAbs =
    new at hr
  by_cases hgt : float_gt new MAX_VOLUME = true
  · rw [if_pos hgt]; exact hmax
  · rw [if_neg hgt]
    rw [float_in_unit_interval_iff]
    have hs := float_scaled_positive new hr.2
    refine ⟨hr.1, by rw [hs]; positivity, ?_⟩
    simp only [float_gt, float_lt, hmax_nan, hr.1, Bool.not_false, Bool.true_and,
      decide_eq_true_eq] at hgt
    rw [hmax_scaled] at hgt
    omega

set_option maxRecDepth 100000 in
/-- Stepping down from a number in [0, 1] stores a number in [0, 1]. -/
theorem volume_step_down_unit (m : VolumeModule)
    (h : float_in_unit_interval m.current_volume = true) :
    float_in_unit_interval (volume_control_step_down m).module.current_volume = true := by
  obtain ⟨hn, h0, h1⟩ := (float_in_unit_interval_iff _).mp h
  have hneg : float_neg VOLUME_STEP = 0xBD4CCCCD := by decide
  have hS_nan : float_is_nan 0xBD4CCCCD = false := by decide
  have hS_exp : float_exponent 0xBD4CCCCD ≠ 255 := by decide
  have hS_neg : float_scaled 0xBD4CCCCD < 0 := by decide
  have hmin : float_in_unit_interval MIN_VOLUME = true := by decide
  have hmin_nan : float_is_nan MIN_VOLUME = false := by decide
  have hmin_scaled : float_scaled MIN_VOLUME = 0 := by decide
  have hz1 : float_in_unit_interval (2 ^ 31) = true := by decide
  have hz2 : float_in_unit_interval 0 = true := by decide
  have hfin := float_finite_of_unit _ h0 h1
  have hnew : float_in_unit_interval (float_sub m.current_volume VOLUME_STEP) = true ∨
      float_lt (float_sub m.current_volume VOLUME_STEP) MIN_VOLUME = true := by
    unfold float_sub float_add
    rw [hneg, hn, hS_nan]
    simp only [Bool.or_self, Bool.false_eq_true, if_false, hfin, hS_exp]
    by_cases hzero : float_scaled m.current_volume + float_scaled 0xBD4CCCCD = 0
    · rw [if_pos hzero]
      left
      split_ifs
      · exact hz1
      · exact hz2
    · rw [if_neg hzero]
      by_cases hlt : float_scaled m.current_volume + float_scaled 0xBD4CCCCD < 0
      · rw [if_pos hlt]
        have hr := float_round_number 1
          (float_scaled m.current_volume + float_scaled 0xBD4CCCCD).natAbs (by omega)
        generalize float_round 1
          (float_scaled m.current_volume + float_scaled 0xBD4CCCCD).natAbs = new at hr
        have hs := float_scaled_negative new hr.2
        have hm : (0 : Int) ≤ (float_magnitude new : Int) := by positivity
        by_cases hl : float_lt new MIN_VOLUME = true
        · right; exact hl
        · left
          simp only [float_lt, hmin_nan, hr.1, Bool.not_false, Bool.true_and,
            decide_eq_true_eq] at hl
          rw [hmin_scaled] at hl
          rw [float_in_unit_interval_iff]
          refine ⟨hr.1, by omega, ?_⟩
          have : (0 : Int) ≤ 2 ^ 149 := by positivity
          omega
      · rw [if_neg hlt]
        left
        have hlt149 : (float_scaled m.current_volume + float_scaled 0xBD4CCCCD).natAbs <
            2 ^ 149 := by
          have : ((float_scaled m.current_volume + float_scaled 0xBD4CCCCD).natAbs : Int) <
              ((2 ^ 149 : Nat) : Int) := by
            rw [Int.natAbs_of_nonneg (by omega)]
            push_cast
            omega
          exact_mod_cast this
        have hr := float_round_number 0
          (float_scaled m.current_volume + float_scaled 0xBD4CCCCD).natAbs (by omega)
        have hle := float_round_le_one _ hlt149
        generalize float_round 0
          (float_scaled m.current_volume + float_scaled 0xBD4CCCCD).natAbs = new at hr hle
        have hs := float_scaled_positive new hr.2
        rw [float_in_unit_interval_iff]
        refine ⟨hr.1, by rw [hs]; positivity, ?_⟩
        rw [hs]
        exact_mod_cast hle
  simp only [volume_control_step_down]
  by_cases hl : float_lt (float_sub m.current_volume VOLUME_STEP) MIN_VOLUME = true
  · rw [if_pos hl]; exact hmin
  · rw [if_neg hl]
    rcases hnew with h2 | h2
    · exact h2
    · exact absurd h2 hl

set_option maxRecDepth 100000 in
/-- A stored NaN stays a NaN through a step up and a step down. -/
theorem volume_step_nan (m : VolumeModule) (h : float_is_nan m.current_volume = true) :
    float_is_nan (volume_control_step_up m).module.current_volume = true ∧
      float_is_nan (volume_control_step_down m).module.current_volume = true := by
  have h1 : float_add m.current_volume VOLUME_STEP = float_nan := by
    simp [float_add, h]
  have h2 : float_sub m.current_volume VOLUME_STEP = float_nan := by
    simp [float_sub, float_add, h]
  have h3 : float_gt float_nan MAX_VOLUME = false := by decide
  have h4 : float_lt float_nan MIN_VOLUME = false := by decide
  have h5 : float_is_nan float_nan = true := by decide
  constructor
  · simp only [volume_control_step_up, h1, h3, Bool.false_eq_true, if_false]
    exact h5
  · simp only [volume_control_step_down, h2, h4, Bool.false_eq_true, if_false]
    exact h5

set_option maxRecDepth 100000 in
/-- What `volume_control_set_volume` stores: it refuses a number below 0 or
above 1 and changes nothing, and stores every other `float`: the numbers of
[0, 1] and the NaNs. -/
theorem volume_set_volume_cases (m : VolumeModule) (v : Nat) :
    (float_is_nan v = true →
        volume_control_set_volume m v =
          ⟨0, { m with current_volume := v }, volume_apply { m with current_volume := v }⟩) ∧
      (float_in_unit_interval v = true →
        volume_control_set_volume m v =
          ⟨0, { m with current_volume := v }, volume_apply { m with current_volume := v }⟩) ∧
      (float_is_nan v = false → float_in_unit_interval v = false →
        volume_control_set_volume m v = ⟨-1, m, []⟩) := by
  have hmin_nan : float_is_nan MIN_VOLUME = false := by decide
  have hmin_scaled : float_scaled MIN_VOLUME = 0 := by decide
  have hmax_nan : float_is_nan MAX_VOLUME = false := by decide
  have hmax_scaled : float_scaled MAX_VOLUME = 2 ^ 149 := by decide
  refine ⟨?_, ?_, ?_⟩
  · intro h
    simp [volume_control_set_volume, float_gt, float_lt, h]
  · intro h
    obtain ⟨hn, h0, h1⟩ := (float_in_unit_interval_iff _).mp h
    have e1 : float_lt v MIN_VOLUME = false := by
      simp only [float_lt, hn, hmin_nan, hmin_scaled, Bool.not_false, Bool.true_and,
        decide_eq_false_iff_not]
      omega
    have e2 : float_gt v MAX_VOLUME = false := by
      simp only [float_gt, float_lt, hn, hmax_nan, hmax_scaled, Bool.not_false, Bool.true_and,
        decide_eq_false_iff_not]
      omega
    simp [volume_control_set_volume, e1, e2]
  · intro hn hu
    have hcase : float_scaled v < 0 ∨ 2 ^ 149 < float_scaled v := by
      by_contra hc
      have : float_in_unit_interval v = true := by
        rw [float_in_unit_interval_iff]
        exact ⟨hn, by omega, by omega⟩
      rw [this] at hu
      exact Bool.noConfusion hu
    have e : (float_lt v MIN_VOLUME || float_gt v MAX_VOLUME) = true := by
      simp only [float_gt, float_lt, hn, hmin_nan, hmin_scaled, hmax_nan, hmax_scaled,
        Bool.not_false, Bool.true_and, Bool.or_eq_true, decide_eq_true_eq]
      exact hcase
    simp [volume_control_set_volume, e]

set_option maxRecDepth 100000 in
/-- One call keeps a stored volume that is a number of [0, 1] or a NaN such;
and it keeps a number of [0, 1] such unless it sets the volume to a NaN. -/
theorem volume_call_unit_or_nan (m : VolumeModule) (c : VolumeCall) :
    (float_in_unit_interval m.current_volume = true ∨ float_is_nan m.current_volume = true →
        float_in_unit_interval (volume_call m c).module.current_volume = true ∨
          float_is_nan (volume_call m c).module.current_volume = true) ∧
      (float_in_unit_interval m.current_volume = true →
        (∀ v, c = VolumeCall.set_volume v → float_is_nan v = false) →
        float_in_unit_interval (volume_call m c).module.current_volume = true) := by
  have hhalf : float_in_unit_interval 0x3F000000 = true := by decide
  cases c with
  | init => exact ⟨fun _ => Or.inl hhalf, fun _ _ => hhalf⟩
  | cleanup => exact ⟨fun h => h, fun h _ => h⟩
  | set_volume v =>
    have hc := volume_set_volume_cases m v
    have hstore : float_in_unit_interval v = true ∨ float_is_nan v = true ∨
        (float_is_nan v = false ∧ float_in_unit_interval v = false) := by
      cases float_in_unit_interval v <;> cases float_is_nan v <;> simp
    constructor
    · intro h
      simp only [volume_call]
      rcases hstore with h1 | h1 | h1
      · rw [hc.2.1 h1]; exact Or.inl h1
      · rw [hc.1 h1]; exact Or.inr h1
      · rw [hc.2.2 h1.1 h1.2]; exact h
    · intro h hv
      simp only [volume_call]
      rcases hstore with h1 | h1 | h1
      · rw [hc.2.1 h1]; exact h1
      · rw [hv v rfl] at h1; exact Bool.noConfusion h1
      · rw [hc.2.2 h1.1 h1.2]; exact h
  | set_mute b => exact ⟨fun h => h, fun h _ => h⟩
  | step_up =>
    constructor
    · intro h
      rcases h with h | h
      · exact Or.inl (volume_step_up_unit m h)
      · exact Or.inr (volume_step_nan m h).1
    · intro h _
      exact volume_step_up_unit m h
  | step_down =>
    constructor
    · intro h
      rcases h with h | h
      · exact Or.inl (volume_step_down_unit m h)
      · exact Or.inr (volume_step_nan m h).2
    · intro h _
      exact volume_step_down_unit m h
  | set_callback cb => exact ⟨fun h => h, fun h _ => h⟩

set_option maxRecDepth 100000 in
/-- Supporting C28: through every sequence of calls, a stored volume that is
a number of [0, 1] or a NaN stays one of the two; so from the start of the
program, and after `volume_control_init`, the stored volume is always a
number of [0, 1] or a NaN. -/
theorem volume_unit_or_nan (calls : List VolumeCall) (m : VolumeModule) :
    (float_in_unit_interval m.current_volume = true ∨ float_is_nan m.current_volume = true →
        float_in_unit_interval (volume_calls m calls).current_volume = true ∨
          float_is_nan (volume_calls m calls).current_volume = true) ∧
      (float_in_unit_interval (volume_calls volume_initial calls).current_volume = true ∨
        float_is_nan (volume_calls volume_initial calls).current_volume = true) ∧
      (float_in_unit_interval
          (volume_calls (volume_control_init m).module calls).current_volume = true ∨
        float_is_nan (volume_calls (volume_control_init m).module calls).current_volume =
          true) := by
  have key : ∀ (calls : List VolumeCall) (st : VolumeModule),
      (float_in_unit_interval st.current_volume = true ∨ float_is_nan st.current_volume = true) →
        float_in_unit_interval (volume_calls st calls).current_volume = true ∨
          float_is_nan (volume_calls st calls).current_volume = true := by
    intro calls
    induction calls with
    | nil => intro st h; exact h
    | cons c calls ih =>
      intro st h
      unfold volume_calls
      rw [List.foldl_cons]
      exact ih _ ((volume_call_unit_or_nan st c).1 h)
  have hhalf : float_in_unit_interval 0x3F000000 = true := by decide
  exact ⟨key calls m, key calls volume_initial (Or.inl hhalf),
    key calls (volume_control_init m).module (Or.inl hhalf)⟩

set_option maxRecDepth 100000 in
/-- Supporting C28: when no call sets the volume to a NaN, the stored volume
is a number of [0, 1] after every sequence of calls, from the start of the
program and after `volume_control_init`. -/
theorem volume_unit_without_nan (calls : List VolumeCall) (m : VolumeModule)
    (hc : ∀ v, VolumeCall.set_volume v ∈ calls → float_is_nan v = false) :
    float_in_unit_interval (volume_calls volume_initial calls).current_volume = true ∧
      float_in_unit_interval
        (volume_calls (volume_control_init m).module calls).current_volume = true := by
  have key : ∀ (calls : List VolumeCall) (st : VolumeModule),
      (∀ v, VolumeCall.set_volume v ∈ calls → float_is_nan v = false) →
      float_in_unit_interval st.current_volume = true →
        float_in_unit_interval (volume_calls st calls).current_volume = true := by
    intro calls
    induction calls with
    | nil => intro st _ h; exact h
    | cons c calls ih =>
      intro st hv h
      unfold volume_calls
      rw [List.foldl_cons]
      apply ih
      · intro v hmem
        exact hv v (List.mem_cons_of_mem _ hmem)
      · apply (volume_call_unit_or_nan st c).2 h
        intro v he
        exact hv v (he ▸ List.mem_cons_self _ _)
  have hhalf : float_in_unit_interval 0x3F000000 = true := by decide
  exact ⟨key calls volume_initial hc hhalf, key calls (volume_control_init m).module hc hhalf⟩

set_option maxRecDepth 100000 in
/-- Supporting C28: `volume_control_set_mute` keeps the stored volume, and
each of the four functions that reach the audio output hands it `0.0f` when
muted and the stored volume otherwise, as the first call it makes:
`volume_control_set_mute` and the two steps always, and
`volume_control_set_volume` for every value it stores. -/
theorem volume_forwarded_level (m : VolumeModule) (v : Nat) (mute : Bool) :
    (volume_control_set_mute m mute).module.current_volume = m.current_volume ∧
      (volume_control_set_mute m mute).effects.head? =
        some (VolumeEffect.audio_output_set_volume (if mute then 0 else m.current_volume)) ∧
      (volume_control_step_up m).effects.head? =
        some (VolumeEffect.audio_output_set_volume
          (if m.is_muted then 0 else (volume_control_step_up m).module.current_volume)) ∧
      (volume_control_step_down m).effects.head? =
        some (VolumeEffect.audio_output_set_volume
          (if m.is_muted then 0 else (volume_control_step_down m).module.current_volume)) ∧
      ((float_lt v MIN_VOLUME || float_gt v MAX_VOLUME) = false →
        (volume_control_set_volume m v).ret = 0 ∧
          (volume_control_set_volume m v).module = { m with current_volume := v } ∧
          (volume_control_set_volume m v).effects.head? =
            some (VolumeEffect.audio_output_set_volume (if m.is_muted then 0 else v))) ∧
      ((float_lt v MIN_VOLUME || float_gt v MAX_VOLUME) = true →
        volume_control_set_volume m v = ⟨-1, m, []⟩) := by
  refine ⟨rfl, rfl, rfl, rfl, ?_, ?_⟩
  · intro h
    have e : volume_control_set_volume m v =
        ⟨0, { m with current_volume := v }, volume_apply { m with current_volume := v }⟩ := by
      simp only [volume_control_set_volume, h, Bool.false_eq_true, if_false]
    rw [e]
    exact ⟨rfl, rfl, rfl⟩
  · intro h
    simp only [volume_control_set_volume, h, if_true]

/-! ## Frame divisor and discovery buffer -/

/-- The divisor is zero exactly when channels times bits per sample is below 8. -/
theorem bytes_per_frame_eq_zero_iff (c : audio_config_t) :
    bytes_per_frame c = 0 ↔ c.channels * c.bits_per_sample < 8 := by
  unfold bytes_per_frame
  omega

/-- C29 fails on the code: `audio_output_configure` accepts a configuration
with 0 channels (and one with 1 channel of 4 bits), for which the divisor of
`audio_output_start` and `audio_output_write` is 0 and the frame count is a
division by zero; for the default configuration the divisor is 4. -/
theorem zero_frame_divisor_accepted (current : audio_config_t) :
    audio_output_configure current (some ⟨44100, 0, 16, str "default", false⟩) =
        (0, ⟨44100, 0, 16, str "default", false⟩) ∧
      bytes_per_frame ⟨44100, 0, 16, str "default", false⟩ = 0 ∧
      frame_count ⟨44100, 0, 16, str "default", false⟩ 4096 = none ∧
      audio_output_configure current (some ⟨8000, 1, 4, str "default", false⟩) =
        (0, ⟨8000, 1, 4, str "default", false⟩) ∧
      bytes_per_frame ⟨8000, 1, 4, str "default", false⟩ = 0 ∧
      bytes_per_frame audio_default_config = 4 ∧
      frame_count audio_default_config 4096 = some 1024 := by
  refine ⟨rfl, by decide, by decide, rfl, by decide, by decide, by decide⟩

/-- The length of the discovery response. -/
theorem discovery_response_length : discovery_response.length = 76 := by decide

/-- C30 fails on the code: with a non-null request, a 76-byte buffer and a
declared capacity of 76, the length of the fixed response, the call returns 0
and has stored 77 bytes, the response and its terminator, one more than the
capacity; the bytes after the call extend past the buffer. -/
theorem discovery_capacity_off_by_one :
    (airplay_handle_discovery_request (some (str "GET /info")) (List.replicate 76 255) 76).ret =
        0 ∧
      (airplay_handle_discovery_request (some (str "GET /info")) (List.replicate 76 255)
        76).written = 77 ∧
      (airplay_handle_discovery_request (some (str "GET /info")) (List.replicate 76 255)
        76).response = discovery_response ++ [0] ∧
      (airplay_handle_discovery_request (some (str "GET /info")) (List.replicate 76 255)
        76).response.length = 77 ∧
      (airplay_handle_discovery_request (some (str "GET /info")) (List.replicate 76 255)
        76).response_length = 76 := by
  decide

/-- Away from the boundary the call respects the capacity: below the length
of the response it returns -1 and writes nothing, and above it it returns 0,
stores the response and its terminator within the capacity and reports the
length of the response. -/
theorem discovery_capacity_respected (request response : List Nat) (response_length : Nat) :
    (response_length < 76 →
        airplay_handle_discovery_request (some request) response response_length =
          ⟨-1, response, response_length, 0⟩) ∧
      (76 < response_length →
        (airplay_handle_discovery_request (some request) response response_length).ret = 0 ∧
          (airplay_handle_discovery_request (some request) response response_length).written ≤
            response_length ∧
          (airplay_handle_discovery_request (some request) response
            response_length).response_length = 76) := by
  constructor
  · intro h
    simp [airplay_handle_discovery_request, discovery_response_length, h]
  · intro h
    have h1 : ¬ response_length < 76 := by omega
    simp [airplay_handle_discovery_request, discovery_response_length, h1]
    omega

/-! ## Accepting into a free slot and freeing a slot -/

/-- The slot-filling loop stores the connection in the lowest free slot. -/
theorem accept_fill_lowest (fd : Int) (addr : sockaddr_in) (cs : List Client) (k : Nat)
    (hk : k < cs.length) (hfree : (cs.getD k Client.zero).connected = false)
    (hlow : ∀ j, j < k → (cs.getD j Client.zero).connected = true) :
    accept_fill fd addr cs = cs.set k ⟨fd, addr, true, List.replicate 64 0⟩ := by
  induction cs generalizing k with
  | nil => simp at hk
  | cons c cs ih =>
    cases k with
    | zero =>
      have hc : c.connected = false := by simpa using hfree
      simp [accept_fill, hc]
    | succ k =>
      have hc : c.connected = true := by simpa using hlow 0 (Nat.succ_pos k)
      have hk' : k < cs.length := by simpa using hk
      have hfree' : (cs.getD k Client.zero).connected = false := by simpa using hfree
      have hlow' : ∀ j, j < k → (cs.getD j Client.zero).connected = true := by
        intro j hj
        simpa using hlow (j + 1) (Nat.succ_lt_succ hj)
      simp [accept_fill, hc, ih k hk' hfree' hlow']

/-- C23: when the server is running, the listening socket is ready, `accept`
returns a descriptor and slot `k` is the lowest-indexed slot that is not
connected, the accept block of `airplay_server_process` stores the session in
slot `k` alone (connected, the accepted descriptor and peer address, an
all-zero session id), leaves every other slot as it is and closes nothing;
the client loop starts from that table with no call made so far. -/
theorem accept_into_free_slot (server : airplay_server) (os : ProcessInput)
    (isset : Int → Bool) (k : Nat)
    (hrun : server.running = true) (hsel : os.select = SelectOutcome.ready isset)
    (hlisten : isset server.socket_fd = true) (hacc : 0 ≤ os.accept_fd)
    (hk : k < server.clients.length) (hfree : (server.slot k).connected = false)
    (hlow : ∀ j, j < k → (server.slot j).connected = true) :
    accept_step (isset server.socket_fd) server.clients os.accept_fd os.accept_addr =
        (server.clients.set k ⟨os.accept_fd, os.accept_addr, true, List.replicate 64 0⟩, []) ∧
      (∀ j, j ≠ k →
        (accept_step (isset server.socket_fd) server.clients os.accept_fd os.accept_addr).1.getD j
            Client.zero = server.slot j) ∧
      (accept_step (isset server.socket_fd) server.clients os.accept_fd os.accept_addr).1.getD k
          Client.zero = ⟨os.accept_fd, os.accept_addr, true, List.replicate 64 0⟩ ∧
      airplay_server_process server os =
        ⟨0,
          ((List.range MAX_CLIENTS).foldl (client_step isset os.recv)
            ({ server with
                clients := server.clients.set k
                  ⟨os.accept_fd, os.accept_addr, true, List.replicate 64 0⟩ }, [])).1,
          ((List.range MAX_CLIENTS).foldl (client_step isset os.recv)
            ({ server with
                clients := server.clients.set k
                  ⟨os.accept_fd, os.accept_addr, true, List.replicate 64 0⟩ }, [])).2⟩ := by
  have hfill := accept_fill_lowest os.accept_fd os.accept_addr server.clients k hk hfree hlow
  have hany : (server.clients.set k
      ⟨os.accept_fd, os.accept_addr, true, List.replicate 64 0⟩).any
        (fun c => c.fd == os.accept_fd) = true := by
    rw [List.any_eq_true]
    refine ⟨⟨os.accept_fd, os.accept_addr, true, List.replicate 64 0⟩, ?_, by simp⟩
    exact List.mem_iff_getElem.mpr ⟨k, by simpa using hk, by simp⟩
  have hstep : accept_step (isset server.socket_fd) server.clients os.accept_fd os.accept_addr =
      (server.clients.set k ⟨os.accept_fd, os.accept_addr, true, List.replicate 64 0⟩, []) := by
    unfold accept_step
    simp only [hlisten, ge_iff_le, hacc, if_true, hfill, hany, Bool.not_true,
      Bool.false_eq_true, if_false]
  have hproc := airplay_server_process_ready server os isset hrun hsel
  rw [hstep] at hproc
  refine ⟨hstep, ?_, ?_, hproc⟩
  · intro j hj
    rw [hstep]
    simp only [airplay_server.slot, List.getD_eq_getElem?_getD]
    rw [List.getElem?_set_ne (fun h => hj h.symm)]
  · rw [hstep]
    simp only [List.getD_eq_getElem?_getD]
    rw [List.getElem?_set_self hk]
    rfl

/-- Witness of C23: a connection accepted while slot 0 is taken goes to slot 1. -/
theorem accept_into_free_slot_witness :
    (accept_step ((fun fd => fd == 3) example_one_session.socket_fd)
        example_one_session.clients example_accept.accept_fd example_accept.accept_addr).1.getD 1
        Client.zero = ⟨9, ⟨2, 50009, 167772169⟩, true, List.replicate 64 0⟩ :=
  (accept_into_free_slot example_one_session example_accept (fun fd => fd == 3) 1 (by decide) rfl
    (by decide) (by decide) (by decide) (by decide) (by decide)).2.2.1

/-- A read of at least one byte is never reported as a failure. -/
theorem handle_client_request_nonempty (server : airplay_server) (fd : Int) (bytes : List Nat)
    (h : bytes ≠ []) : (handle_client_request server fd (some bytes)).ret = 0 := by
  have hpos : ¬ ((bytes.length : Int) ≤ 0) := by
    have : 0 < bytes.length := List.length_pos.mpr h
    omega
  unfold handle_client_request handle_http_request handle_rtsp_request
  simp only [hpos, if_false]
  split_ifs <;> rfl

/-- A read that returns an error or zero bytes is reported as a failure and
nothing is sent. -/
theorem handle_client_request_failed (server : airplay_server) (fd : Int)
    (rx : Option (List Nat)) (h : rx = none ∨ rx = some []) :
    handle_client_request server fd rx = ⟨-1, server, []⟩ := by
  rcases h with h | h <;> subst h <;> simp [handle_client_request]

/-- The client loop over distinct indices frees the slot whose read fails and
closes its descriptor. -/
theorem client_loop_frees (isset : Int → Bool) (recv : Nat → Option (List Nat)) (k : Nat)
    (hfail : recv k = none ∨ recv k = some [])
    (l : List Nat) (hnd : l.Nodup) (hk : k ∈ l) (st : airplay_server × List Effect)
    (hconn : (st.1.slot k).connected = true) (hready : isset (st.1.slot k).fd = true) :
    (l.foldl (client_step isset recv) st).1.slot k = { st.1.slot k with connected := false } ∧
      Effect.close (st.1.slot k).fd ∈ (l.foldl (client_step isset recv) st).2 := by
  induction l generalizing st with
  | nil => simp at hk
  | cons i l ih =>
    rw [List.foldl_cons]
    have hnd' := (List.nodup_cons.mp hnd)
    by_cases hik : i = k
    · subst hik
      have hlen : i < st.1.clients.length := by
        by_contra hge
        have : st.1.slot i = Client.zero := by
          simp [airplay_server.slot, List.getD_eq_getElem?_getD,
            List.getElem?_eq_none (not_lt.mp hge)]
        rw [this] at hconn
        simp [Client.zero] at hconn
      have hstep : client_step isset recv st i =
          ({ st.1 with clients := st.1.clients.set i { st.1.slot i with connected := false } },
            st.2 ++ [Effect.close (st.1.slot i).fd]) := by
        unfold client_step
        simp [hconn, hready, handle_client_request_failed _ _ _ hfail]
      have hslot : (client_step isset recv st i).1.slot i =
          { st.1.slot i with connected := false } := by
        rw [hstep]
        simp [airplay_server.slot, List.getD_eq_getElem?_getD, List.getElem?_set_self hlen]
      constructor
      · rw [← hslot]
        have hkeep : ∀ (l' : List Nat) (st' : airplay_server × List Effect), i ∉ l' →
            (l'.foldl (client_step isset recv) st').1.slot i = st'.1.slot i := by
          intro l' st' hni
          induction l' generalizing st' with
          | nil => rfl
          | cons a l' ih' =>
            rw [List.foldl_cons, ih' _ (fun h => hni (List.mem_cons_of_mem _ h))]
            exact client_step_slot isset recv st' a i
              (fun h => absurd (h ▸ List.mem_cons_self a l') hni)
        exact hkeep l _ hnd'.1
      · apply client_loop_effects_mono
        rw [hstep]
        simp
    · have hkl : k ∈ l := by
        rcases List.mem_cons.mp hk with h1 | h1
        · exact absurd h1.symm hik
        · exact h1
      have hs : (client_step isset recv st i).1.slot k = st.1.slot k :=
        client_step_slot isset recv st i k (fun h1 => absurd h1 hik)
      have := ih hnd'.2 hkl (client_step isset recv st i) (by rw [hs]; exact hconn)
        (by rw [hs]; exact hready)
      rwa [hs] at this

/-- C22: in `airplay_server_process`, a connected ready session whose read
returns an error or zero bytes has its descriptor closed and its slot freed
(connected false, the other fields kept); a connected ready session whose
read returns at least one byte keeps its slot as it is; and the pass of the
client loop for one slot changes no other slot. -/
theorem failed_read_frees_slot (server : airplay_server) (os : ProcessInput)
    (isset : Int → Bool) (k : Nat)
    (hrun : server.running = true) (hsel : os.select = SelectOutcome.ready isset)
    (hk : k < MAX_CLIENTS)
    (hconn : (server.slot k).connected = true) (hready : isset (server.slot k).fd = true) :
    (os.recv k = none ∨ os.recv k = some [] →
        (airplay_server_process server os).server.slot k =
            { server.slot k with connected := false } ∧
          Effect.close (server.slot k).fd ∈ (airplay_server_process server os).effects) ∧
      (∀ bytes, bytes ≠ [] → os.recv k = some bytes →
        (airplay_server_process server os).server.slot k = server.slot k) ∧
      (∀ (st : airplay_server × List Effect) (i j : Nat), j ≠ i →
        (client_step isset os.recv st i).1.slot j = st.1.slot j) := by
  have hproc := airplay_server_process_ready server os isset hrun hsel
  have hstep := accept_step_getD (isset server.socket_fd) server.clients os.accept_fd
    os.accept_addr k hconn
  refine ⟨?_, ?_, ?_⟩
  · intro hfail
    rw [hproc]
    generalize accept_step (isset server.socket_fd) server.clients os.accept_fd os.accept_addr =
      acc at hstep ⊢
    have hs : ({ server with clients := acc.1 } : airplay_server).slot k = server.slot k := hstep
    have h := client_loop_frees isset os.recv k hfail (List.range MAX_CLIENTS)
      (List.nodup_range _) (List.mem_range.mpr hk) ({ server with clients := acc.1 }, acc.2)
      (by rw [hs]; exact hconn) (by rw [hs]; exact hready)
    dsimp only at h ⊢
    rw [hs] at h
    exact h
  · intro bytes hne hrecv
    rw [hproc]
    generalize accept_step (isset server.socket_fd) server.clients os.accept_fd os.accept_addr =
      acc at hstep ⊢
    have hs : ({ server with clients := acc.1 } : airplay_server).slot k = server.slot k := hstep
    have h := client_loop_slot isset os.recv k
      (fun sv fd => by rw [hrecv, handle_client_request_nonempty sv fd bytes hne])
      (List.range MAX_CLIENTS) ({ server with clients := acc.1 }, acc.2)
    dsimp only at h ⊢
    rw [hs] at h
    exact h
  · intro st i j hji
    exact client_step_slot isset os.recv st i j (fun h => absurd h.symm hji)

/-- Witness of C22: the session of slot 0 reads zero bytes and is closed. -/
theorem failed_read_frees_slot_witness :
    (airplay_server_process example_one_session (example_read [])).server.slot 0 =
        { example_one_session.slot 0 with connected := false } ∧
      Effect.close (example_one_session.slot 0).fd ∈
        (airplay_server_process example_one_session (example_read [])).effects :=
  (failed_read_frees_slot example_one_session (example_read []) (fun fd => fd == 5) 0
    (by decide) rfl (by decide) (by decide) (by decide)).1 (Or.inr rfl)

/-! ## The room table -/

/-- C25 fails on the code: after `multiroom_init`, adding two different
32-character names that agree in their first 31 characters succeeds twice
(the comparison sees the full new name, the table keeps 31 characters), and
the two stored names are equal. -/
theorem duplicate_room_names :
    str "Living room, first floor, east A" ≠ str "Living room, first floor, east B" ∧
      (multiroom_add_room (multiroom_init multiroom_initial).module
        (some (str "Living room, first floor, east A")) 7001 10).ret = 0 ∧
      (multiroom_add_room
        (multiroom_add_room (multiroom_init multiroom_initial).module
          (some (str "Living room, first floor, east A")) 7001 10).module
        (some (str "Living room, first floor, east B")) 7002 11).ret = 0 ∧
      stored_names (room_calls multiroom_initial
        [RoomCall.add (str "Living room, first floor, east A") 7001 10,
          RoomCall.add (str "Living room, first floor, east B") 7002 11]) =
        [str "Living room, first floor, east ", str "Living room, first floor, east "] := by
  decide

/-- On strings without NUL, `strcmp` is 0 exactly for equal strings. -/
theorem strcmp_eq_zero_iff (s1 s2 : List Nat) (h1 : 0 ∉ s1) (h2 : 0 ∉ s2) :
    strcmp s1 s2 = 0 ↔ s1 = s2 := by
  induction s1 generalizing s2 with
  | nil =>
    cases s2 with
    | nil => simp [strcmp]
    | cons c2 t2 =>
      have hc : c2 ≠ 0 := fun h => h2 (h ▸ List.mem_cons_self _ _)
      simp only [strcmp, List.headD_cons]
      constructor
      · intro h; exfalso; omega
      · intro h; simp at h
  | cons c1 t1 ih =>
    have hc1 : c1 ≠ 0 := fun h => h1 (h ▸ List.mem_cons_self _ _)
    have ht1 : 0 ∉ t1 := fun h => h1 (List.mem_cons_of_mem _ h)
    cases s2 with
    | nil =>
      simp only [strcmp, List.headD_nil, ne_eq, hc1, not_false_eq_true, if_true]
      constructor
      · intro h; exfalso; omega
      · intro h; simp at h
    | cons c2 t2 =>
      have ht2 : 0 ∉ t2 := fun h => h2 (List.mem_cons_of_mem _ h)
      by_cases hc : c1 = c2
      · subst hc
        simp only [strcmp, List.headD_cons, ne_eq, not_true_eq_false, if_false, hc1,
          List.tail_cons]
        rw [ih t2 ht1 ht2]
        simp
      · simp only [strcmp, List.headD_cons, ne_eq, hc, not_false_eq_true, if_true]
        constructor
        · intro h; exfalso; omega
        · intro h; exact absurd (List.cons.inj h).1 hc

/-- A search over `0 .. n - 1` returns the first index that satisfies the test. -/
theorem find_range_first (p : Nat → Bool) (n idx : Nat) (hidx : idx < n) (hp : p idx = true)
    (hmin : ∀ j, j < idx → p j = false) : (List.range n).find? p = some idx := by
  induction n with
  | zero => omega
  | succ n ih =>
    rw [List.range_succ, List.find?_append]
    by_cases h : idx < n
    · rw [ih h]; rfl
    · have he : idx = n := by omega
      subst he
      have hnone : (List.range idx).find? p = none := by
        rw [List.find?_eq_none]
        intro x hx
        have := hmin x (List.mem_range.mp hx)
        simp [this]
      rw [hnone]
      simp [List.find?, hp]

/-- The shift loop, entry by entry: the entries from `room_index` on, as many
as the loop has passes, take their right neighbour; all others are kept. -/
theorem shift_getD (n : Nat) :
    ∀ (rooms : List Room) (idx : Nat), idx + n < rooms.length →
      (((List.range' idx n).foldl (fun rs i => rs.set i (rs.getD (i + 1) Room.cleared))
          rooms).length = rooms.length) ∧
        ∀ j, ((List.range' idx n).foldl (fun rs i => rs.set i (rs.getD (i + 1) Room.cleared))
          rooms).getD j Room.cleared =
            if idx ≤ j ∧ j < idx + n then rooms.getD (j + 1) Room.cleared
            else rooms.getD j Room.cleared := by
  induction n with
  | zero =>
    intro rooms idx _
    refine ⟨rfl, ?_⟩
    intro j
    have : ¬ (idx ≤ j ∧ j < idx + 0) := by omega
    rw [if_neg this]
    rfl
  | succ n ih =>
    intro rooms idx h
    rw [List.range'_succ, List.foldl_cons]
    have hlen : (rooms.set idx (rooms.getD (idx + 1) Room.cleared)).length = rooms.length :=
      List.length_set _ _ _
    obtain ⟨hl, hg⟩ := ih (rooms.set idx (rooms.getD (idx + 1) Room.cleared)) (idx + 1)
      (by rw [hlen]; omega)
    refine ⟨by rw [hl, hlen], ?_⟩
    intro j
    rw [hg j]
    simp only [List.getD_eq_getElem?_getD]
    by_cases h1 : idx + 1 ≤ j ∧ j < idx + 1 + n
    · have h2 : idx ≤ j ∧ j < idx + (n + 1) := by omega
      rw [if_pos h1, if_pos h2, List.getElem?_set_ne (by omega)]
    · rw [if_neg h1]
      by_cases h3 : j = idx
      · subst h3
        have h2 : j ≤ j ∧ j < j + (n + 1) := by omega
        rw [if_pos h2, List.getElem?_set_self (by omega)]
        simp
      · have h2 : ¬ (idx ≤ j ∧ j < idx + (n + 1)) := by omega
        rw [if_neg h2, List.getElem?_set_ne (fun e => h3 e.symm)]

/-- Removing a name that is found keeps the array length and lowers the
count by one; adding changes neither beyond raising the count by one. -/
theorem room_call_bounds (m : MultiroomModule) (c : RoomCall)
    (h : m.room_count ≤ MAX_ROOMS ∧ m.rooms.length = MAX_ROOMS) :
    (room_call m c).module.room_count ≤ MAX_ROOMS ∧
      (room_call m c).module.rooms.length = MAX_ROOMS := by
  cases c with
  | add name port sock =>
    simp only [room_call, multiroom_add_room]
    by_cases h1 : name.length = 0
    · rw [if_pos h1]; exact h
    · rw [if_neg h1]
      by_cases h2 : m.room_count ≥ MAX_ROOMS
      · rw [if_pos h2]; exact h
      · rw [if_neg h2]
        by_cases h3 : (find_room m name).isSome = true
        · rw [if_pos h3]; exact h
        · rw [if_neg h3]
          refine ⟨?_, ?_⟩
          · show m.room_count + 1 ≤ MAX_ROOMS
            omega
          · simp only [List.length_set]; exact h.2
  | remove name =>
    simp only [room_call, multiroom_remove_room]
    cases hf : find_room m name with
    | none => exact h
    | some idx =>
      have hidx : idx < m.room_count :=
        List.mem_range.mp (List.mem_of_find?_eq_some hf)
      refine ⟨?_, ?_⟩
      · simp only; omega
      · simp only [List.length_set]
        rw [shift_rooms, (shift_getD _ m.rooms idx (by omega)).1]
        exact h.2

/-- After `multiroom_init`, every sequence of calls keeps the count within
the array. -/
theorem room_calls_bounds (calls : List RoomCall) (m : MultiroomModule) :
    (room_calls m calls).room_count ≤ MAX_ROOMS ∧
      (room_calls m calls).rooms.length = MAX_ROOMS := by
  unfold room_calls
  have h0 : (multiroom_init m).module.room_count ≤ MAX_ROOMS ∧
      (multiroom_init m).module.rooms.length = MAX_ROOMS := by
    simp [multiroom_init]
  generalize (multiroom_init m).module = st at h0
  induction calls generalizing st with
  | nil => exact h0
  | cons c calls ih =>
    rw [List.foldl_cons]
    exact ih _ (room_call_bounds st c h0)

/-- The search of `find_room` returns the first index whose stored name
equals the searched one, when the names hold no NUL. -/
theorem find_room_first (m : MultiroomModule) (name : List Nat) (idx : Nat)
    (hname : 0 ∉ name)
    (hstored : ∀ j, j < m.room_count → 0 ∉ (m.rooms.getD j Room.cleared).name)
    (hidx : idx < m.room_count) (hat : (m.rooms.getD idx Room.cleared).name = name)
    (hfirst : ∀ j, j < idx → (m.rooms.getD j Room.cleared).name ≠ name) :
    find_room m name = some idx := by
  unfold find_room
  apply find_range_first _ _ _ hidx
  · have := (strcmp_eq_zero_iff _ name (hstored idx hidx) hname).mpr hat
    simpa using this
  · intro j hj
    have hne : strcmp (m.rooms.getD j Room.cleared).name name ≠ 0 := fun h =>
      hfirst j hj ((strcmp_eq_zero_iff _ name (hstored j (by omega)) hname).mp h)
    simpa using hne

/-- The search of `find_room` finds nothing when no stored name equals the
searched one. -/
theorem find_room_none (m : MultiroomModule) (name : List Nat)
    (hname : 0 ∉ name)
    (hstored : ∀ j, j < m.room_count → 0 ∉ (m.rooms.getD j Room.cleared).name)
    (hno : ∀ j, j < m.room_count → (m.rooms.getD j Room.cleared).name ≠ name) :
    find_room m name = none := by
  unfold find_room
  rw [List.find?_eq_none]
  intro j hj
  have hj2 := List.mem_range.mp hj
  have hne : strcmp (m.rooms.getD j Room.cleared).name name ≠ 0 := fun h =>
    hno j hj2 ((strcmp_eq_zero_iff _ name (hstored j hj2) hname).mp h)
  simpa using hne

/-- An entry inside the list, read with a default, is the entry. -/
theorem room_getElem (l : List Room) (k : Nat) (h : k < l.length) :
    l[k]? = some (l.getD k Room.cleared) := by
  simp [List.getD_eq_getElem?_getD, List.getElem?_eq_getElem h]

/-- Reading a list after one entry was set. -/
theorem room_getD_set (l : List Room) (i j : Nat) (a : Room) :
    (l.set i a).getD j Room.cleared =
      if i = j ∧ i < l.length then a else l.getD j Room.cleared := by
  simp only [List.getD_eq_getElem?_getD, List.getElem?_set]
  by_cases h : i = j
  · subst h
    by_cases h2 : i < l.length
    · simp [h2]
    · simp [h2, List.getElem?_eq_none (Nat.le_of_not_lt h2)]
  · simp [h]

/-- The entries of the room table after a removal at `idx`. -/
theorem remove_room_entries (m : MultiroomModule) (name : List Nat) (idx : Nat)
    (hlen : m.rooms.length = MAX_ROOMS) (hcount : m.room_count ≤ MAX_ROOMS)
    (hf : find_room m name = some idx) (hidx : idx < m.room_count) (j : Nat) :
    (multiroom_remove_room m (some name)).module.rooms.getD j Room.cleared =
      if j < idx then m.rooms.getD j Room.cleared
      else if j + 1 < m.room_count then m.rooms.getD (j + 1) Room.cleared
      else if j + 1 = m.room_count then Room.cleared
      else m.rooms.getD j Room.cleared := by
  simp only [multiroom_remove_room, hf, shift_rooms]
  obtain ⟨hl, hg⟩ := shift_getD (m.room_count - 1 - idx) m.rooms idx (by omega)
  rw [room_getD_set, hl]
  by_cases h1 : j + 1 = m.room_count
  · have e : m.room_count - 1 = j ∧ m.room_count - 1 < m.rooms.length := by omega
    have h2 : ¬ j < idx := by omega
    have h3 : ¬ j + 1 < m.room_count := by omega
    rw [if_neg h2, if_neg h3, if_pos h1, if_pos e]
  · have e : ¬ (m.room_count - 1 = j ∧ m.room_count - 1 < m.rooms.length) := by omega
    rw [if_neg e, hg j]
    by_cases h2 : j < idx
    · have h4 : ¬ (idx ≤ j ∧ j < idx + (m.room_count - 1 - idx)) := by omega
      rw [if_neg h4, if_pos h2]
    · rw [if_neg h2]
      by_cases h3 : j + 1 < m.room_count
      · have h4 : idx ≤ j ∧ j < idx + (m.room_count - 1 - idx) := by omega
        rw [if_pos h4, if_pos h3]
      · have h4 : ¬ (idx ≤ j ∧ j < idx + (m.room_count - 1 - idx)) := by omega
        rw [if_neg h4, if_neg h3, if_neg h1]

/-- The counted entries after a removal at `idx` are the old counted
entries without entry `idx`. -/
theorem remove_room_take (m : MultiroomModule) (name : List Nat) (idx : Nat)
    (hlen : m.rooms.length = MAX_ROOMS) (hcount : m.room_count ≤ MAX_ROOMS)
    (hf : find_room m name = some idx) (hidx : idx < m.room_count) :
    (multiroom_remove_room m (some name)).module.rooms.take
        (multiroom_remove_room m (some name)).module.room_count =
      (m.rooms.take m.room_count).eraseIdx idx := by
  have hent := remove_room_entries m name idx hlen hcount hf hidx
  have hrc : (multiroom_remove_room m (some name)).module.room_count = m.room_count - 1 := by
    simp only [multiroom_remove_room, hf]
  have hrl : (multiroom_remove_room m (some name)).module.rooms.length = MAX_ROOMS := by
    simp only [multiroom_remove_room, hf, List.length_set, shift_rooms]
    rw [(shift_getD _ m.rooms idx (by omega)).1]
    exact hlen
  rw [hrc]
  apply List.ext_getElem?
  intro k
  by_cases hk : k < m.room_count - 1
  · rw [List.getElem?_take_of_lt hk, room_getElem _ k (by rw [hrl]; omega), hent k]
    by_cases hki : k < idx
    · rw [if_pos hki, List.getElem?_eraseIdx_of_lt _ _ _ hki,
        List.getElem?_take_of_lt (by omega), room_getElem _ k (by omega)]
    · have h3 : k + 1 < m.room_count := by omega
      rw [if_neg hki, if_pos h3, List.getElem?_eraseIdx_of_ge _ _ _ (by omega),
        List.getElem?_take_of_lt h3, room_getElem _ (k + 1) (by omega)]
  · have hL : ((multiroom_remove_room m (some name)).module.rooms.take
        (m.room_count - 1)).length ≤ k := by
      rw [List.length_take]; omega
    have hR : ((m.rooms.take m.room_count).eraseIdx idx).length ≤ k := by
      simp only [List.length_eraseIdx, List.length_take]
      split_ifs <;> omega
    rw [List.getElem?_eq_none hL, List.getElem?_eq_none hR]

/-- C26: on a room table of 8 entries with a count of at most 8 and names
without NUL, `multiroom_remove_room` of a name whose first occurrence among
the counted entries is at `idx` returns 0, lowers the count by one, leaves
as counted entries the old ones without entry `idx` in their old order
(names, sockets and addresses), clears the vacated position to the empty
name, socket -1 and a zero address, and keeps the entries beyond the old
count and the array length; of a name that is not among the counted entries
it returns -1 and changes nothing. After `multiroom_init`, every sequence of
additions and removals keeps the count at most 8, and `multiroom_add_room`
at a count of 8 returns -1 and changes nothing. -/
theorem room_table (m : MultiroomModule) (name : List Nat)
    (hlen : m.rooms.length = MAX_ROOMS) (hcount : m.room_count ≤ MAX_ROOMS)
    (hname : 0 ∉ name)
    (hstored : ∀ j, j < m.room_count → 0 ∉ (m.rooms.getD j Room.cleared).name) :
    (∀ idx, idx < m.room_count → (m.rooms.getD idx Room.cleared).name = name →
        (∀ j, j < idx → (m.rooms.getD j Room.cleared).name ≠ name) →
        (multiroom_remove_room m (some name)).ret = 0 ∧
          (multiroom_remove_room m (some name)).module.room_count + 1 = m.room_count ∧
          (multiroom_remove_room m (some name)).module.rooms.take
              (multiroom_remove_room m (some name)).module.room_count =
            (m.rooms.take m.room_count).eraseIdx idx ∧
          (multiroom_remove_room m (some name)).module.rooms.getD (m.room_count - 1)
              Room.cleared = ⟨[], -1, ⟨0, 0, 0⟩⟩ ∧
          (∀ j, m.room_count ≤ j →
            (multiroom_remove_room m (some name)).module.rooms.getD j Room.cleared =
              m.rooms.getD j Room.cleared) ∧
          (multiroom_remove_room m (some name)).module.rooms.length = MAX_ROOMS) ∧
      ((∀ j, j < m.room_count → (m.rooms.getD j Room.cleared).name ≠ name) →
        multiroom_remove_room m (some name) = ⟨-1, m, []⟩) ∧
      (∀ (start : MultiroomModule) (calls : List RoomCall),
        (room_calls start calls).room_count ≤ MAX_ROOMS) ∧
      (∀ (port : Nat) (sock : Int), m.room_count = MAX_ROOMS →
        multiroom_add_room m (some name) port sock = ⟨-1, m, []⟩) := by
  refine ⟨?_, ?_, ?_, ?_⟩
  · intro idx hidx hat hfirst
    have hf := find_room_first m name idx hname hstored hidx hat hfirst
    have hent := remove_room_entries m name idx hlen hcount hf hidx
    have hrc : (multiroom_remove_room m (some name)).module.room_count = m.room_count - 1 := by
      simp only [multiroom_remove_room, hf]
    have hrl : (multiroom_remove_room m (some name)).module.rooms.length = MAX_ROOMS := by
      simp only [multiroom_remove_room, hf, List.length_set, shift_rooms]
      rw [(shift_getD _ m.rooms idx (by omega)).1]
      exact hlen
    refine ⟨?_, ?_, ?_, ?_, ?_, hrl⟩
    · simp only [multiroom_remove_room, hf]
    · rw [hrc]; omega
    · exact remove_room_take m name idx hlen hcount hf hidx
    · rw [hent (m.room_count - 1)]
      have h2 : ¬ m.room_count - 1 < idx := by omega
      have h3 : ¬ m.room_count - 1 + 1 < m.room_count := by omega
      have h4 : m.room_count - 1 + 1 = m.room_count := by omega
      rw [if_neg h2, if_neg h3, if_pos h4]
      rfl
    · intro j hj
      rw [hent j]
      have h2 : ¬ j < idx := by omega
      have h3 : ¬ j + 1 < m.room_count := by omega
      have h4 : ¬ j + 1 = m.room_count := by omega
      rw [if_neg h2, if_neg h3, if_neg h4]
  · intro hno
    have hf := find_room_none m name hname hstored hno
    simp only [multiroom_remove_room, hf]
  · intro start calls
    exact (room_calls_bounds calls start).1
  · intro port sock hfull
    simp only [multiroom_add_room]
    have h2 : m.room_count ≥ MAX_ROOMS := by omega
    by_cases h1 : name.length = 0
    · rw [if_pos h1]
    · rw [if_neg h1, if_pos h2]

/-- Witness of C26: with "Kitchen", "Den" and "Attic" added after
`multiroom_init`, removing "Den" leaves "Kitchen" and "Attic" in this order
with their sockets and ports. -/
theorem room_table_witness :
    (multiroom_remove_room (room_calls multiroom_initial
        [RoomCall.add (str "Kitchen") 7001 10, RoomCall.add (str "Den") 7002 11,
          RoomCall.add (str "Attic") 7003 12]) (some (str "Den"))).module.rooms.take 2 =
      [⟨str "Kitchen", 10, ⟨2, 7001, 0⟩⟩, ⟨str "Attic", 12, ⟨2, 7003, 0⟩⟩] :=
  ((room_table (room_calls multiroom_initial
      [RoomCall.add (str "Kitchen") 7001 10, RoomCall.add (str "Den") 7002 11,
        RoomCall.add (str "Attic") 7003 12]) (str "Den")
    (by decide) (by decide) (by decide) (by decide)).1 1 (by decide) (by decide)
      (by decide)).2.2.1

/-- Setting the entry right after the first `c` and taking `c + 1` entries
appends the new entry to the first `c`. -/
theorem take_set_succ (l : List Room) (c : Nat) (e : Room) (h : c < l.length) :
    (l.set c e).take (c + 1) = l.take c ++ [e] := by
  have h1 : (l.set c e).take c = l.take c := by
    apply List.ext_getElem?
    intro i
    rw [List.getElem?_take, List.getElem?_take]
    split
    · rw [List.getElem?_set_ne (by omega)]
    · rfl
  rw [List.take_succ, h1, List.getElem?_set_self h]
  rfl

/-- A stored name is the name of a counted entry. -/
theorem stored_names_index (m : MultiroomModule) (n : List Nat) (h : n ∈ stored_names m) :
    ∃ j, j < m.room_count ∧ (m.rooms.getD j Room.cleared).name = n := by
  unfold stored_names at h
  obtain ⟨r, hr, hn⟩ := List.mem_map.mp h
  obtain ⟨j, hj⟩ := List.mem_iff_getElem?.mp hr
  have hjl : j < (m.rooms.take m.room_count).length := by
    by_contra hc
    rw [List.getElem?_eq_none (Nat.le_of_not_lt hc)] at hj
    exact Option.noConfusion hj
  rw [List.length_take] at hjl
  have hjc : j < m.room_count := by omega
  rw [List.getElem?_take_of_lt hjc] at hj
  refine ⟨j, hjc, ?_⟩
  rw [List.getD_eq_getElem?_getD, hj]
  exact hn

/-- The name of a counted entry is a stored name. -/
theorem stored_names_mem (m : MultiroomModule) (j : Nat) (hj : j < m.room_count)
    (hlen : m.room_count ≤ m.rooms.length) :
    (m.rooms.getD j Room.cleared).name ∈ stored_names m := by
  unfold stored_names
  apply List.mem_map.mpr
  refine ⟨m.rooms.getD j Room.cleared, ?_, rfl⟩
  apply List.getElem?_mem
  rw [List.getElem?_take_of_lt hj]
  exact room_getElem _ j (by omega)

/-- One call with a name shorter than the name buffer keeps the room table
well formed: the count within the array, no NUL in a stored name, and the
stored names pairwise distinct. -/
theorem room_call_distinct (m : MultiroomModule) (c : RoomCall)
    (hc : ∀ name port sock, c = RoomCall.add name port sock →
      0 ∉ name ∧ name.length < MAX_ROOM_NAME_LEN)
    (h : m.room_count ≤ MAX_ROOMS ∧ m.rooms.length = MAX_ROOMS ∧
      (∀ n ∈ stored_names m, 0 ∉ n) ∧ (stored_names m).Nodup) :
    (room_call m c).module.room_count ≤ MAX_ROOMS ∧
      (room_call m c).module.rooms.length = MAX_ROOMS ∧
      (∀ n ∈ stored_names (room_call m c).module, 0 ∉ n) ∧
      (stored_names (room_call m c).module).Nodup := by
  obtain ⟨hcount, hlen, hnul, hnd⟩ := h
  have hb := room_call_bounds m c ⟨hcount, hlen⟩
  refine ⟨hb.1, hb.2, ?_⟩
  cases c with
  | add name port sock =>
    obtain ⟨hname, hshort⟩ := hc name port sock rfl
    simp only [room_call, multiroom_add_room]
    by_cases h1 : name.length = 0
    · rw [if_pos h1]; exact ⟨hnul, hnd⟩
    · rw [if_neg h1]
      by_cases h2 : m.room_count ≥ MAX_ROOMS
      · rw [if_pos h2]; exact ⟨hnul, hnd⟩
      · rw [if_neg h2]
        by_cases h3 : (find_room m name).isSome = true
        · rw [if_pos h3]; exact ⟨hnul, hnd⟩
        · rw [if_neg h3]
          have hnone : find_room m name = none := by
            cases hf : find_room m name with
            | none => rfl
            | some i => rw [hf] at h3; exact absurd rfl h3
          have hfresh : name ∉ stored_names m := by
            intro hmem
            obtain ⟨j, hj, hjn⟩ := stored_names_index m name hmem
            unfold find_room at hnone
            rw [List.find?_eq_none] at hnone
            have h0 := hnone j (List.mem_range.mpr hj)
            have hz : strcmp (m.rooms.getD j Room.cleared).name name = 0 :=
              (strcmp_eq_zero_iff _ name (hjn ▸ hname) hname).mpr hjn
            exact h0 (by rw [hz]; rfl)
          have htake : name.take (MAX_ROOM_NAME_LEN - 1) = name :=
            List.take_of_length_le (by omega)
          have hnames : ∀ e : Room, e.name = name →
              stored_names ⟨m.rooms.set m.room_count e, m.room_count + 1,
                m.room_added_callback, m.room_removed_callback⟩ = stored_names m ++ [name] := by
            intro e he
            simp only [stored_names]
            rw [take_set_succ _ _ _ (by omega), List.map_append, List.map_singleton, he]
          have hnew := hnames
            (if sock ≥ 0 then
              ⟨name.take (MAX_ROOM_NAME_LEN - 1), sock, ⟨2, port, 0⟩⟩
            else ⟨name.take (MAX_ROOM_NAME_LEN - 1),
              (m.rooms.getD m.room_count Room.cleared).socket,
              (m.rooms.getD m.room_count Room.cleared).address⟩)
            (by split_ifs <;> exact htake)
          refine ⟨?_, ?_⟩
          · show ∀ n ∈ stored_names _, 0 ∉ n
            rw [hnew]
            intro n hn
            rcases List.mem_append.mp hn with hn | hn
            · exact hnul n hn
            · rw [List.mem_singleton.mp hn]; exact hname
          · show (stored_names _).Nodup
            rw [hnew, ← List.concat_eq_append]
            exact List.Nodup.concat hfresh hnd
  | remove name =>
    cases hf : find_room m name with
    | none =>
      simp only [room_call, multiroom_remove_room, hf]
      exact ⟨hnul, hnd⟩
    | some idx =>
      have hidx : idx < m.room_count :=
        List.mem_range.mp (List.mem_of_find?_eq_some hf)
      have hsub : List.Sublist (stored_names (room_call m (RoomCall.remove name)).module)
          (stored_names m) := by
        simp only [room_call, stored_names]
        rw [remove_room_take m name idx hlen hcount hf hidx]
        exact (List.eraseIdx_sublist _ _).map _
      exact ⟨fun n hn => hnul n (hsub.subset hn), hnd.sublist hsub⟩

/-- Supporting C25: after `multiroom_init`, every sequence of additions and
removals in which each added name holds no NUL and is shorter than the name
buffer (at most 31 characters) keeps the stored names pairwise distinct. -/
theorem short_room_names_distinct (start : MultiroomModule) (calls : List RoomCall)
    (hc : ∀ name port sock, RoomCall.add name port sock ∈ calls →
      0 ∉ name ∧ name.length < MAX_ROOM_NAME_LEN) :
    (stored_names (room_calls start calls)).Nodup := by
  unfold room_calls
  have h0 : (multiroom_init start).module.room_count ≤ MAX_ROOMS ∧
      (multiroom_init start).module.rooms.length = MAX_ROOMS ∧
      (∀ n ∈ stored_names (multiroom_init start).module, 0 ∉ n) ∧
      (stored_names (multiroom_init start).module).Nodup := by
    simp [multiroom_init, stored_names]
  generalize (multiroom_init start).module = st at h0
  induction calls generalizing st with
  | nil => exact h0.2.2.2
  | cons c calls ih =>
    rw [List.foldl_cons]
    apply ih
    · intro name port sock hmem
      exact hc name port sock (List.mem_cons_of_mem _ hmem)
    · apply room_call_distinct st c _ h0
      intro name port sock he
      exact hc name port sock (he ▸ List.mem_cons_self _ _)

end AirPlay
